import Mathlib

/-!
Verification development for the dual-processor HFT backtest core:
the strategy-side `Local` processor (src/rust/src/backtest/proc/local.rs)
and the matching-side `NoPartialFillExchange` processor
(src/rust/src/backtest/proc/nopartialfillexchange.rs).

The two processor files are embedded directly.  Supporting modules that the
processors use (ty.rs, order.rs, state.rs, depth, models) are not part of the
provided sources; where an operation of one of them is needed it is modelled
from the specification, and each such definition carries a doc comment that
starts with `Modelled from the spec:`.

Conventions of the shallow embedding:
- `i64` and `i32` values are `Int`; the claims do not involve overflow.
- `f32`/`f64` quantities and prices are `ℚ` (exact arithmetic; the embedded
  operations only copy, add, compare and multiply them).
- Rust `HashMap` is an association list (`List (key × value)`) with
  first-match lookup; `HashSet<i64>` is a duplicate-free `List Int`.
- `&mut` mutation is explicit state passing; fallible functions return
  `Except Error`.  Rust panics (`unwrap` on a broken invariant, a failed
  `assert!`) are modelled by the extra error value `Error.PanicUnwrap`,
  which is not one of the error kinds of the error enum.
-/

/-- Order side, `ty::Side`.  Modelled from the spec: §3 (`side ∈ {Buy, Sell}`);
ty.rs is not among the provided sources. -/
inductive Side where
  | Buy
  | Sell
deriving DecidableEq, Repr

/-- Order type, `ty::OrdType`.  Modelled from the spec: §3. -/
inductive OrdType where
  | Limit
  | Market
deriving DecidableEq, Repr

/-- Time in force, `ty::TimeInForce`.  Modelled from the spec: §3. -/
inductive TimeInForce where
  | GTC
  | GTX
  | IOC
  | FOK
deriving DecidableEq, Repr

/-- Order / request status, `ty::Status`.  Modelled from the spec: §3
(`status ∈ {None, New, Filled, Canceled, Expired, …}`,
`req ∈ {None, New, Canceled, Modified}`). -/
inductive Status where
  | None
  | New
  | Filled
  | Canceled
  | Expired
  | Modified
deriving DecidableEq, Repr

/-- Error kinds, `backtest::Error`.  Modelled from the spec: §7.
`PanicUnwrap` is not a member of the enum; it models a Rust panic
(an `unwrap` on a missing key, or a failed `assert!`). -/
inductive Error where
  | OrderAlreadyExist
  | OrderNotFound
  | OrderRequestInProcess
  | InvalidOrderRequest
  | InvalidOrderStatus
  | EndOfData
  | PanicUnwrap
deriving DecidableEq, Repr

/-- The order record, `ty::Order<Q>`.  Modelled from the spec: §3 lists the
fields; ty.rs is not among the provided sources.  `q` is the opaque
queue-position value whose type is the simulator parameter `Q`. -/
structure Order (Q : Type) where
  qty : ℚ
  leaves_qty : ℚ
  price_tick : Int
  tick_size : ℚ
  side : Side
  time_in_force : TimeInForce
  exch_timestamp : Int
  status : Status
  local_timestamp : Int
  req : Status
  exec_price_tick : Int
  exec_qty : ℚ
  order_id : Int
  q : Q
  maker : Bool
  order_type : OrdType
deriving DecidableEq, Repr

/-- Modelled from the spec: `Order::new` (ty.rs is not among the provided
sources).  Its call sites, visible in local.rs line 135, pass exactly the
seven arguments below, so no timestamp can reach the constructor.  Fields
not determined by an argument take their defaults (`0`, `None`, `false`,
`Q::default()`), except that the spec §4.5 pins the status of a freshly
submitted order to `New` and §3 gives `leaves_qty` = unfilled remainder,
which for a fresh order is the full `qty`. -/
def Order.new {Q : Type} [Inhabited Q] (order_id : Int) (price_tick : Int)
    (tick_size : ℚ) (qty : ℚ) (side : Side) (order_type : OrdType)
    (time_in_force : TimeInForce) : Order Q :=
  { qty := qty
    leaves_qty := qty
    price_tick := price_tick
    tick_size := tick_size
    side := side
    time_in_force := time_in_force
    exch_timestamp := 0
    status := Status.New
    local_timestamp := 0
    req := Status.None
    exec_price_tick := 0
    exec_qty := 0
    order_id := order_id
    q := default
    maker := false
    order_type := order_type }

/-- `i64::MAX`. -/
def I64_MAX : Int := 9223372036854775807

/-- Modelled from the spec: sentinel for an empty bid side (§3); the depth
module is not among the provided sources.  The value is `i32::MIN`. -/
def INVALID_MIN : Int := -2147483648

/-- Modelled from the spec: sentinel for an empty ask side (§3); the value is
`i32::MAX`. -/
def INVALID_MAX : Int := 2147483647

/-- First-match association-list lookup; the embedding of `HashMap::get`. -/
def lookupA {α : Type} : List (Int × α) → Int → Option α
  | [], _ => none
  | (k, a) :: l, k' => if k' = k then some a else lookupA l k'

/-- In-place overwrite, appending when the key is new; the embedding of
`HashMap::insert` (the source never uses the returned previous value). -/
def insertA {α : Type} : List (Int × α) → Int → α → List (Int × α)
  | [], k, a => [(k, a)]
  | (k0, a0) :: l, k, a =>
      if k = k0 then (k, a) :: l else (k0, a0) :: insertA l k a

/-- Removal of the first entry with the key; the embedding of
`HashMap::remove` on a duplicate-free map. -/
def eraseA {α : Type} : List (Int × α) → Int → List (Int × α)
  | [], _ => []
  | (k0, a0) :: l, k => if k = k0 then l else (k0, a0) :: eraseA l k

/-- The id set a per-tick index holds at a tick (`∅` when the tick is
absent). -/
def idxGet (idx : List (Int × List Int)) (t : Int) : List Int :=
  (lookupA idx t).getD []

/-- The embedding of `map.entry(tick).or_insert(HashSet::new()).insert(id)`:
a set, so an already-present id is not duplicated. -/
def idxInsert (idx : List (Int × List Int)) (t oid : Int) :
    List (Int × List Int) :=
  match lookupA idx t with
  | none => insertA idx t [oid]
  | some ids => insertA idx t (if oid ∈ ids then ids else ids ++ [oid])

/-- The embedding of `map.get_mut(&tick).unwrap().remove(&id)`.  The
`unwrap` panics when the tick has never been indexed; that is
`Error.PanicUnwrap` here. -/
def idxRemove (idx : List (Int × List Int)) (t oid : Int) :
    Except Error (List (Int × List Int)) :=
  match lookupA idx t with
  | none => Except.error Error.PanicUnwrap
  | some ids => Except.ok (insertA idx t (ids.filter (fun i => i ≠ oid)))

/-- An order bus entry: the order clone and its delivery timestamp. -/
abbrev OrderBus (Q : Type) := List (Order Q × Int)

/-- Modelled from the spec: `OrderBus::append` (order.rs is not among the
provided sources).  §3: a time-sorted queue; insertion preserves
non-decreasing delivery-timestamp order, ties broken by insertion order. -/
def busAppend {Q : Type} : OrderBus Q → Order Q → Int → OrderBus Q
  | [], o, ts => [(o, ts)]
  | (o0, ts0) :: b, o, ts =>
      if ts < ts0 then (o, ts) :: (o0, ts0) :: b
      else (o0, ts0) :: busAppend b o ts

/-- Modelled from the spec: the slice of `HashMapMarketDepth` the embedded
processor code reads (§3, §4.1); the depth module is not among the provided
sources.  The two level maps are tick → quantity. -/
structure Depth where
  tick_size : ℚ
  best_bid_tick : Int
  best_ask_tick : Int
  bid_depth : List (Int × ℚ)
  ask_depth : List (Int × ℚ)
deriving DecidableEq, Repr

/-- The latency model capability object (§4.2); models.rs is not among the
provided sources, and the claims treat it as an opaque parameter.  Both
delays are pure functions of `(timestamp, order)`. -/
structure LatencyModel (Q : Type) where
  entry : Int → Order Q → Int
  response : Int → Order Q → Int

/-- The queue model capability object (§4.3), opaque to the claims.  The Rust
methods mutate `order.q`; here each returns the new `q` value. -/
structure QueueModel (Q : Type) where
  new_order : Order Q → Depth → Q
  trade : Order Q → ℚ → Depth → Q
  depth : Order Q → ℚ → ℚ → Depth → Q
  is_filled : Order Q → Depth → Bool

/-- State accounting values (§3, §4.4). -/
structure StateVals where
  position : ℚ
  balance : ℚ
  fee : ℚ
  trade_num : Int
  trade_qty : ℚ
  trade_amount : ℚ
  maker_fee : ℚ
  taker_fee : ℚ
deriving DecidableEq, Repr

/-- Modelled from the spec: `State::apply_fill` for the linear asset type
(§4.4: `position += signed_qty`, `balance -= signed_qty · fill_price`,
`fee += fee_rate(maker|taker) · notional`, and the trade counters; fill
accounting uses the tick-multiplied price, §9). -/
def apply_fill {Q : Type} (st : StateVals) (order : Order Q) : StateVals :=
  let signed_qty : ℚ :=
    match order.side with
    | Side.Buy => order.exec_qty
    | Side.Sell => -order.exec_qty
  let px : ℚ := (order.exec_price_tick : ℚ) * order.tick_size
  let rate : ℚ := if order.maker then st.maker_fee else st.taker_fee
  { st with
    position := st.position + signed_qty
    balance := st.balance - signed_qty * px
    fee := st.fee + rate * (order.exec_qty * px)
    trade_num := st.trade_num + 1
    trade_qty := st.trade_qty + order.exec_qty
    trade_amount := st.trade_amount + order.exec_qty * px }

/-- Rounding of `f32::round`: to the nearest integer, ties away from zero
(used for `(px / tick_size).round() as i32`). -/
def rustRound (x : ℚ) : Int :=
  if 0 ≤ x then ⌊x + 1 / 2⌋ else -⌊-x + 1 / 2⌋

/-- The mutable state of `NoPartialFillExchange` (nopartialfillexchange.rs
lines 34-60) as far as the embedded operations touch it: the resting-order
map keyed by order id, the two per-tick indices, the outbound (to-local)
bus, the market depth, the state accounting and the scratch list of filled
order ids.  The reader/data-advance fields are not embedded; the claims
concern the matching and request logic. -/
structure ExchSt (Q : Type) where
  orders : List (Int × Order Q)
  buy_orders : List (Int × List Int)
  sell_orders : List (Int × List Int)
  orders_to : OrderBus Q
  depth : Depth
  state : StateVals
  filled_orders : List Int
deriving DecidableEq, Repr

/-- The pure part of `NoPartialFillExchange::fill` (lines 197-207): the field
updates applied to the order being filled. -/
def fillOrder {Q : Type} (o : Order Q) (timestamp : Int) (maker : Bool)
    (exec_price_tick : Int) : Order Q :=
  { o with
    maker := maker
    exec_price_tick := if maker then o.price_tick else exec_price_tick
    exec_qty := o.leaves_qty
    leaves_qty := 0
    status := Status.Filled
    exch_timestamp := timestamp }

/-- `NoPartialFillExchange::fill` (lines 183-214).  Returns the state with the
accounting applied and the response on the outbound bus, the mutated order
(the Rust function mutates it through `&mut`), and the local receive
timestamp. -/
def fill {Q : Type} (lm : LatencyModel Q) (s : ExchSt Q) (order : Order Q)
    (timestamp : Int) (maker : Bool) (exec_price_tick : Int) :
    Except Error (ExchSt Q × Order Q × Int) :=
  if order.status = Status.Expired ∨ order.status = Status.Canceled ∨
      order.status = Status.Filled then
    Except.error Error.InvalidOrderStatus
  else
    let order1 := fillOrder order timestamp maker exec_price_tick
    let local_recv_timestamp := order1.exch_timestamp + lm.response timestamp order1
    Except.ok
      ({ s with
          state := apply_fill s.state order1
          orders_to := busAppend s.orders_to order1 local_recv_timestamp },
        order1, local_recv_timestamp)

/-- `self.filled_orders.push(id)`. -/
def pushFilled {Q : Type} (s : ExchSt Q) (oid : Int) : ExchSt Q :=
  { s with filled_orders := s.filled_orders ++ [oid] }

/-- `NoPartialFillExchange::check_if_sell_filled` (lines 141-160).  Returns
the updated state, the mutated order (queue position or fill fields), and
the returned timestamp. -/
def check_if_sell_filled {Q : Type} (qm : QueueModel Q) (lm : LatencyModel Q)
    (s : ExchSt Q) (order : Order Q) (price_tick : Int) (qty : ℚ)
    (timestamp : Int) : Except Error (ExchSt Q × Order Q × Int) :=
  if order.price_tick < price_tick then
    fill lm (pushFilled s order.order_id) order timestamp true order.price_tick
  else if order.price_tick = price_tick then
    let order1 := { order with q := qm.trade order qty s.depth }
    if qm.is_filled order1 s.depth then
      fill lm (pushFilled s order1.order_id) order1 timestamp true order1.price_tick
    else
      Except.ok (s, order1, I64_MAX)
  else
    Except.ok (s, order, I64_MAX)

/-- `NoPartialFillExchange::check_if_buy_filled` (lines 162-181). -/
def check_if_buy_filled {Q : Type} (qm : QueueModel Q) (lm : LatencyModel Q)
    (s : ExchSt Q) (order : Order Q) (price_tick : Int) (qty : ℚ)
    (timestamp : Int) : Except Error (ExchSt Q × Order Q × Int) :=
  if order.price_tick > price_tick then
    fill lm (pushFilled s order.order_id) order timestamp true order.price_tick
  else if order.price_tick = price_tick then
    let order1 := { order with q := qm.trade order qty s.depth }
    if qm.is_filled order1 s.depth then
      fill lm (pushFilled s order1.order_id) order1 timestamp true order1.price_tick
    else
      Except.ok (s, order1, I64_MAX)
  else
    Except.ok (s, order, I64_MAX)

/-- `NoPartialFillExchange::remove_filled_orders` (lines 216-234), the inner
loop: each filled id is removed from the order map (`remove(..).unwrap()`)
and from its side's per-tick index. -/
def remove_filled_go {Q : Type} : List Int → ExchSt Q → Except Error (ExchSt Q)
  | [], s => Except.ok s
  | oid :: rest, s =>
    match lookupA s.orders oid with
    | none => Except.error Error.PanicUnwrap
    | some o =>
      let s1 := { s with orders := eraseA s.orders oid }
      if o.side = Side.Buy then
        match idxRemove s1.buy_orders o.price_tick oid with
        | Except.error e => Except.error e
        | Except.ok bi => remove_filled_go rest { s1 with buy_orders := bi }
      else
        match idxRemove s1.sell_orders o.price_tick oid with
        | Except.error e => Except.error e
        | Except.ok si => remove_filled_go rest { s1 with sell_orders := si }

/-- `NoPartialFillExchange::remove_filled_orders` (lines 216-234): drains
`filled_orders`. -/
def remove_filled_orders {Q : Type} (s : ExchSt Q) : Except Error (ExchSt Q) :=
  match remove_filled_go s.filled_orders s with
  | Except.error e => Except.error e
  | Except.ok s1 => Except.ok { s1 with filled_orders := [] }

/-- The ascending tick range `a..=b` as a list (empty when `b < a`). -/
def tickRange (a b : Int) : List Int :=
  (List.range (b + 1 - a).toNat).map (fun (n : Nat) => a + (n : Int))

/-- The map-walk branch of the `EXCH_BUY_TRADE_EVENT` handler
(nopartialfillexchange.rs lines 641-650): walk every entry of the order map
and run `check_if_sell_filled` on the sell orders, writing the mutated
order back.  The entry list is the order map at the start of the walk; keys
are distinct in a `HashMap`, so each entry is visited exactly once. -/
def sweep_sell_map {Q : Type} (qm : QueueModel Q) (lm : LatencyModel Q)
    (price_tick : Int) (qty : ℚ) (timestamp : Int) :
    List (Int × Order Q) → ExchSt Q → Except Error (ExchSt Q)
  | [], s => Except.ok s
  | (oid, o) :: rest, s =>
    if o.side = Side.Sell then
      match check_if_sell_filled qm lm s o price_tick qty timestamp with
      | Except.error e => Except.error e
      | Except.ok (s1, o1, _) =>
          sweep_sell_map qm lm price_tick qty timestamp rest
            { s1 with orders := insertA s1.orders oid o1 }
    else
      sweep_sell_map qm lm price_tick qty timestamp rest s

/-- The map-walk branch of the `EXCH_SELL_TRADE_EVENT` handler
(lines 677-685). -/
def sweep_buy_map {Q : Type} (qm : QueueModel Q) (lm : LatencyModel Q)
    (price_tick : Int) (qty : ℚ) (timestamp : Int) :
    List (Int × Order Q) → ExchSt Q → Except Error (ExchSt Q)
  | [], s => Except.ok s
  | (oid, o) :: rest, s =>
    if o.side = Side.Buy then
      match check_if_buy_filled qm lm s o price_tick qty timestamp with
      | Except.error e => Except.error e
      | Except.ok (s1, o1, _) =>
          sweep_buy_map qm lm price_tick qty timestamp rest
            { s1 with orders := insertA s1.orders oid o1 }
    else
      sweep_buy_map qm lm price_tick qty timestamp rest s

/-- Inner loop of the tick-walk branch of the buy-trade handler
(lines 654-662): the ids indexed at one tick, looked up in the order map
(`get_mut(..).unwrap()`) and passed to `check_if_sell_filled`. -/
def sweep_sell_ids {Q : Type} (qm : QueueModel Q) (lm : LatencyModel Q)
    (price_tick : Int) (qty : ℚ) (timestamp : Int) :
    List Int → ExchSt Q → Except Error (ExchSt Q)
  | [], s => Except.ok s
  | oid :: rest, s =>
    match lookupA s.orders oid with
    | none => Except.error Error.PanicUnwrap
    | some o =>
      match check_if_sell_filled qm lm s o price_tick qty timestamp with
      | Except.error e => Except.error e
      | Except.ok (s1, o1, _) =>
          sweep_sell_ids qm lm price_tick qty timestamp rest
            { s1 with orders := insertA s1.orders oid o1 }

/-- Outer loop of the tick-walk branch of the buy-trade handler
(lines 652-664): the swept tick span through `sell_orders` (an absent tick
is skipped).  The id set is cloned before iterating, and nothing in the
loop body mutates the index, so the looked-up id lists are those of the
initial state. -/
def sweep_sell_ticks {Q : Type} (qm : QueueModel Q) (lm : LatencyModel Q)
    (price_tick : Int) (qty : ℚ) (timestamp : Int)
    (idx : List (Int × List Int)) :
    List Int → ExchSt Q → Except Error (ExchSt Q)
  | [], s => Except.ok s
  | t :: ts, s =>
    match lookupA idx t with
    | none => sweep_sell_ticks qm lm price_tick qty timestamp idx ts s
    | some ids =>
      match sweep_sell_ids qm lm price_tick qty timestamp ids s with
      | Except.error e => Except.error e
      | Except.ok s1 => sweep_sell_ticks qm lm price_tick qty timestamp idx ts s1

/-- Inner loop of the tick-walk branch of the sell-trade handler
(lines 690-698). -/
def sweep_buy_ids {Q : Type} (qm : QueueModel Q) (lm : LatencyModel Q)
    (price_tick : Int) (qty : ℚ) (timestamp : Int) :
    List Int → ExchSt Q → Except Error (ExchSt Q)
  | [], s => Except.ok s
  | oid :: rest, s =>
    match lookupA s.orders oid with
    | none => Except.error Error.PanicUnwrap
    | some o =>
      match check_if_buy_filled qm lm s o price_tick qty timestamp with
      | Except.error e => Except.error e
      | Except.ok (s1, o1, _) =>
          sweep_buy_ids qm lm price_tick qty timestamp rest
            { s1 with orders := insertA s1.orders oid o1 }

/-- Outer loop of the tick-walk branch of the sell-trade handler
(lines 688-700), iterating the given tick list through `buy_orders`. -/
def sweep_buy_ticks {Q : Type} (qm : QueueModel Q) (lm : LatencyModel Q)
    (price_tick : Int) (qty : ℚ) (timestamp : Int)
    (idx : List (Int × List Int)) :
    List Int → ExchSt Q → Except Error (ExchSt Q)
  | [], s => Except.ok s
  | t :: ts, s =>
    match lookupA idx t with
    | none => sweep_buy_ticks qm lm price_tick qty timestamp idx ts s
    | some ids =>
      match sweep_buy_ids qm lm price_tick qty timestamp ids s with
      | Except.error e => Except.error e
      | Except.ok s1 => sweep_buy_ticks qm lm price_tick qty timestamp idx ts s1

/-- The `EXCH_BUY_TRADE_EVENT` branch of
`NoPartialFillExchange::process_data` (lines 632-667): compute the trade
tick, pick the map walk when the previous best bid is the sentinel or the
order map is smaller than the swept span, the tick walk
`(best_bid+1)..=price_tick` otherwise, then remove the filled orders. -/
def process_buy_trade {Q : Type} (qm : QueueModel Q) (lm : LatencyModel Q)
    (s : ExchSt Q) (px : ℚ) (qty : ℚ) (timestamp : Int) :
    Except Error (ExchSt Q) :=
  let price_tick : Int := rustRound (px / s.depth.tick_size)
  let r :=
    if s.depth.best_bid_tick = INVALID_MIN ∨
        (s.orders.length : Int) < price_tick - s.depth.best_bid_tick then
      sweep_sell_map qm lm price_tick qty timestamp s.orders s
    else
      sweep_sell_ticks qm lm price_tick qty timestamp s.sell_orders
        (tickRange (s.depth.best_bid_tick + 1) price_tick) s
  match r with
  | Except.error e => Except.error e
  | Except.ok s1 => remove_filled_orders s1

/-- The `EXCH_SELL_TRADE_EVENT` branch of `process_data` (lines 668-704);
the tick walk is `(price_tick..best_ask_tick).rev()`, i.e. the descending
half-open span. -/
def process_sell_trade {Q : Type} (qm : QueueModel Q) (lm : LatencyModel Q)
    (s : ExchSt Q) (px : ℚ) (qty : ℚ) (timestamp : Int) :
    Except Error (ExchSt Q) :=
  let price_tick : Int := rustRound (px / s.depth.tick_size)
  let r :=
    if s.depth.best_ask_tick = INVALID_MAX ∨
        (s.orders.length : Int) < s.depth.best_ask_tick - price_tick then
      sweep_buy_map qm lm price_tick qty timestamp s.orders s
    else
      sweep_buy_ticks qm lm price_tick qty timestamp s.buy_orders
        (tickRange price_tick (s.depth.best_ask_tick - 1)).reverse s
  match r with
  | Except.error e => Except.error e
  | Except.ok s1 => remove_filled_orders s1

/-- The map-walk branch of `NoPartialFillExchange::on_best_bid_update`
(lines 274-279): every resting sell with `price_tick ≤ new_best_tick` is
pushed and filled as maker at its own tick. -/
def best_bid_map {Q : Type} (lm : LatencyModel Q) (new_best_tick : Int)
    (timestamp : Int) :
    List (Int × Order Q) → ExchSt Q → Except Error (ExchSt Q)
  | [], s => Except.ok s
  | (oid, o) :: rest, s =>
    if o.side = Side.Sell ∧ o.price_tick ≤ new_best_tick then
      match fill lm (pushFilled s o.order_id) o timestamp true o.price_tick with
      | Except.error e => Except.error e
      | Except.ok (s1, o1, _) =>
          best_bid_map lm new_best_tick timestamp rest
            { s1 with orders := insertA s1.orders oid o1 }
    else
      best_bid_map lm new_best_tick timestamp rest s

/-- Inner loop of the tick-walk branch of `on_best_bid_update`
(lines 283-287): the id is pushed, then the order is looked up
(`get_mut(..).unwrap()`) and filled. -/
def best_bid_ids {Q : Type} (lm : LatencyModel Q) (timestamp : Int) :
    List Int → ExchSt Q → Except Error (ExchSt Q)
  | [], s => Except.ok s
  | oid :: rest, s =>
    let s0 := pushFilled s oid
    match lookupA s0.orders oid with
    | none => Except.error Error.PanicUnwrap
    | some o =>
      match fill lm s0 o timestamp true o.price_tick with
      | Except.error e => Except.error e
      | Except.ok (s1, o1, _) =>
          best_bid_ids lm timestamp rest
            { s1 with orders := insertA s1.orders oid o1 }

/-- Outer loop of the tick-walk branch of `on_best_bid_update`
(lines 281-289). -/
def best_bid_ticks {Q : Type} (lm : LatencyModel Q) (timestamp : Int)
    (idx : List (Int × List Int)) :
    List Int → ExchSt Q → Except Error (ExchSt Q)
  | [], s => Except.ok s
  | t :: ts, s =>
    match lookupA idx t with
    | none => best_bid_ticks lm timestamp idx ts s
    | some ids =>
      match best_bid_ids lm timestamp ids s with
      | Except.error e => Except.error e
      | Except.ok s1 => best_bid_ticks lm timestamp idx ts s1

/-- `NoPartialFillExchange::on_best_bid_update` (lines 260-294): pick the
map walk on a sentinel previous best or when the order map is smaller than
the span, the tick walk `(prev+1)..=new` otherwise, then remove the filled
orders. -/
def on_best_bid_update {Q : Type} (lm : LatencyModel Q) (s : ExchSt Q)
    (prev_best_tick new_best_tick : Int) (timestamp : Int) :
    Except Error (ExchSt Q) :=
  let r :=
    if prev_best_tick = INVALID_MIN ∨
        (s.orders.length : Int) < new_best_tick - prev_best_tick then
      best_bid_map lm new_best_tick timestamp s.orders s
    else
      best_bid_ticks lm timestamp s.sell_orders
        (tickRange (prev_best_tick + 1) new_best_tick) s
  match r with
  | Except.error e => Except.error e
  | Except.ok s1 => remove_filled_orders s1

/-- The map-walk branch of `on_best_ask_update` (lines 310-315): every
resting buy with `price_tick ≥ new_best_tick` is filled. -/
def best_ask_map {Q : Type} (lm : LatencyModel Q) (new_best_tick : Int)
    (timestamp : Int) :
    List (Int × Order Q) → ExchSt Q → Except Error (ExchSt Q)
  | [], s => Except.ok s
  | (oid, o) :: rest, s =>
    if o.side = Side.Buy ∧ o.price_tick ≥ new_best_tick then
      match fill lm (pushFilled s o.order_id) o timestamp true o.price_tick with
      | Except.error e => Except.error e
      | Except.ok (s1, o1, _) =>
          best_ask_map lm new_best_tick timestamp rest
            { s1 with orders := insertA s1.orders oid o1 }
    else
      best_ask_map lm new_best_tick timestamp rest s

/-- Inner loop of the tick-walk branch of `on_best_ask_update`
(lines 319-323). -/
def best_ask_ids {Q : Type} (lm : LatencyModel Q) (timestamp : Int) :
    List Int → ExchSt Q → Except Error (ExchSt Q)
  | [], s => Except.ok s
  | oid :: rest, s =>
    let s0 := pushFilled s oid
    match lookupA s0.orders oid with
    | none => Except.error Error.PanicUnwrap
    | some o =>
      match fill lm s0 o timestamp true o.price_tick with
      | Except.error e => Except.error e
      | Except.ok (s1, o1, _) =>
          best_ask_ids lm timestamp rest
            { s1 with orders := insertA s1.orders oid o1 }

/-- Outer loop of the tick-walk branch of `on_best_ask_update`
(lines 317-325), iterating `new_best..prev_best` (ascending, half open)
through `buy_orders`. -/
def best_ask_ticks {Q : Type} (lm : LatencyModel Q) (timestamp : Int)
    (idx : List (Int × List Int)) :
    List Int → ExchSt Q → Except Error (ExchSt Q)
  | [], s => Except.ok s
  | t :: ts, s =>
    match lookupA idx t with
    | none => best_ask_ticks lm timestamp idx ts s
    | some ids =>
      match best_ask_ids lm timestamp ids s with
      | Except.error e => Except.error e
      | Except.ok s1 => best_ask_ticks lm timestamp idx ts s1

/-- `NoPartialFillExchange::on_best_ask_update` (lines 296-330). -/
def on_best_ask_update {Q : Type} (lm : LatencyModel Q) (s : ExchSt Q)
    (prev_best_tick new_best_tick : Int) (timestamp : Int) :
    Except Error (ExchSt Q) :=
  let r :=
    if prev_best_tick = INVALID_MAX ∨
        (s.orders.length : Int) < prev_best_tick - new_best_tick then
      best_ask_map lm new_best_tick timestamp s.orders s
    else
      best_ask_ticks lm timestamp s.buy_orders
        (tickRange new_best_tick (prev_best_tick - 1)) s
  match r with
  | Except.error e => Except.error e
  | Except.ok s1 => remove_filled_orders s1

/-- `NoPartialFillExchange::ack_new` (lines 332-406).  Returns the new state
and the returned `local_recv_timestamp`. -/
def ack_new {Q : Type} (qm : QueueModel Q) (lm : LatencyModel Q)
    (s : ExchSt Q) (order : Order Q) (timestamp : Int) :
    Except Error (ExchSt Q × Int) :=
  if (lookupA s.orders order.order_id).isSome then
    Except.error Error.OrderAlreadyExist
  else if order.side = Side.Buy then
    if order.price_tick ≥ s.depth.best_ask_tick then
      if order.time_in_force = TimeInForce.GTX then
        let order1 := { order with status := Status.Expired, exch_timestamp := timestamp }
        let local_recv_timestamp := timestamp + lm.response timestamp order1
        Except.ok
          ({ s with orders_to := busAppend s.orders_to order1 local_recv_timestamp },
            local_recv_timestamp)
      else
        match fill lm s order timestamp false s.depth.best_ask_tick with
        | Except.error e => Except.error e
        | Except.ok (s1, _, lrt) => Except.ok (s1, lrt)
    else
      let order1 :=
        { order with
            q := qm.new_order order s.depth
            status := Status.New
            exch_timestamp := timestamp }
      let local_recv_timestamp := timestamp + lm.response timestamp order1
      Except.ok
        ({ s with
            buy_orders := idxInsert s.buy_orders order1.price_tick order1.order_id
            orders_to := busAppend s.orders_to order1 local_recv_timestamp
            orders := insertA s.orders order1.order_id order1 },
          local_recv_timestamp)
  else
    if order.price_tick ≤ s.depth.best_bid_tick then
      if order.time_in_force = TimeInForce.GTX then
        let order1 := { order with status := Status.Expired, exch_timestamp := timestamp }
        let local_recv_timestamp := timestamp + lm.response timestamp order1
        Except.ok
          ({ s with orders_to := busAppend s.orders_to order1 local_recv_timestamp },
            local_recv_timestamp)
      else
        match fill lm s order timestamp false s.depth.best_bid_tick with
        | Except.error e => Except.error e
        | Except.ok (s1, _, lrt) => Except.ok (s1, lrt)
    else
      let order1 :=
        { order with
            q := qm.new_order order s.depth
            status := Status.New
            exch_timestamp := timestamp }
      let local_recv_timestamp := timestamp + lm.response timestamp order1
      Except.ok
        ({ s with
            sell_orders := idxInsert s.sell_orders order1.price_tick order1.order_id
            orders_to := busAppend s.orders_to order1 local_recv_timestamp
            orders := insertA s.orders order1.order_id order1 },
          local_recv_timestamp)

/-- `NoPartialFillExchange::ack_cancel` (lines 408-445).  When the order id is
no longer in the exchange map, the source computes the `Expired` response
and its delivery timestamp but the `orders_to.append` is commented out
(lines 418-420), so nothing is put on the bus. -/
def ack_cancel {Q : Type} (lm : LatencyModel Q) (s : ExchSt Q)
    (order : Order Q) (timestamp : Int) : Except Error (ExchSt Q × Int) :=
  match lookupA s.orders order.order_id with
  | none =>
    let order1 := { order with status := Status.Expired, exch_timestamp := timestamp }
    let local_recv_timestamp := timestamp + lm.response timestamp order1
    Except.ok (s, local_recv_timestamp)
  | some exch_order =>
    let s1 := { s with orders := eraseA s.orders order.order_id }
    let idxres :=
      if exch_order.side = Side.Buy then
        match idxRemove s1.buy_orders exch_order.price_tick exch_order.order_id with
        | Except.error e => Except.error e
        | Except.ok bi => Except.ok { s1 with buy_orders := bi }
      else
        match idxRemove s1.sell_orders exch_order.price_tick exch_order.order_id with
        | Except.error e => Except.error e
        | Except.ok si => Except.ok { s1 with sell_orders := si }
    match idxres with
    | Except.error e => Except.error e
    | Except.ok s2 =>
      let exch_order1 :=
        { exch_order with status := Status.Canceled, exch_timestamp := timestamp }
      let local_recv_timestamp := timestamp + lm.response timestamp exch_order1
      Except.ok
        ({ s2 with orders_to := busAppend s2.orders_to exch_order1 local_recv_timestamp },
          local_recv_timestamp)

/-- `NoPartialFillExchange::ack_modify` (lines 447-577).  Present in the
source but never called from `process_recv_order_`.  When the order is gone
the `Expired` response append is commented out, as in `ack_cancel`.
Otherwise `price_tick` and `qty` are updated, a now-crossing order is
taker-filled (GTX: expired), a changed tick re-keys the per-tick index, and
`init_q_pos` is hard-wired `true`, so the queue position is reinitialized
whenever the order rests again. -/
def ack_modify {Q : Type} (qm : QueueModel Q) (lm : LatencyModel Q)
    (s : ExchSt Q) (order : Order Q) (timestamp : Int) :
    Except Error (ExchSt Q × Int) :=
  match lookupA s.orders order.order_id with
  | none =>
    let order1 := { order with status := Status.Expired, exch_timestamp := timestamp }
    let local_recv_timestamp := timestamp + lm.response timestamp order1
    Except.ok (s, local_recv_timestamp)
  | some exch_order0 =>
    let s0 := { s with orders := eraseA s.orders order.order_id }
    let prev_price_tick := exch_order0.price_tick
    let exch_order := { exch_order0 with price_tick := order.price_tick, qty := order.qty }
    let init_q_pos := true
    if exch_order.side = Side.Buy then
      if exch_order.price_tick ≥ s0.depth.best_ask_tick then
        match idxRemove s0.buy_orders prev_price_tick exch_order.order_id with
        | Except.error e => Except.error e
        | Except.ok bi =>
          let s1 := { s0 with buy_orders := bi }
          if exch_order.time_in_force = TimeInForce.GTX then
            let exch_order1 :=
              { exch_order with status := Status.Expired, exch_timestamp := timestamp }
            let local_recv_timestamp := timestamp + lm.response timestamp exch_order1
            Except.ok
              ({ s1 with
                  orders_to := busAppend s1.orders_to exch_order1 local_recv_timestamp },
                local_recv_timestamp)
          else
            match fill lm s1 exch_order timestamp false s1.depth.best_ask_tick with
            | Except.error e => Except.error e
            | Except.ok (s2, _, lrt) => Except.ok (s2, lrt)
      else
        let idxres :=
          if prev_price_tick ≠ exch_order.price_tick then
            match idxRemove s0.buy_orders prev_price_tick exch_order.order_id with
            | Except.error e => Except.error e
            | Except.ok bi =>
              Except.ok { s0 with
                buy_orders := idxInsert bi exch_order.price_tick exch_order.order_id }
          else Except.ok s0
        match idxres with
        | Except.error e => Except.error e
        | Except.ok s1 =>
          let exch_order1 :=
            if init_q_pos ∨ prev_price_tick ≠ exch_order.price_tick then
              { exch_order with q := qm.new_order exch_order s1.depth }
            else exch_order
          let exch_order2 :=
            { exch_order1 with status := Status.New, exch_timestamp := timestamp }
          let local_recv_timestamp := timestamp + lm.response timestamp exch_order2
          Except.ok
            ({ s1 with
                orders_to := busAppend s1.orders_to exch_order2 local_recv_timestamp
                orders := insertA s1.orders exch_order2.order_id exch_order2 },
              local_recv_timestamp)
    else
      if exch_order.price_tick ≤ s0.depth.best_bid_tick then
        match idxRemove s0.sell_orders prev_price_tick exch_order.order_id with
        | Except.error e => Except.error e
        | Except.ok si =>
          let s1 := { s0 with sell_orders := si }
          if exch_order.time_in_force = TimeInForce.GTX then
            let exch_order1 :=
              { exch_order with status := Status.Expired, exch_timestamp := timestamp }
            let local_recv_timestamp := timestamp + lm.response timestamp exch_order1
            Except.ok
              ({ s1 with
                  orders_to := busAppend s1.orders_to exch_order1 local_recv_timestamp },
                local_recv_timestamp)
          else
            match fill lm s1 exch_order timestamp false s1.depth.best_bid_tick with
            | Except.error e => Except.error e
            | Except.ok (s2, _, lrt) => Except.ok (s2, lrt)
      else
        let idxres :=
          if prev_price_tick ≠ exch_order.price_tick then
            match idxRemove s0.sell_orders prev_price_tick exch_order.order_id with
            | Except.error e => Except.error e
            | Except.ok si =>
              Except.ok { s0 with
                sell_orders := idxInsert si exch_order.price_tick exch_order.order_id }
          else Except.ok s0
        match idxres with
        | Except.error e => Except.error e
        | Except.ok s1 =>
          let exch_order1 :=
            if init_q_pos ∨ prev_price_tick ≠ exch_order.price_tick then
              { exch_order with q := qm.new_order exch_order s1.depth }
            else exch_order
          let exch_order2 :=
            { exch_order1 with status := Status.New, exch_timestamp := timestamp }
          let local_recv_timestamp := timestamp + lm.response timestamp exch_order2
          Except.ok
            ({ s1 with
                orders_to := busAppend s1.orders_to exch_order2 local_recv_timestamp
                orders := insertA s1.orders exch_order2.order_id exch_order2 },
              local_recv_timestamp)

/-- `NoPartialFillExchange::process_recv_order_` (lines 95-139): the
per-request dispatcher of the exchange.  Only `req = New` and
`req = Canceled` are handled; anything else is `InvalidOrderRequest`. -/
def exch_process_recv_order_ {Q : Type} (qm : QueueModel Q)
    (lm : LatencyModel Q) (s : ExchSt Q) (order : Order Q)
    (recv_timestamp wait_resp next_timestamp : Int) :
    Except Error (ExchSt Q × Int) :=
  if order.req = Status.New then
    let order1 := { order with req := Status.None }
    match ack_new qm lm s order1 recv_timestamp with
    | Except.error e => Except.error e
    | Except.ok (s1, resp_timestamp) =>
      if wait_resp = order.order_id then
        Except.ok (s1,
          if next_timestamp > 0 then min next_timestamp resp_timestamp
          else resp_timestamp)
      else Except.ok (s1, next_timestamp)
  else if order.req = Status.Canceled then
    let order1 := { order with req := Status.None }
    match ack_cancel lm s order1 recv_timestamp with
    | Except.error e => Except.error e
    | Except.ok (s1, resp_timestamp) =>
      if wait_resp = order.order_id then
        Except.ok (s1,
          if next_timestamp > 0 then min next_timestamp resp_timestamp
          else resp_timestamp)
      else Except.ok (s1, next_timestamp)
  else
    Except.error Error.InvalidOrderRequest

/-- The mutable state of `Local` (local.rs lines 31-50) as far as the
embedded operations touch it.  Of the local market depth only `tick_size`
is read by these operations; the reader/data fields and the bounded trade
buffer are not embedded. -/
structure LocalSt (Q : Type) where
  orders : List (Int × Order Q)
  orders_to : OrderBus Q
  orders_from : OrderBus Q
  depth_tick_size : ℚ
  state : StateVals
  last_order_entry_latency : Option Int
  last_roundtrip_order_latency : Option Int
deriving DecidableEq, Repr

/-- `Local::submit_order` (local.rs lines 120-151). -/
def submit_order {Q : Type} [Inhabited Q] (lm : LatencyModel Q)
    (s : LocalSt Q) (order_id : Int) (side : Side) (price : ℚ) (qty : ℚ)
    (order_type : OrdType) (time_in_force : TimeInForce)
    (current_timestamp : Int) : Except Error (LocalSt Q) :=
  if (lookupA s.orders order_id).isSome then
    Except.error Error.OrderAlreadyExist
  else
    let price_tick := rustRound (price / s.depth_tick_size)
    let order0 : Order Q :=
      Order.new order_id price_tick s.depth_tick_size qty side order_type time_in_force
    let order := { order0 with req := Status.New }
    let exch_recv_timestamp := current_timestamp + lm.entry current_timestamp order
    Except.ok
      { s with
          orders_to := busAppend s.orders_to order exch_recv_timestamp
          orders := insertA s.orders order.order_id order }

/-- `Local::cancel` (local.rs lines 153-166). -/
def cancel {Q : Type} (lm : LatencyModel Q) (s : LocalSt Q) (order_id : Int)
    (current_timestamp : Int) : Except Error (LocalSt Q) :=
  match lookupA s.orders order_id with
  | none => Except.error Error.OrderNotFound
  | some order =>
    if order.req ≠ Status.None then
      Except.error Error.OrderRequestInProcess
    else
      let order1 := { order with req := Status.Canceled }
      let exch_recv_timestamp := current_timestamp + lm.entry current_timestamp order1
      Except.ok
        { s with
            orders := insertA s.orders order_id order1
            orders_to := busAppend s.orders_to order1 exch_recv_timestamp }

/-- `Local::clear_inactive_orders` (local.rs lines 168-174). -/
def clear_inactive_orders {Q : Type} (s : LocalSt Q) : LocalSt Q :=
  { s with
      orders := s.orders.filter (fun ko =>
        ko.2.status ≠ Status.Expired ∧ ko.2.status ≠ Status.Filled ∧
          ko.2.status ≠ Status.Canceled) }

/-- `Local::process_recv_order_` (local.rs lines 84-106): a `Filled` response
first updates the state accounting, then the response overwrites (or
creates) the local order-map entry; `next_timestamp` is passed through
unchanged and `wait_resp` is ignored. -/
def local_process_recv_order_ {Q : Type} (s : LocalSt Q) (order : Order Q)
    (_recv_timestamp _wait_resp next_timestamp : Int) :
    Except Error (LocalSt Q × Int) :=
  let s1 :=
    if order.status = Status.Filled then
      { s with state := apply_fill s.state order }
    else s
  Except.ok
    ({ s1 with orders := insertA s1.orders order.order_id order }, next_timestamp)

/-- The drain loop of `Local::process_recv_order` (local.rs lines 270-287).
The inbound bus is threaded as an explicit list; an entry whose delivery
timestamp equals `timestamp` is popped, the two latency records are set,
and the entry is processed; the loop stops at the first entry with a later
timestamp (`assert!(recv_timestamp > timestamp)` panics on an earlier
one — `Error.PanicUnwrap` here). -/
def local_recv_loop {Q : Type} (timestamp wait_resp : Int) :
    List (Order Q × Int) → LocalSt Q → Int → Except Error (LocalSt Q × Int)
  | [], s, next_timestamp => Except.ok ({ s with orders_from := [] }, next_timestamp)
  | (order, recv_timestamp) :: rest, s, next_timestamp =>
    if timestamp = recv_timestamp then
      let s1 :=
        { s with
            last_order_entry_latency :=
              some (order.exch_timestamp - order.local_timestamp)
            last_roundtrip_order_latency :=
              some (recv_timestamp - order.local_timestamp) }
      match local_process_recv_order_ s1 order recv_timestamp wait_resp next_timestamp with
      | Except.error e => Except.error e
      | Except.ok (s2, nt) => local_recv_loop timestamp wait_resp rest s2 nt
    else if recv_timestamp > timestamp then
      Except.ok ({ s with orders_from := (order, recv_timestamp) :: rest }, next_timestamp)
    else
      Except.error Error.PanicUnwrap

/-- `Local::process_recv_order` (local.rs lines 270-287): drain the inbound
bus at `timestamp`, starting from `next_timestamp = i64::MAX`. -/
def local_process_recv_order {Q : Type} (s : LocalSt Q)
    (timestamp wait_resp : Int) : Except Error (LocalSt Q × Int) :=
  local_recv_loop timestamp wait_resp s.orders_from { s with orders_from := [] } I64_MAX

/-- The per-order fill decision of `check_if_sell_filled`, as a pure
predicate: strictly below the trade tick fills; at the trade tick the queue
model decides on the queue-updated order; above does not fill.  (The
decision does not depend on the timestamp.) -/
def sellFilledFlag {Q : Type} (qm : QueueModel Q) (dep : Depth) (p : Int)
    (v : ℚ) (o : Order Q) : Bool :=
  if o.price_tick < p then true
  else if o.price_tick = p then
    qm.is_filled { o with q := qm.trade o v dep } dep
  else false

/-- The per-order outcome of `check_if_sell_filled` on the order itself:
filled as maker at its own tick, queue-updated, or untouched. -/
def examSell {Q : Type} (qm : QueueModel Q) (dep : Depth) (p : Int) (v : ℚ)
    (ts : Int) (o : Order Q) : Order Q :=
  if o.price_tick < p then fillOrder o ts true o.price_tick
  else if o.price_tick = p then
    let o1 := { o with q := qm.trade o v dep }
    if qm.is_filled o1 dep then fillOrder o1 ts true o1.price_tick else o1
  else o

/-- The per-order fill decision of `check_if_buy_filled`. -/
def buyFilledFlag {Q : Type} (qm : QueueModel Q) (dep : Depth) (p : Int)
    (v : ℚ) (o : Order Q) : Bool :=
  if o.price_tick > p then true
  else if o.price_tick = p then
    qm.is_filled { o with q := qm.trade o v dep } dep
  else false

/-- The per-order outcome of `check_if_buy_filled` on the order itself. -/
def examBuy {Q : Type} (qm : QueueModel Q) (dep : Depth) (p : Int) (v : ℚ)
    (ts : Int) (o : Order Q) : Order Q :=
  if o.price_tick > p then fillOrder o ts true o.price_tick
  else if o.price_tick = p then
    let o1 := { o with q := qm.trade o v dep }
    if qm.is_filled o1 dep then fillOrder o1 ts true o1.price_tick else o1
  else o

/-- The per-order fill decision of the best-bid-update walk: a resting sell
with tick at or below the new best bid is crossed into. -/
def bestSellFlag (new_best_tick : Int) {Q : Type} (o : Order Q) : Bool :=
  decide (o.price_tick ≤ new_best_tick)

/-- The per-order outcome of the best-bid-update walk on a sell order. -/
def examBestSell {Q : Type} (new_best_tick ts : Int) (o : Order Q) : Order Q :=
  if o.price_tick ≤ new_best_tick then fillOrder o ts true o.price_tick else o

/-- The per-order fill decision of the best-ask-update walk. -/
def bestBuyFlag (new_best_tick : Int) {Q : Type} (o : Order Q) : Bool :=
  decide (new_best_tick ≤ o.price_tick)

/-- The per-order outcome of the best-ask-update walk on a buy order. -/
def examBestBuy {Q : Type} (new_best_tick ts : Int) (o : Order Q) : Order Q :=
  if new_best_tick ≤ o.price_tick then fillOrder o ts true o.price_tick else o

/-- All ids the per-tick index holds over a tick span, in span order. -/
def spanIds (idx : List (Int × List Int)) : List Int → List Int
  | [] => []
  | t :: ts => idxGet idx t ++ spanIds idx ts

/-- Well-keyed order map: ids are duplicate-free and every entry's order
carries its key as `order_id`. -/
def ordersWF {Q : Type} (s : ExchSt Q) : Prop :=
  (s.orders.map Prod.fst).Nodup ∧ ∀ ko ∈ s.orders, ko.2.order_id = ko.1

/-- Soundness of the sell-side per-tick index: every indexed id resolves in
the order map to a resting (`New`) sell order at exactly that tick. -/
def sellIdxSound {Q : Type} (s : ExchSt Q) : Prop :=
  ∀ e ∈ s.sell_orders, ∀ oid ∈ e.2,
    (lookupA s.orders oid).map
        (fun o => (o.side, o.price_tick, o.status, o.order_id)) =
      some (Side.Sell, e.1, Status.New, oid)

/-- Completeness of the sell-side per-tick index: every resting sell order is
indexed at its tick. -/
def sellIdxComplete {Q : Type} (s : ExchSt Q) : Prop :=
  ∀ ko ∈ s.orders, ko.2.side = Side.Sell → ko.1 ∈ idxGet s.sell_orders ko.2.price_tick

/-- Per-tick id sets of the sell-side index are duplicate-free. -/
def sellIdxNodup {Q : Type} (s : ExchSt Q) : Prop :=
  ∀ e ∈ s.sell_orders, e.2.Nodup

/-- Every resting sell order is open (`New`): the map only ever holds
accepted orders, and filled/canceled ones are removed. -/
def sellsOpen {Q : Type} (s : ExchSt Q) : Prop :=
  ∀ ko ∈ s.orders, ko.2.side = Side.Sell → ko.2.status = Status.New

/-- No resting sell order at or below the tick `b` (with `b` the relevant
best bid: a sell resting at or below it would already have been matched). -/
def sellsAbove {Q : Type} (s : ExchSt Q) (b : Int) : Prop :=
  ∀ ko ∈ s.orders, ko.2.side = Side.Sell → b < ko.2.price_tick

/-- Buy-side mirror of `sellIdxSound`. -/
def buyIdxSound {Q : Type} (s : ExchSt Q) : Prop :=
  ∀ e ∈ s.buy_orders, ∀ oid ∈ e.2,
    (lookupA s.orders oid).map
        (fun o => (o.side, o.price_tick, o.status, o.order_id)) =
      some (Side.Buy, e.1, Status.New, oid)

/-- Buy-side mirror of `sellIdxComplete`. -/
def buyIdxComplete {Q : Type} (s : ExchSt Q) : Prop :=
  ∀ ko ∈ s.orders, ko.2.side = Side.Buy → ko.1 ∈ idxGet s.buy_orders ko.2.price_tick

/-- Buy-side mirror of `sellIdxNodup`. -/
def buyIdxNodup {Q : Type} (s : ExchSt Q) : Prop :=
  ∀ e ∈ s.buy_orders, e.2.Nodup

/-- Buy-side mirror of `sellsOpen`. -/
def buysOpen {Q : Type} (s : ExchSt Q) : Prop :=
  ∀ ko ∈ s.orders, ko.2.side = Side.Buy → ko.2.status = Status.New

/-- No resting buy order at or above the tick `a` (the relevant best ask). -/
def buysBelow {Q : Type} (s : ExchSt Q) (a : Int) : Prop :=
  ∀ ko ∈ s.orders, ko.2.side = Side.Buy → ko.2.price_tick < a

/-- One drained entry of `Local::process_recv_order`, as a pure state step:
record the two latencies, apply a `Filled` response to the state
accounting, then overwrite (or create) the local order-map entry. -/
def recv_step {Q : Type} (s : LocalSt Q) (e : Order Q × Int) : LocalSt Q :=
  let s1 :=
    { s with
        last_order_entry_latency := some (e.1.exch_timestamp - e.1.local_timestamp)
        last_roundtrip_order_latency := some (e.2 - e.1.local_timestamp) }
  let s2 :=
    if e.1.status = Status.Filled then
      { s1 with state := apply_fill s1.state e.1 }
    else s1
  { s2 with orders := insertA s2.orders e.1.order_id e.1 }

/-- The per-order quantity/status invariant of §8 as the code maintains it:
non-negative `leaves_qty` and `exec_qty`, `leaves_qty + exec_qty ≤ qty`,
and zero `leaves_qty` once `Filled`.  (`Canceled`/`Expired` orders keep
their unfilled `leaves_qty`; see the C6 counterexample.) -/
def OrderInv {Q : Type} (o : Order Q) : Prop :=
  0 ≤ o.leaves_qty ∧ 0 ≤ o.exec_qty ∧ o.leaves_qty + o.exec_qty ≤ o.qty ∧
    (o.status = Status.Filled → o.leaves_qty = 0)

/-- `OrderInv` for every order the exchange state holds: the resting map and
the outbound bus. -/
def ExchQtyInv {Q : Type} (s : ExchSt Q) : Prop :=
  (∀ ko ∈ s.orders, OrderInv ko.2) ∧ ∀ e ∈ s.orders_to, OrderInv e.1

/-- Fixture: the trivial queue model on `Q = Unit` whose `is_filled` always
answers `false` (queue never advances past the order). -/
def qmU : QueueModel Unit :=
  { new_order := fun _ _ => ()
    trade := fun _ _ _ => ()
    depth := fun _ _ _ _ => ()
    is_filled := fun _ _ => false }

/-- Fixture: the trivial queue model whose `is_filled` always answers
`true`. -/
def qmT : QueueModel Unit :=
  { new_order := fun _ _ => ()
    trade := fun _ _ _ => ()
    depth := fun _ _ _ _ => ()
    is_filled := fun _ _ => true }

/-- Fixture: a constant latency model (1 ns each way). -/
def lmC : LatencyModel Unit :=
  { entry := fun _ _ => 1, response := fun _ _ => 1 }

/-- Fixture: zeroed accounting with taker fee 2 bp and zero maker fee. -/
def st0 : StateVals :=
  { position := 0, balance := 0, fee := 0, trade_num := 0, trade_qty := 0,
    trade_amount := 0, maker_fee := 0, taker_fee := 2 / 10000 }

/-- Fixture: book bid 100.0 × 5 / ask 100.1 × 5 at tick size 0.1. -/
def dep0 : Depth :=
  { tick_size := 1 / 10, best_bid_tick := 1000, best_ask_tick := 1001,
    bid_depth := [(1000, 5)], ask_depth := [(1001, 5)] }

/-- Fixture: resting sell order id 5 at tick 1001. -/
def oSell5 : Order Unit :=
  Order.new 5 1001 (1 / 10) 1 Side.Sell OrdType.Limit TimeInForce.GTC

/-- Fixture: resting sell order id 6 at tick 1002. -/
def oSell6 : Order Unit :=
  Order.new 6 1002 (1 / 10) 1 Side.Sell OrdType.Limit TimeInForce.GTC

/-- Fixture: resting buy order id 7 at tick 1000. -/
def oBuy7 : Order Unit :=
  Order.new 7 1000 (1 / 10) 1 Side.Buy OrdType.Limit TimeInForce.GTC

/-- Fixture: an exchange state with the three resting orders above and a
consistent per-tick index. -/
def ex0 : ExchSt Unit :=
  { orders := [(5, oSell5), (6, oSell6), (7, oBuy7)]
    buy_orders := [(1000, [7])]
    sell_orders := [(1001, [5]), (1002, [6])]
    orders_to := []
    depth := dep0
    state := st0
    filled_orders := [] }

/-- Fixture: an empty local state at tick size 0.1. -/
def loc0 : LocalSt Unit :=
  { orders := []
    orders_to := []
    orders_from := []
    depth_tick_size := 1 / 10
    state := st0
    last_order_entry_latency := none
    last_roundtrip_order_latency := none }

/-- Fixture: a local order with a cancel request still in flight. -/
def oPend : Order Unit :=
  { Order.new 1 1000 (1 / 10) 1 Side.Buy OrdType.Limit TimeInForce.GTC with
      req := Status.Canceled }

/-- Fixture: a local state holding `oPend` (its request is pending). -/
def locPend : LocalSt Unit :=
  { loc0 with orders := [(1, oPend)] }

/-- Fixture: a cancel request for the absent order id 99. -/
def reqC99 : Order Unit :=
  { Order.new 99 1000 (1 / 10) 1 Side.Buy OrdType.Limit TimeInForce.GTC with
      req := Status.Canceled }

/-- Fixture: a modify request (req = `Modified`) for order id 5. -/
def reqM5 : Order Unit :=
  { Order.new 5 1003 (1 / 10) 2 Side.Sell OrdType.Limit TimeInForce.GTC with
      req := Status.Modified }

/-- Fixture: a modify request (req = `Modified`) for the resting buy id 7,
moving it to tick 999 with qty 2 (still non-crossing). -/
def reqM7 : Order Unit :=
  { Order.new 7 999 (1 / 10) 2 Side.Buy OrdType.Limit TimeInForce.GTC with
      req := Status.Modified }

/-- Fixture: a cancel request for the resting sell id 5. -/
def reqC5 : Order Unit :=
  { Order.new 5 1001 (1 / 10) 1 Side.Sell OrdType.Limit TimeInForce.GTC with
      req := Status.Canceled }

/-- Fixture: a crossing GTX buy submission (tick 1001 ≥ best ask 1001). -/
def oGtx50 : Order Unit :=
  Order.new 50 1001 (1 / 10) 1 Side.Buy OrdType.Limit TimeInForce.GTX

/-- Fixture: a crossing IOC buy submission (tick 1001 ≥ best ask 1001). -/
def oIoc51 : Order Unit :=
  Order.new 51 1001 (1 / 10) 2 Side.Buy OrdType.Limit TimeInForce.IOC

/-- Fixture: a non-crossing buy submission at tick 999. -/
def oBuy52 : Order Unit :=
  Order.new 52 999 (1 / 10) 1 Side.Buy OrdType.Limit TimeInForce.GTC

/-- Fixture: a `Filled` exchange response for order id 7 (delivery at t=3). -/
def respFilled : Order Unit :=
  { oBuy7 with
      status := Status.Filled, exec_qty := 1, leaves_qty := 0,
      exec_price_tick := 1000, maker := true, exch_timestamp := 2 }

/-- Fixture: a `New` acceptance response for order id 8 (delivery at t=4). -/
def respNew : Order Unit :=
  { Order.new 8 998 (1 / 10) 1 Side.Buy OrdType.Limit TimeInForce.GTC with
      exch_timestamp := 3 }

/-- Fixture: a local state whose inbound bus holds `respFilled` at t=3 and
`respNew` at t=4. -/
def locBus : LocalSt Unit :=
  { loc0 with orders_from := [(respFilled, 3), (respNew, 4)] }

/-- The order produced by a successful non-crossing `ack_modify` on the
resting order `exo`: `price_tick` and `qty` replaced by the request's,
queue position reinitialized by `queue_model.new_order` (on the
price-updated order, against the current depth), status `New`, and the
exchange timestamp stamped. -/
def modOrder {Q : Type} (qm : QueueModel Q) (exo : Order Q) (new_tick : Int)
    (new_qty : ℚ) (dep : Depth) (ts : Int) : Order Q :=
  { exo with
      price_tick := new_tick
      qty := new_qty
      q := qm.new_order { exo with price_tick := new_tick, qty := new_qty } dep
      status := Status.New
      exch_timestamp := ts }

/-- The order produced by a successful non-crossing `ack_new` on the
submission `order`: queue position initialized by `queue_model.new_order`
(on the incoming order, against the current depth), status `New`, and the
exchange timestamp stamped. -/
def newAccepted {Q : Type} (qm : QueueModel Q) (order : Order Q)
    (dep : Depth) (ts : Int) : Order Q :=
  { order with
      q := qm.new_order order dep
      status := Status.New
      exch_timestamp := ts }

/-- The order constructed by `Local::submit_order` (local.rs 134-144): built
by the seven-argument `Order::new` from the rounded price tick, with only
`req` then set to `New`.  In particular `local_timestamp` remains the
constructor default `0` — no argument carries the submission time. -/
def submittedOrder (Q : Type) [Inhabited Q] (oid : Int) (price : ℚ)
    (tick_size : ℚ) (qty : ℚ) (side : Side) (otype : OrdType)
    (tif : TimeInForce) : Order Q :=
  { (Order.new oid (rustRound (price / tick_size)) tick_size qty side otype tif :
      Order Q) with req := Status.New }

lemma lookupA_insertA_self {α : Type} (l : List (Int × α)) (k : Int) (a : α) :
    lookupA (insertA l k a) k = some a := by
  induction l with
  | nil => simp [insertA, lookupA]
  | cons h t ih =>
    obtain ⟨k0, a0⟩ := h
    by_cases hk : k = k0
    · simp [insertA, hk, lookupA]
    · simp [insertA, hk, lookupA, ih]

lemma lookupA_insertA_ne {α : Type} (l : List (Int × α)) (k k' : Int) (a : α)
    (h : k' ≠ k) : lookupA (insertA l k a) k' = lookupA l k' := by
  induction l with
  | nil => simp [insertA, lookupA, h]
  | cons hd t ih =>
    obtain ⟨k0, a0⟩ := hd
    by_cases hk : k = k0
    · subst hk
      simp [insertA, lookupA, h]
    · by_cases hk' : k' = k0
      · simp [insertA, hk, lookupA, hk']
      · simp [insertA, hk, lookupA, hk', ih]

lemma lookupA_mem {α : Type} {l : List (Int × α)} {k : Int} {a : α}
    (h : lookupA l k = some a) : (k, a) ∈ l := by
  induction l with
  | nil => simp [lookupA] at h
  | cons hd t ih =>
    obtain ⟨k0, a0⟩ := hd
    by_cases hk : k = k0
    · subst hk
      simp [lookupA] at h
      simp [h]
    · simp [lookupA, hk] at h
      exact List.mem_cons_of_mem _ (ih h)

lemma mem_lookupA {α : Type} {l : List (Int × α)} {k : Int} {a : α}
    (hnd : (l.map Prod.fst).Nodup) (h : (k, a) ∈ l) : lookupA l k = some a := by
  induction l with
  | nil => simp at h
  | cons hd t ih =>
    obtain ⟨k0, a0⟩ := hd
    simp only [List.map_cons, List.nodup_cons] at hnd
    rcases List.mem_cons.mp h with h0 | h0
    · have hk : k = k0 := congrArg Prod.fst h0
      have ha : a = a0 := congrArg Prod.snd h0
      simp [lookupA, hk, ha]
    · have hkne : k ≠ k0 := by
        intro hkk
        subst hkk
        exact hnd.1 (List.mem_map.mpr ⟨(k, a), h0, rfl⟩)
      simp [lookupA, hkne]
      exact ih hnd.2 h0

lemma mem_busAppend {Q : Type} (b : OrderBus Q) (o : Order Q) (ts : Int)
    (e : Order Q × Int) : e ∈ busAppend b o ts ↔ e ∈ b ∨ e = (o, ts) := by
  induction b with
  | nil => simp [busAppend]
  | cons hd t ih =>
    obtain ⟨o0, ts0⟩ := hd
    by_cases hlt : ts < ts0
    · simp [busAppend, hlt]
      tauto
    · simp [busAppend, hlt, ih]
      tauto

lemma eraseA_lookup_self {α : Type} (l : List (Int × α)) (k : Int)
    (hnd : (l.map Prod.fst).Nodup) : lookupA (eraseA l k) k = none := by
  induction l with
  | nil => simp [eraseA, lookupA]
  | cons hd t ih =>
    obtain ⟨k0, a0⟩ := hd
    simp only [List.map_cons, List.nodup_cons] at hnd
    by_cases hk : k = k0
    · subst hk
      simp only [eraseA, if_pos rfl]
      cases hl : lookupA t k with
      | none => exact hl
      | some a =>
        exact absurd (List.mem_map.mpr ⟨(k, a), lookupA_mem hl, rfl⟩) hnd.1
    · simp [eraseA, hk, lookupA, ih hnd.2]

lemma eraseA_lookup_ne {α : Type} (l : List (Int × α)) (k k' : Int)
    (h : k' ≠ k) : lookupA (eraseA l k) k' = lookupA l k' := by
  induction l with
  | nil => simp [eraseA]
  | cons hd t ih =>
    obtain ⟨k0, a0⟩ := hd
    by_cases hk : k = k0
    · subst hk
      simp [eraseA, lookupA, h]
    · by_cases hk' : k' = k0
      · simp [eraseA, hk, lookupA, hk']
      · simp [eraseA, hk, lookupA, hk', ih]

lemma mem_idxGet_idxInsert_self (idx : List (Int × List Int)) (t oid : Int) :
    oid ∈ idxGet (idxInsert idx t oid) t := by
  unfold idxInsert
  cases h : lookupA idx t with
  | none => simp [idxGet, lookupA_insertA_self]
  | some ids =>
    by_cases hm : oid ∈ ids
    · simp [idxGet, lookupA_insertA_self, hm]
    · simp [idxGet, lookupA_insertA_self, hm]

lemma idxGet_idxInsert_ne (idx : List (Int × List Int)) (t t' oid : Int)
    (h : t' ≠ t) : idxGet (idxInsert idx t oid) t' = idxGet idx t' := by
  unfold idxInsert
  cases hl : lookupA idx t with
  | none => simp [idxGet, lookupA_insertA_ne _ _ _ _ h]
  | some ids => simp [idxGet, lookupA_insertA_ne _ _ _ _ h]

lemma idxRemove_of_mem {idx : List (Int × List Int)} {t oid : Int}
    (h : oid ∈ idxGet idx t) :
    idxRemove idx t oid =
      Except.ok (insertA idx t (((lookupA idx t).getD []).filter (fun i => i ≠ oid))) := by
  unfold idxRemove
  cases hl : lookupA idx t with
  | none => simp [idxGet, hl] at h
  | some ids => simp [hl]

lemma not_mem_idxGet_idxRemove {idx idx' : List (Int × List Int)} {t oid : Int}
    (h : idxRemove idx t oid = Except.ok idx') : oid ∉ idxGet idx' t := by
  unfold idxRemove at h
  cases hl : lookupA idx t with
  | none => simp [hl] at h
  | some ids =>
    simp [hl] at h
    subst h
    simp [idxGet, lookupA_insertA_self]

lemma idxGet_idxRemove_ne {idx idx' : List (Int × List Int)} {t t' oid : Int}
    (h : idxRemove idx t oid = Except.ok idx') (hne : t' ≠ t) :
    idxGet idx' t' = idxGet idx t' := by
  unfold idxRemove at h
  cases hl : lookupA idx t with
  | none => simp [hl] at h
  | some ids =>
    simp [hl] at h
    subst h
    simp [idxGet, lookupA_insertA_ne _ _ _ _ hne]

lemma mem_idxGet_idxRemove_other {idx idx' : List (Int × List Int)}
    {t oid oid' : Int} (h : idxRemove idx t oid = Except.ok idx')
    (hm : oid' ∈ idxGet idx t) (hne : oid' ≠ oid) : oid' ∈ idxGet idx' t := by
  unfold idxRemove at h
  cases hl : lookupA idx t with
  | none => simp [hl] at h
  | some ids =>
    simp [hl] at h
    subst h
    simp only [idxGet, hl, Option.getD_some] at hm
    simp only [idxGet, lookupA_insertA_self, Option.getD_some]
    exact List.mem_filter.mpr ⟨hm, by simpa using hne⟩

/-- C7: an attempt to fill an order whose status is already terminal
(`Expired`, `Canceled` or `Filled`) returns `InvalidOrderStatus`
(nopartialfillexchange.rs lines 190-195, checked before any mutation).  The
embedding returns no new state on an error, matching the source, which
returns before touching the order, the state accounting or the outbound
bus. -/
theorem fill_terminal_status_rejected {Q : Type} (lm : LatencyModel Q)
    (s : ExchSt Q) (o : Order Q) (ts : Int) (maker : Bool) (px : Int)
    (h : o.status = Status.Expired ∨ o.status = Status.Canceled ∨
      o.status = Status.Filled) :
    fill lm s o ts maker px = Except.error Error.InvalidOrderStatus := by
  simp only [fill, if_pos h]

/-- Witness for C7 at a concrete input: filling an already-`Filled` order is
rejected. -/
theorem fill_terminal_status_rejected_witness :
    fill lmC ex0 { oSell5 with status := Status.Filled } 10 true 1001 =
      Except.error Error.InvalidOrderStatus :=
  fill_terminal_status_rejected lmC ex0 _ 10 true 1001 (Or.inr (Or.inr rfl))

/-- C2 counterexample: a cancel for an order id absent from the exchange map
produces no response at all — the state (including the outbound bus, here
empty) is returned unchanged, refuting that an `Expired` response is
delivered to the local side.  The source computes the response and its
delivery time but the `orders_to.append` is commented out
(nopartialfillexchange.rs lines 418-420). -/
theorem cancel_absent_no_response_counterexample :
    ack_cancel lmC ex0 reqC99 10 = Except.ok (ex0, 11) ∧ ex0.orders_to = [] := by
  constructor
  · rfl
  · rfl

/-- C2 (amended): a cancel of a no-longer-existing order is not an error: the
exchange computes an `Expired` response and its delivery timestamp
(`now + response_latency`) and returns `Ok`, but deliberately does not
append the response to the bus, so the local side receives nothing for the
cancel and its local order state is trivially left untouched; in the
cancel-vs-fill race the local side receives only the `Filled` response. -/
theorem ack_cancel_absent_spec {Q : Type} (lm : LatencyModel Q)
    (s : ExchSt Q) (order : Order Q) (ts : Int)
    (h : lookupA s.orders order.order_id = none) :
    ack_cancel lm s order ts =
      Except.ok (s, ts + lm.response ts
        { order with status := Status.Expired, exch_timestamp := ts }) := by
  simp only [ack_cancel, h]

/-- Witness for C2 at a concrete input. -/
theorem ack_cancel_absent_spec_witness :
    lookupA ex0.orders reqC99.order_id = none ∧
      ack_cancel lmC ex0 reqC99 10 =
        Except.ok (ex0, 10 + lmC.response 10
          { reqC99 with status := Status.Expired, exch_timestamp := 10 }) :=
  ⟨by decide, ack_cancel_absent_spec lmC ex0 reqC99 10 (by decide)⟩

lemma exch_dispatch_modified_rejected {Q : Type} (qm : QueueModel Q)
    (lm : LatencyModel Q) (s : ExchSt Q) (order : Order Q) (ts w nt : Int)
    (h : order.req = Status.Modified) :
    exch_process_recv_order_ qm lm s order ts w nt =
      Except.error Error.InvalidOrderRequest := by
  simp [exch_process_recv_order_, h]

lemma ack_modify_absent {Q : Type} (qm : QueueModel Q) (lm : LatencyModel Q)
    (s : ExchSt Q) (order : Order Q) (ts : Int)
    (h : lookupA s.orders order.order_id = none) :
    ack_modify qm lm s order ts =
      Except.ok (s, ts + lm.response ts
        { order with status := Status.Expired, exch_timestamp := ts }) := by
  simp only [ack_modify, h]

lemma lookupA_isSome_of_mem_idxGet {idx : List (Int × List Int)} {t oid : Int}
    (h : oid ∈ idxGet idx t) : ∃ ids, lookupA idx t = some ids ∧ oid ∈ ids := by
  unfold idxGet at h
  cases hl : lookupA idx t with
  | none => simp [hl] at h
  | some ids =>
    refine ⟨ids, rfl, ?_⟩
    simpa [hl] using h

lemma ack_modify_buy_rest_same {Q : Type} (qm : QueueModel Q)
    (lm : LatencyModel Q) (s : ExchSt Q) (order exo : Order Q) (ts : Int)
    (hlk : lookupA s.orders order.order_id = some exo)
    (hside : exo.side = Side.Buy)
    (hnc : order.price_tick < s.depth.best_ask_tick)
    (hoid : exo.order_id = order.order_id)
    (hpt : exo.price_tick = order.price_tick) :
    ack_modify qm lm s order ts =
      Except.ok
        ({ s with
            orders := insertA (eraseA s.orders order.order_id) order.order_id
              (modOrder qm exo order.price_tick order.qty s.depth ts)
            orders_to := busAppend s.orders_to
              (modOrder qm exo order.price_tick order.qty s.depth ts)
              (ts + lm.response ts
                (modOrder qm exo order.price_tick order.qty s.depth ts)) },
          ts + lm.response ts (modOrder qm exo order.price_tick order.qty s.depth ts)) := by
  simp only [ack_modify, hlk]
  simp [modOrder, hside, hoid, hpt, hnc.not_le, ge_iff_le]

lemma ack_modify_buy_rest_rekey {Q : Type} (qm : QueueModel Q)
    (lm : LatencyModel Q) (s : ExchSt Q) (order exo : Order Q) (ts : Int)
    (ids : List Int)
    (hlk : lookupA s.orders order.order_id = some exo)
    (hside : exo.side = Side.Buy)
    (hnc : order.price_tick < s.depth.best_ask_tick)
    (hoid : exo.order_id = order.order_id)
    (hpt : exo.price_tick ≠ order.price_tick)
    (hids : lookupA s.buy_orders exo.price_tick = some ids) :
    ack_modify qm lm s order ts =
      Except.ok
        ({ s with
            orders := insertA (eraseA s.orders order.order_id) order.order_id
              (modOrder qm exo order.price_tick order.qty s.depth ts)
            buy_orders := idxInsert
              (insertA s.buy_orders exo.price_tick
                (ids.filter (fun i => i ≠ order.order_id)))
              order.price_tick order.order_id
            orders_to := busAppend s.orders_to
              (modOrder qm exo order.price_tick order.qty s.depth ts)
              (ts + lm.response ts
                (modOrder qm exo order.price_tick order.qty s.depth ts)) },
          ts + lm.response ts (modOrder qm exo order.price_tick order.qty s.depth ts)) := by
  simp only [ack_modify, hlk]
  simp [modOrder, idxRemove, hids, hside, hoid, hpt, Ne.symm hpt, hnc.not_le, ge_iff_le]

lemma ack_modify_buy_cross_gtx {Q : Type} (qm : QueueModel Q)
    (lm : LatencyModel Q) (s : ExchSt Q) (order exo : Order Q) (ts : Int)
    (ids : List Int)
    (hlk : lookupA s.orders order.order_id = some exo)
    (hside : exo.side = Side.Buy)
    (hc : s.depth.best_ask_tick ≤ order.price_tick)
    (htif : exo.time_in_force = TimeInForce.GTX)
    (hoid : exo.order_id = order.order_id)
    (hids : lookupA s.buy_orders exo.price_tick = some ids) :
    ack_modify qm lm s order ts =
      Except.ok
        ({ s with
            orders := eraseA s.orders order.order_id
            buy_orders := insertA s.buy_orders exo.price_tick
              (ids.filter (fun i => i ≠ order.order_id))
            orders_to := busAppend s.orders_to
              { exo with
                  price_tick := order.price_tick, qty := order.qty,
                  status := Status.Expired, exch_timestamp := ts }
              (ts + lm.response ts
                { exo with
                    price_tick := order.price_tick, qty := order.qty,
                    status := Status.Expired, exch_timestamp := ts }) },
          ts + lm.response ts
            { exo with
                price_tick := order.price_tick, qty := order.qty,
                status := Status.Expired, exch_timestamp := ts }) := by
  simp only [ack_modify, hlk]
  simp [idxRemove, hids, hside, hoid, htif, hc, ge_iff_le]

lemma ack_modify_buy_cross_taker {Q : Type} (qm : QueueModel Q)
    (lm : LatencyModel Q) (s : ExchSt Q) (order exo : Order Q) (ts : Int)
    (ids : List Int)
    (hlk : lookupA s.orders order.order_id = some exo)
    (hside : exo.side = Side.Buy)
    (hc : s.depth.best_ask_tick ≤ order.price_tick)
    (htif : exo.time_in_force ≠ TimeInForce.GTX)
    (hst : exo.status = Status.New)
    (hoid : exo.order_id = order.order_id)
    (hids : lookupA s.buy_orders exo.price_tick = some ids) :
    ack_modify qm lm s order ts =
      Except.ok
        ({ s with
            orders := eraseA s.orders order.order_id
            buy_orders := insertA s.buy_orders exo.price_tick
              (ids.filter (fun i => i ≠ order.order_id))
            state := apply_fill s.state
              (fillOrder { exo with price_tick := order.price_tick, qty := order.qty }
                ts false s.depth.best_ask_tick)
            orders_to := busAppend s.orders_to
              (fillOrder { exo with price_tick := order.price_tick, qty := order.qty }
                ts false s.depth.best_ask_tick)
              (ts + lm.response ts
                (fillOrder { exo with price_tick := order.price_tick, qty := order.qty }
                  ts false s.depth.best_ask_tick)) },
          ts + lm.response ts
            (fillOrder { exo with price_tick := order.price_tick, qty := order.qty }
              ts false s.depth.best_ask_tick)) := by
  simp only [ack_modify, hlk]
  simp [idxRemove, hids, hside, hoid, htif, hc, ge_iff_le, fill, hst, fillOrder]

lemma ack_modify_sell_rest_same {Q : Type} (qm : QueueModel Q)
    (lm : LatencyModel Q) (s : ExchSt Q) (order exo : Order Q) (ts : Int)
    (hlk : lookupA s.orders order.order_id = some exo)
    (hside : exo.side = Side.Sell)
    (hnc : s.depth.best_bid_tick < order.price_tick)
    (hoid : exo.order_id = order.order_id)
    (hpt : exo.price_tick = order.price_tick) :
    ack_modify qm lm s order ts =
      Except.ok
        ({ s with
            orders := insertA (eraseA s.orders order.order_id) order.order_id
              (modOrder qm exo order.price_tick order.qty s.depth ts)
            orders_to := busAppend s.orders_to
              (modOrder qm exo order.price_tick order.qty s.depth ts)
              (ts + lm.response ts
                (modOrder qm exo order.price_tick order.qty s.depth ts)) },
          ts + lm.response ts (modOrder qm exo order.price_tick order.qty s.depth ts)) := by
  have hs : exo.side ≠ Side.Buy := by simp [hside]
  simp only [ack_modify, hlk]
  simp [modOrder, hs, hoid, hpt, hnc.not_le, ge_iff_le]

lemma ack_modify_sell_rest_rekey {Q : Type} (qm : QueueModel Q)
    (lm : LatencyModel Q) (s : ExchSt Q) (order exo : Order Q) (ts : Int)
    (ids : List Int)
    (hlk : lookupA s.orders order.order_id = some exo)
    (hside : exo.side = Side.Sell)
    (hnc : s.depth.best_bid_tick < order.price_tick)
    (hoid : exo.order_id = order.order_id)
    (hpt : exo.price_tick ≠ order.price_tick)
    (hids : lookupA s.sell_orders exo.price_tick = some ids) :
    ack_modify qm lm s order ts =
      Except.ok
        ({ s with
            orders := insertA (eraseA s.orders order.order_id) order.order_id
              (modOrder qm exo order.price_tick order.qty s.depth ts)
            sell_orders := idxInsert
              (insertA s.sell_orders exo.price_tick
                (ids.filter (fun i => i ≠ order.order_id)))
              order.price_tick order.order_id
            orders_to := busAppend s.orders_to
              (modOrder qm exo order.price_tick order.qty s.depth ts)
              (ts + lm.response ts
                (modOrder qm exo order.price_tick order.qty s.depth ts)) },
          ts + lm.response ts (modOrder qm exo order.price_tick order.qty s.depth ts)) := by
  have hs : exo.side ≠ Side.Buy := by simp [hside]
  simp only [ack_modify, hlk]
  simp [modOrder, idxRemove, hids, hs, hoid, hpt, Ne.symm hpt, hnc.not_le, ge_iff_le]

lemma ack_modify_sell_cross_gtx {Q : Type} (qm : QueueModel Q)
    (lm : LatencyModel Q) (s : ExchSt Q) (order exo : Order Q) (ts : Int)
    (ids : List Int)
    (hlk : lookupA s.orders order.order_id = some exo)
    (hside : exo.side = Side.Sell)
    (hc : order.price_tick ≤ s.depth.best_bid_tick)
    (htif : exo.time_in_force = TimeInForce.GTX)
    (hoid : exo.order_id = order.order_id)
    (hids : lookupA s.sell_orders exo.price_tick = some ids) :
    ack_modify qm lm s order ts =
      Except.ok
        ({ s with
            orders := eraseA s.orders order.order_id
            sell_orders := insertA s.sell_orders exo.price_tick
              (ids.filter (fun i => i ≠ order.order_id))
            orders_to := busAppend s.orders_to
              { exo with
                  price_tick := order.price_tick, qty := order.qty,
                  status := Status.Expired, exch_timestamp := ts }
              (ts + lm.response ts
                { exo with
                    price_tick := order.price_tick, qty := order.qty,
                    status := Status.Expired, exch_timestamp := ts }) },
          ts + lm.response ts
            { exo with
                price_tick := order.price_tick, qty := order.qty,
                status := Status.Expired, exch_timestamp := ts }) := by
  have hs : exo.side ≠ Side.Buy := by simp [hside]
  simp only [ack_modify, hlk]
  simp [idxRemove, hids, hs, hoid, htif, hc, ge_iff_le]

lemma ack_modify_sell_cross_taker {Q : Type} (qm : QueueModel Q)
    (lm : LatencyModel Q) (s : ExchSt Q) (order exo : Order Q) (ts : Int)
    (ids : List Int)
    (hlk : lookupA s.orders order.order_id = some exo)
    (hside : exo.side = Side.Sell)
    (hc : order.price_tick ≤ s.depth.best_bid_tick)
    (htif : exo.time_in_force ≠ TimeInForce.GTX)
    (hst : exo.status = Status.New)
    (hoid : exo.order_id = order.order_id)
    (hids : lookupA s.sell_orders exo.price_tick = some ids) :
    ack_modify qm lm s order ts =
      Except.ok
        ({ s with
            orders := eraseA s.orders order.order_id
            sell_orders := insertA s.sell_orders exo.price_tick
              (ids.filter (fun i => i ≠ order.order_id))
            state := apply_fill s.state
              (fillOrder { exo with price_tick := order.price_tick, qty := order.qty }
                ts false s.depth.best_bid_tick)
            orders_to := busAppend s.orders_to
              (fillOrder { exo with price_tick := order.price_tick, qty := order.qty }
                ts false s.depth.best_bid_tick)
              (ts + lm.response ts
                (fillOrder { exo with price_tick := order.price_tick, qty := order.qty }
                  ts false s.depth.best_bid_tick)) },
          ts + lm.response ts
            (fillOrder { exo with price_tick := order.price_tick, qty := order.qty }
              ts false s.depth.best_bid_tick)) := by
  have hs : exo.side ≠ Side.Buy := by simp [hside]
  simp only [ack_modify, hlk]
  simp [idxRemove, hids, hs, hoid, htif, hc, ge_iff_le, fill, hst, fillOrder]

/-- C1 counterexample: at a concrete state, an order request whose `req` is
`Modified` for order id 5 — which rests in the exchange map of `ex0` — is
rejected by the exchange dispatcher `process_recv_order_` with
`InvalidOrderRequest`, refuting that such a request is processed. -/
theorem modify_request_rejected_counterexample :
    exch_process_recv_order_ qmU lmC ex0 reqM5 10 I64_MAX I64_MAX =
      Except.error Error.InvalidOrderRequest := rfl

/-- C1 (amended): the exchange dispatcher handles only `New` and `Canceled`
requests; a request with `req = Modified` is rejected with
`InvalidOrderRequest` (conjunct 1).  The `ack_modify` routine — present in
the source but never invoked by the dispatcher — implements the claimed
semantics: a gone order gets the (suppressed) expiry treatment (conjunct
2); a resting order gets `price_tick` and `qty` updated with the queue
position reinitialized (`modOrder`), re-keying the per-tick index exactly
when the tick changed (conjuncts 3-4 buy, 7-8 sell); an order that now
crosses the opposing best is expired when GTX (conjuncts 5, 9) and
taker-filled at the opposing best otherwise (conjuncts 6, 10). -/
theorem modify_dispatch_and_ack_modify_spec {Q : Type} (qm : QueueModel Q)
    (lm : LatencyModel Q) (s : ExchSt Q) (order exo : Order Q)
    (ts w nt : Int) (ids : List Int) :
    (order.req = Status.Modified →
      exch_process_recv_order_ qm lm s order ts w nt =
        Except.error Error.InvalidOrderRequest) ∧
    (lookupA s.orders order.order_id = none →
      ack_modify qm lm s order ts =
        Except.ok (s, ts + lm.response ts
          { order with status := Status.Expired, exch_timestamp := ts })) ∧
    (lookupA s.orders order.order_id = some exo → exo.side = Side.Buy →
      order.price_tick < s.depth.best_ask_tick →
      exo.order_id = order.order_id → exo.price_tick = order.price_tick →
      ack_modify qm lm s order ts =
        Except.ok
          ({ s with
              orders := insertA (eraseA s.orders order.order_id) order.order_id
                (modOrder qm exo order.price_tick order.qty s.depth ts)
              orders_to := busAppend s.orders_to
                (modOrder qm exo order.price_tick order.qty s.depth ts)
                (ts + lm.response ts
                  (modOrder qm exo order.price_tick order.qty s.depth ts)) },
            ts + lm.response ts (modOrder qm exo order.price_tick order.qty s.depth ts))) ∧
    (lookupA s.orders order.order_id = some exo → exo.side = Side.Buy →
      order.price_tick < s.depth.best_ask_tick →
      exo.order_id = order.order_id → exo.price_tick ≠ order.price_tick →
      lookupA s.buy_orders exo.price_tick = some ids →
      ack_modify qm lm s order ts =
        Except.ok
          ({ s with
              orders := insertA (eraseA s.orders order.order_id) order.order_id
                (modOrder qm exo order.price_tick order.qty s.depth ts)
              buy_orders := idxInsert
                (insertA s.buy_orders exo.price_tick
                  (ids.filter (fun i => i ≠ order.order_id)))
                order.price_tick order.order_id
              orders_to := busAppend s.orders_to
                (modOrder qm exo order.price_tick order.qty s.depth ts)
                (ts + lm.response ts
                  (modOrder qm exo order.price_tick order.qty s.depth ts)) },
            ts + lm.response ts (modOrder qm exo order.price_tick order.qty s.depth ts))) ∧
    (lookupA s.orders order.order_id = some exo → exo.side = Side.Buy →
      s.depth.best_ask_tick ≤ order.price_tick →
      exo.time_in_force = TimeInForce.GTX → exo.order_id = order.order_id →
      lookupA s.buy_orders exo.price_tick = some ids →
      ack_modify qm lm s order ts =
        Except.ok
          ({ s with
              orders := eraseA s.orders order.order_id
              buy_orders := insertA s.buy_orders exo.price_tick
                (ids.filter (fun i => i ≠ order.order_id))
              orders_to := busAppend s.orders_to
                { exo with
                    price_tick := order.price_tick, qty := order.qty,
                    status := Status.Expired, exch_timestamp := ts }
                (ts + lm.response ts
                  { exo with
                      price_tick := order.price_tick, qty := order.qty,
                      status := Status.Expired, exch_timestamp := ts }) },
            ts + lm.response ts
              { exo with
                  price_tick := order.price_tick, qty := order.qty,
                  status := Status.Expired, exch_timestamp := ts })) ∧
    (lookupA s.orders order.order_id = some exo → exo.side = Side.Buy →
      s.depth.best_ask_tick ≤ order.price_tick →
      exo.time_in_force ≠ TimeInForce.GTX → exo.status = Status.New →
      exo.order_id = order.order_id →
      lookupA s.buy_orders exo.price_tick = some ids →
      ack_modify qm lm s order ts =
        Except.ok
          ({ s with
              orders := eraseA s.orders order.order_id
              buy_orders := insertA s.buy_orders exo.price_tick
                (ids.filter (fun i => i ≠ order.order_id))
              state := apply_fill s.state
                (fillOrder { exo with price_tick := order.price_tick, qty := order.qty }
                  ts false s.depth.best_ask_tick)
              orders_to := busAppend s.orders_to
                (fillOrder { exo with price_tick := order.price_tick, qty := order.qty }
                  ts false s.depth.best_ask_tick)
                (ts + lm.response ts
                  (fillOrder { exo with price_tick := order.price_tick, qty := order.qty }
                    ts false s.depth.best_ask_tick)) },
            ts + lm.response ts
              (fillOrder { exo with price_tick := order.price_tick, qty := order.qty }
                ts false s.depth.best_ask_tick))) ∧
    (lookupA s.orders order.order_id = some exo → exo.side = Side.Sell →
      s.depth.best_bid_tick < order.price_tick →
      exo.order_id = order.order_id → exo.price_tick = order.price_tick →
      ack_modify qm lm s order ts =
        Except.ok
          ({ s with
              orders := insertA (eraseA s.orders order.order_id) order.order_id
                (modOrder qm exo order.price_tick order.qty s.depth ts)
              orders_to := busAppend s.orders_to
                (modOrder qm exo order.price_tick order.qty s.depth ts)
                (ts + lm.response ts
                  (modOrder qm exo order.price_tick order.qty s.depth ts)) },
            ts + lm.response ts (modOrder qm exo order.price_tick order.qty s.depth ts))) ∧
    (lookupA s.orders order.order_id = some exo → exo.side = Side.Sell →
      s.depth.best_bid_tick < order.price_tick →
      exo.order_id = order.order_id → exo.price_tick ≠ order.price_tick →
      lookupA s.sell_orders exo.price_tick = some ids →
      ack_modify qm lm s order ts =
        Except.ok
          ({ s with
              orders := insertA (eraseA s.orders order.order_id) order.order_id
                (modOrder qm exo order.price_tick order.qty s.depth ts)
              sell_orders := idxInsert
                (insertA s.sell_orders exo.price_tick
                  (ids.filter (fun i => i ≠ order.order_id)))
                order.price_tick order.order_id
              orders_to := busAppend s.orders_to
                (modOrder qm exo order.price_tick order.qty s.depth ts)
                (ts + lm.response ts
                  (modOrder qm exo order.price_tick order.qty s.depth ts)) },
            ts + lm.response ts (modOrder qm exo order.price_tick order.qty s.depth ts))) ∧
    (lookupA s.orders order.order_id = some exo → exo.side = Side.Sell →
      order.price_tick ≤ s.depth.best_bid_tick →
      exo.time_in_force = TimeInForce.GTX → exo.order_id = order.order_id →
      lookupA s.sell_orders exo.price_tick = some ids →
      ack_modify qm lm s order ts =
        Except.ok
          ({ s with
              orders := eraseA s.orders order.order_id
              sell_orders := insertA s.sell_orders exo.price_tick
                (ids.filter (fun i => i ≠ order.order_id))
              orders_to := busAppend s.orders_to
                { exo with
                    price_tick := order.price_tick, qty := order.qty,
                    status := Status.Expired, exch_timestamp := ts }
                (ts + lm.response ts
                  { exo with
                      price_tick := order.price_tick, qty := order.qty,
                      status := Status.Expired, exch_timestamp := ts }) },
            ts + lm.response ts
              { exo with
                  price_tick := order.price_tick, qty := order.qty,
                  status := Status.Expired, exch_timestamp := ts })) ∧
    (lookupA s.orders order.order_id = some exo → exo.side = Side.Sell →
      order.price_tick ≤ s.depth.best_bid_tick →
      exo.time_in_force ≠ TimeInForce.GTX → exo.status = Status.New →
      exo.order_id = order.order_id →
      lookupA s.sell_orders exo.price_tick = some ids →
      ack_modify qm lm s order ts =
        Except.ok
          ({ s with
              orders := eraseA s.orders order.order_id
              sell_orders := insertA s.sell_orders exo.price_tick
                (ids.filter (fun i => i ≠ order.order_id))
              state := apply_fill s.state
                (fillOrder { exo with price_tick := order.price_tick, qty := order.qty }
                  ts false s.depth.best_bid_tick)
              orders_to := busAppend s.orders_to
                (fillOrder { exo with price_tick := order.price_tick, qty := order.qty }
                  ts false s.depth.best_bid_tick)
                (ts + lm.response ts
                  (fillOrder { exo with price_tick := order.price_tick, qty := order.qty }
                    ts false s.depth.best_bid_tick)) },
            ts + lm.response ts
              (fillOrder { exo with price_tick := order.price_tick, qty := order.qty }
                ts false s.depth.best_bid_tick))) :=
  ⟨fun h => exch_dispatch_modified_rejected qm lm s order ts w nt h,
   fun h => ack_modify_absent qm lm s order ts h,
   fun h1 h2 h3 h4 h5 => ack_modify_buy_rest_same qm lm s order exo ts h1 h2 h3 h4 h5,
   fun h1 h2 h3 h4 h5 h6 =>
     ack_modify_buy_rest_rekey qm lm s order exo ts ids h1 h2 h3 h4 h5 h6,
   fun h1 h2 h3 h4 h5 h6 =>
     ack_modify_buy_cross_gtx qm lm s order exo ts ids h1 h2 h3 h4 h5 h6,
   fun h1 h2 h3 h4 h5 h6 h7 =>
     ack_modify_buy_cross_taker qm lm s order exo ts ids h1 h2 h3 h4 h5 h6 h7,
   fun h1 h2 h3 h4 h5 => ack_modify_sell_rest_same qm lm s order exo ts h1 h2 h3 h4 h5,
   fun h1 h2 h3 h4 h5 h6 =>
     ack_modify_sell_rest_rekey qm lm s order exo ts ids h1 h2 h3 h4 h5 h6,
   fun h1 h2 h3 h4 h5 h6 =>
     ack_modify_sell_cross_gtx qm lm s order exo ts ids h1 h2 h3 h4 h5 h6,
   fun h1 h2 h3 h4 h5 h6 h7 =>
     ack_modify_sell_cross_taker qm lm s order exo ts ids h1 h2 h3 h4 h5 h6 h7⟩

/-- Witness for C1 at concrete inputs: the dispatcher rejects the modify
request `reqM5`, and `ack_modify` itself would move the resting sell id 5
from tick 1001 to 1003 with qty 2, re-keying the index and reinitializing
the queue position. -/
theorem modify_dispatch_and_ack_modify_spec_witness :
    exch_process_recv_order_ qmU lmC ex0 reqM5 10 I64_MAX I64_MAX =
      Except.error Error.InvalidOrderRequest ∧
    ack_modify qmU lmC ex0 reqM5 10 =
      Except.ok
        ({ ex0 with
            orders := insertA (eraseA ex0.orders 5) 5 (modOrder qmU oSell5 1003 2 dep0 10)
            sell_orders := idxInsert (insertA ex0.sell_orders 1001 []) 1003 5
            orders_to := busAppend ex0.orders_to (modOrder qmU oSell5 1003 2 dep0 10) 11 },
          11) := by
  constructor
  · exact (modify_dispatch_and_ack_modify_spec qmU lmC ex0 reqM5 oSell5 10 I64_MAX
      I64_MAX []).1 rfl
  · have h := (modify_dispatch_and_ack_modify_spec qmU lmC ex0 reqM5 oSell5 10 I64_MAX
      I64_MAX [5]).2.2.2.2.2.2.2.1 rfl rfl (by decide) rfl (by decide) rfl
    exact h

lemma ack_new_dup {Q : Type} (qm : QueueModel Q) (lm : LatencyModel Q)
    (s : ExchSt Q) (order : Order Q) (ts : Int)
    (h : (lookupA s.orders order.order_id).isSome) :
    ack_new qm lm s order ts = Except.error Error.OrderAlreadyExist := by
  simp [ack_new, h]

lemma ack_new_buy_gtx {Q : Type} (qm : QueueModel Q) (lm : LatencyModel Q)
    (s : ExchSt Q) (order : Order Q) (ts : Int)
    (hnone : lookupA s.orders order.order_id = none)
    (hside : order.side = Side.Buy)
    (hc : s.depth.best_ask_tick ≤ order.price_tick)
    (htif : order.time_in_force = TimeInForce.GTX) :
    ack_new qm lm s order ts =
      Except.ok
        ({ s with
            orders_to := busAppend s.orders_to
              { order with status := Status.Expired, exch_timestamp := ts }
              (ts + lm.response ts
                { order with status := Status.Expired, exch_timestamp := ts }) },
          ts + lm.response ts
            { order with status := Status.Expired, exch_timestamp := ts }) := by
  simp [ack_new, hnone, hside, htif, hc, ge_iff_le]

lemma ack_new_buy_taker {Q : Type} (qm : QueueModel Q) (lm : LatencyModel Q)
    (s : ExchSt Q) (order : Order Q) (ts : Int)
    (hnone : lookupA s.orders order.order_id = none)
    (hside : order.side = Side.Buy)
    (hc : s.depth.best_ask_tick ≤ order.price_tick)
    (htif : order.time_in_force ≠ TimeInForce.GTX)
    (hst : ¬(order.status = Status.Expired ∨ order.status = Status.Canceled ∨
      order.status = Status.Filled)) :
    ack_new qm lm s order ts =
      Except.ok
        ({ s with
            state := apply_fill s.state
              (fillOrder order ts false s.depth.best_ask_tick)
            orders_to := busAppend s.orders_to
              (fillOrder order ts false s.depth.best_ask_tick)
              (ts + lm.response ts (fillOrder order ts false s.depth.best_ask_tick)) },
          ts + lm.response ts (fillOrder order ts false s.depth.best_ask_tick)) := by
  simp [ack_new, hnone, hside, htif, hc, ge_iff_le, fill, hst, fillOrder]

lemma ack_new_buy_accept {Q : Type} (qm : QueueModel Q) (lm : LatencyModel Q)
    (s : ExchSt Q) (order : Order Q) (ts : Int)
    (hnone : lookupA s.orders order.order_id = none)
    (hside : order.side = Side.Buy)
    (hc : order.price_tick < s.depth.best_ask_tick) :
    ack_new qm lm s order ts =
      Except.ok
        ({ s with
            buy_orders := idxInsert s.buy_orders order.price_tick order.order_id
            orders_to := busAppend s.orders_to (newAccepted qm order s.depth ts)
              (ts + lm.response ts (newAccepted qm order s.depth ts))
            orders := insertA s.orders order.order_id
              (newAccepted qm order s.depth ts) },
          ts + lm.response ts (newAccepted qm order s.depth ts)) := by
  simp [ack_new, hnone, hside, hc.not_le, ge_iff_le, newAccepted]

lemma ack_new_sell_gtx {Q : Type} (qm : QueueModel Q) (lm : LatencyModel Q)
    (s : ExchSt Q) (order : Order Q) (ts : Int)
    (hnone : lookupA s.orders order.order_id = none)
    (hside : order.side = Side.Sell)
    (hc : order.price_tick ≤ s.depth.best_bid_tick)
    (htif : order.time_in_force = TimeInForce.GTX) :
    ack_new qm lm s order ts =
      Except.ok
        ({ s with
            orders_to := busAppend s.orders_to
              { order with status := Status.Expired, exch_timestamp := ts }
              (ts + lm.response ts
                { order with status := Status.Expired, exch_timestamp := ts }) },
          ts + lm.response ts
            { order with status := Status.Expired, exch_timestamp := ts }) := by
  have hs : order.side ≠ Side.Buy := by simp [hside]
  simp [ack_new, hnone, hs, htif, hc, ge_iff_le]

lemma ack_new_sell_taker {Q : Type} (qm : QueueModel Q) (lm : LatencyModel Q)
    (s : ExchSt Q) (order : Order Q) (ts : Int)
    (hnone : lookupA s.orders order.order_id = none)
    (hside : order.side = Side.Sell)
    (hc : order.price_tick ≤ s.depth.best_bid_tick)
    (htif : order.time_in_force ≠ TimeInForce.GTX)
    (hst : ¬(order.status = Status.Expired ∨ order.status = Status.Canceled ∨
      order.status = Status.Filled)) :
    ack_new qm lm s order ts =
      Except.ok
        ({ s with
            state := apply_fill s.state
              (fillOrder order ts false s.depth.best_bid_tick)
            orders_to := busAppend s.orders_to
              (fillOrder order ts false s.depth.best_bid_tick)
              (ts + lm.response ts (fillOrder order ts false s.depth.best_bid_tick)) },
          ts + lm.response ts (fillOrder order ts false s.depth.best_bid_tick)) := by
  have hs : order.side ≠ Side.Buy := by simp [hside]
  simp [ack_new, hnone, hs, htif, hc, ge_iff_le, fill, hst, fillOrder]

lemma ack_new_sell_accept {Q : Type} (qm : QueueModel Q) (lm : LatencyModel Q)
    (s : ExchSt Q) (order : Order Q) (ts : Int)
    (hnone : lookupA s.orders order.order_id = none)
    (hside : order.side = Side.Sell)
    (hc : s.depth.best_bid_tick < order.price_tick) :
    ack_new qm lm s order ts =
      Except.ok
        ({ s with
            sell_orders := idxInsert s.sell_orders order.price_tick order.order_id
            orders_to := busAppend s.orders_to (newAccepted qm order s.depth ts)
              (ts + lm.response ts (newAccepted qm order s.depth ts))
            orders := insertA s.orders order.order_id
              (newAccepted qm order s.depth ts) },
          ts + lm.response ts (newAccepted qm order s.depth ts)) := by
  have hs : order.side ≠ Side.Buy := by simp [hside]
  simp [ack_new, hnone, hs, hc.not_le, ge_iff_le, newAccepted]

/-- C3: full case analysis of `ack_new` (nopartialfillexchange.rs 332-406).
(1) An existing `order_id` is rejected with `OrderAlreadyExist`.  (2) A buy
whose tick is at or above the best ask (symmetrically a sell at or below
the best bid) is expired when GTX — the response carries status `Expired`,
and the state accounting (hence the position), the order map and the
indices are untouched — and otherwise is filled as taker at the opposing
best tick for its full `leaves_qty` (`fillOrder`).  (3) Otherwise the queue
position is initialized via `queue_model.new_order`, the status set to
`New`, the order inserted into the map and the per-tick index, and the
acceptance response appended (`newAccepted`). -/
theorem ack_new_spec {Q : Type} (qm : QueueModel Q) (lm : LatencyModel Q)
    (s : ExchSt Q) (order : Order Q) (ts : Int) :
    ((lookupA s.orders order.order_id).isSome →
      ack_new qm lm s order ts = Except.error Error.OrderAlreadyExist) ∧
    (lookupA s.orders order.order_id = none → order.side = Side.Buy →
      s.depth.best_ask_tick ≤ order.price_tick →
      order.time_in_force = TimeInForce.GTX →
      ack_new qm lm s order ts =
        Except.ok
          ({ s with
              orders_to := busAppend s.orders_to
                { order with status := Status.Expired, exch_timestamp := ts }
                (ts + lm.response ts
                  { order with status := Status.Expired, exch_timestamp := ts }) },
            ts + lm.response ts
              { order with status := Status.Expired, exch_timestamp := ts })) ∧
    (lookupA s.orders order.order_id = none → order.side = Side.Buy →
      s.depth.best_ask_tick ≤ order.price_tick →
      order.time_in_force ≠ TimeInForce.GTX → order.status = Status.New →
      ack_new qm lm s order ts =
        Except.ok
          ({ s with
              state := apply_fill s.state
                (fillOrder order ts false s.depth.best_ask_tick)
              orders_to := busAppend s.orders_to
                (fillOrder order ts false s.depth.best_ask_tick)
                (ts + lm.response ts (fillOrder order ts false s.depth.best_ask_tick)) },
            ts + lm.response ts (fillOrder order ts false s.depth.best_ask_tick))) ∧
    (lookupA s.orders order.order_id = none → order.side = Side.Buy →
      order.price_tick < s.depth.best_ask_tick →
      ack_new qm lm s order ts =
        Except.ok
          ({ s with
              buy_orders := idxInsert s.buy_orders order.price_tick order.order_id
              orders_to := busAppend s.orders_to (newAccepted qm order s.depth ts)
                (ts + lm.response ts (newAccepted qm order s.depth ts))
              orders := insertA s.orders order.order_id
                (newAccepted qm order s.depth ts) },
            ts + lm.response ts (newAccepted qm order s.depth ts))) ∧
    (lookupA s.orders order.order_id = none → order.side = Side.Sell →
      order.price_tick ≤ s.depth.best_bid_tick →
      order.time_in_force = TimeInForce.GTX →
      ack_new qm lm s order ts =
        Except.ok
          ({ s with
              orders_to := busAppend s.orders_to
                { order with status := Status.Expired, exch_timestamp := ts }
                (ts + lm.response ts
                  { order with status := Status.Expired, exch_timestamp := ts }) },
            ts + lm.response ts
              { order with status := Status.Expired, exch_timestamp := ts })) ∧
    (lookupA s.orders order.order_id = none → order.side = Side.Sell →
      order.price_tick ≤ s.depth.best_bid_tick →
      order.time_in_force ≠ TimeInForce.GTX → order.status = Status.New →
      ack_new qm lm s order ts =
        Except.ok
          ({ s with
              state := apply_fill s.state
                (fillOrder order ts false s.depth.best_bid_tick)
              orders_to := busAppend s.orders_to
                (fillOrder order ts false s.depth.best_bid_tick)
                (ts + lm.response ts (fillOrder order ts false s.depth.best_bid_tick)) },
            ts + lm.response ts (fillOrder order ts false s.depth.best_bid_tick))) ∧
    (lookupA s.orders order.order_id = none → order.side = Side.Sell →
      s.depth.best_bid_tick < order.price_tick →
      ack_new qm lm s order ts =
        Except.ok
          ({ s with
              sell_orders := idxInsert s.sell_orders order.price_tick order.order_id
              orders_to := busAppend s.orders_to (newAccepted qm order s.depth ts)
                (ts + lm.response ts (newAccepted qm order s.depth ts))
              orders := insertA s.orders order.order_id
                (newAccepted qm order s.depth ts) },
            ts + lm.response ts (newAccepted qm order s.depth ts))) :=
  ⟨fun h => ack_new_dup qm lm s order ts h,
   fun h1 h2 h3 h4 => ack_new_buy_gtx qm lm s order ts h1 h2 h3 h4,
   fun h1 h2 h3 h4 h5 =>
     ack_new_buy_taker qm lm s order ts h1 h2 h3 h4 (by simp [h5]),
   fun h1 h2 h3 => ack_new_buy_accept qm lm s order ts h1 h2 h3,
   fun h1 h2 h3 h4 => ack_new_sell_gtx qm lm s order ts h1 h2 h3 h4,
   fun h1 h2 h3 h4 h5 =>
     ack_new_sell_taker qm lm s order ts h1 h2 h3 h4 (by simp [h5]),
   fun h1 h2 h3 => ack_new_sell_accept qm lm s order ts h1 h2 h3⟩

/-- Witness for C3 at concrete inputs: a duplicate id is rejected; the
crossing GTX buy `oGtx50` is expired with the state accounting (position)
untouched; the crossing IOC buy `oIoc51` is taker-filled; the non-crossing
buy `oBuy52` is accepted and indexed. -/
theorem ack_new_spec_witness :
    ack_new qmU lmC ex0 oSell5 10 = Except.error Error.OrderAlreadyExist ∧
    ack_new qmU lmC ex0 oGtx50 10 =
      Except.ok
        ({ ex0 with
            orders_to := busAppend ex0.orders_to
              { oGtx50 with status := Status.Expired, exch_timestamp := 10 } 11 },
          11) ∧
    ack_new qmU lmC ex0 oIoc51 10 =
      Except.ok
        ({ ex0 with
            state := apply_fill ex0.state (fillOrder oIoc51 10 false 1001)
            orders_to := busAppend ex0.orders_to (fillOrder oIoc51 10 false 1001) 11 },
          11) ∧
    ack_new qmU lmC ex0 oBuy52 10 =
      Except.ok
        ({ ex0 with
            buy_orders := idxInsert ex0.buy_orders 999 52
            orders_to := busAppend ex0.orders_to (newAccepted qmU oBuy52 dep0 10) 11
            orders := insertA ex0.orders 52 (newAccepted qmU oBuy52 dep0 10) },
          11) := by
  refine ⟨(ack_new_spec qmU lmC ex0 oSell5 10).1 rfl, ?_, ?_, ?_⟩
  · exact (ack_new_spec qmU lmC ex0 oGtx50 10).2.1 rfl rfl (by decide) rfl
  · exact (ack_new_spec qmU lmC ex0 oIoc51 10).2.2.1 rfl rfl (by decide) (by decide) rfl
  · exact (ack_new_spec qmU lmC ex0 oBuy52 10).2.2.2.1 rfl rfl (by decide)

/-- C8 counterexample: in `locPend` a prior request on order id 1 is still
pending (`req = Canceled`), yet `submit_order` for id 1 fails with
`OrderAlreadyExist`, not `OrderRequestInProcess` — the function never
checks `req` and never returns `OrderRequestInProcess`.  Moreover the order
a fresh submit constructs and inserts carries `local_timestamp = 0`, not
the submission time 7: the seven-argument `Order::new` call visible at
local.rs 135-143 receives no timestamp and `submit_order` never sets one. -/
theorem submit_order_counterexample :
    submit_order lmC locPend 1 Side.Buy 100 1 OrdType.Limit TimeInForce.GTC 7 =
      Except.error Error.OrderAlreadyExist ∧
    submit_order lmC locPend 1 Side.Buy 100 1 OrdType.Limit TimeInForce.GTC 7 ≠
      Except.error Error.OrderRequestInProcess ∧
    (submit_order lmC loc0 2 Side.Buy 100 1 OrdType.Limit TimeInForce.GTC 7).toOption.map
        (fun s2 => (lookupA s2.orders 2).map (fun o => o.local_timestamp)) =
      some (some 0) ∧
    (0 : Int) ≠ 7 := by
  have h1 : submit_order lmC locPend 1 Side.Buy 100 1 OrdType.Limit TimeInForce.GTC 7 =
      Except.error Error.OrderAlreadyExist := rfl
  refine ⟨h1, ?_, rfl, by decide⟩
  intro h
  exact absurd (Except.error.inj (h1.symm.trans h)) (by decide)

/-- C8 (amended): `submit_order` fails with `OrderAlreadyExist` whenever the
order id is already in the local map — including when a prior request on
that order is still pending, so `OrderRequestInProcess` is never returned
by submit (that error belongs to `cancel`).  Otherwise it constructs
`submittedOrder` — `req = New`, status `New`, `local_timestamp` left at the
constructor default `0` rather than the submission time — appends it to the
outbound bus with delivery `now + entry_latency`, inserts it into the local
map, and returns success leaving the state accounting unchanged. -/
theorem submit_order_spec {Q : Type} [Inhabited Q] (lm : LatencyModel Q)
    (s : LocalSt Q) (oid : Int) (side : Side) (price qty : ℚ)
    (otype : OrdType) (tif : TimeInForce) (now : Int) :
    ((lookupA s.orders oid).isSome →
      submit_order lm s oid side price qty otype tif now =
        Except.error Error.OrderAlreadyExist) ∧
    (lookupA s.orders oid = none →
      submit_order lm s oid side price qty otype tif now =
        Except.ok
          { s with
              orders_to := busAppend s.orders_to
                (submittedOrder Q oid price s.depth_tick_size qty side otype tif)
                (now + lm.entry now
                  (submittedOrder Q oid price s.depth_tick_size qty side otype tif))
              orders := insertA s.orders oid
                (submittedOrder Q oid price s.depth_tick_size qty side otype tif) }) ∧
    (submittedOrder Q oid price s.depth_tick_size qty side otype tif).req =
      Status.New ∧
    (submittedOrder Q oid price s.depth_tick_size qty side otype tif).status =
      Status.New ∧
    (submittedOrder Q oid price s.depth_tick_size qty side otype tif).local_timestamp =
      0 := by
  refine ⟨?_, ?_, rfl, rfl, rfl⟩
  · intro h
    simp [submit_order, h]
  · intro h
    simp [submit_order, h, submittedOrder, Order.new]

/-- Witness for C8 at concrete inputs. -/
theorem submit_order_spec_witness :
    submit_order lmC locPend 1 Side.Buy 100 1 OrdType.Limit TimeInForce.GTC 7 =
      Except.error Error.OrderAlreadyExist ∧
    submit_order lmC loc0 2 Side.Buy 100 1 OrdType.Limit TimeInForce.GTC 7 =
      Except.ok
        { loc0 with
            orders_to := busAppend loc0.orders_to
              (submittedOrder Unit 2 100 loc0.depth_tick_size 1 Side.Buy
                OrdType.Limit TimeInForce.GTC) 8
            orders := insertA loc0.orders 2
              (submittedOrder Unit 2 100 loc0.depth_tick_size 1 Side.Buy
                OrdType.Limit TimeInForce.GTC) } :=
  ⟨(submit_order_spec lmC locPend 1 Side.Buy 100 1 OrdType.Limit
      TimeInForce.GTC 7).1 rfl,
   (submit_order_spec lmC loc0 2 Side.Buy 100 1 OrdType.Limit
      TimeInForce.GTC 7).2.1 rfl⟩

lemma fill_ok {Q : Type} (lm : LatencyModel Q) (s : ExchSt Q) (o : Order Q)
    (ts : Int) (maker : Bool) (px : Int)
    (h : ¬(o.status = Status.Expired ∨ o.status = Status.Canceled ∨
      o.status = Status.Filled)) :
    fill lm s o ts maker px =
      Except.ok
        ({ s with
            state := apply_fill s.state (fillOrder o ts maker px)
            orders_to := busAppend s.orders_to (fillOrder o ts maker px)
              (ts + lm.response ts (fillOrder o ts maker px)) },
          fillOrder o ts maker px, ts + lm.response ts (fillOrder o ts maker px)) := by
  simp [fill, h, fillOrder]

lemma fill_error {Q : Type} (lm : LatencyModel Q) (s : ExchSt Q) (o : Order Q)
    (ts : Int) (maker : Bool) (px : Int)
    (h : o.status = Status.Expired ∨ o.status = Status.Canceled ∨
      o.status = Status.Filled) :
    fill lm s o ts maker px = Except.error Error.InvalidOrderStatus := by
  simp only [fill, if_pos h]

lemma ack_cancel_absent_eq {Q : Type} (lm : LatencyModel Q) (s : ExchSt Q)
    (order : Order Q) (ts : Int)
    (h : lookupA s.orders order.order_id = none) :
    ack_cancel lm s order ts =
      Except.ok (s, ts + lm.response ts
        { order with status := Status.Expired, exch_timestamp := ts }) := by
  simp only [ack_cancel, h]

lemma ack_cancel_present_buy {Q : Type} (lm : LatencyModel Q) (s : ExchSt Q)
    (order exo : Order Q) (ts : Int) (ids : List Int)
    (hl : lookupA s.orders order.order_id = some exo)
    (hside : exo.side = Side.Buy)
    (hids : lookupA s.buy_orders exo.price_tick = some ids) :
    ack_cancel lm s order ts =
      Except.ok
        ({ s with
            orders := eraseA s.orders order.order_id
            buy_orders := insertA s.buy_orders exo.price_tick
              (ids.filter (fun i => i ≠ exo.order_id))
            orders_to := busAppend s.orders_to
              { exo with status := Status.Canceled, exch_timestamp := ts }
              (ts + lm.response ts
                { exo with status := Status.Canceled, exch_timestamp := ts }) },
          ts + lm.response ts
            { exo with status := Status.Canceled, exch_timestamp := ts }) := by
  simp only [ack_cancel, hl]
  simp [hside, idxRemove, hids]

lemma ack_cancel_present_sell {Q : Type} (lm : LatencyModel Q) (s : ExchSt Q)
    (order exo : Order Q) (ts : Int) (ids : List Int)
    (hl : lookupA s.orders order.order_id = some exo)
    (hside : exo.side = Side.Sell)
    (hids : lookupA s.sell_orders exo.price_tick = some ids) :
    ack_cancel lm s order ts =
      Except.ok
        ({ s with
            orders := eraseA s.orders order.order_id
            sell_orders := insertA s.sell_orders exo.price_tick
              (ids.filter (fun i => i ≠ exo.order_id))
            orders_to := busAppend s.orders_to
              { exo with status := Status.Canceled, exch_timestamp := ts }
              (ts + lm.response ts
                { exo with status := Status.Canceled, exch_timestamp := ts }) },
          ts + lm.response ts
            { exo with status := Status.Canceled, exch_timestamp := ts }) := by
  have hs : exo.side ≠ Side.Buy := by simp [hside]
  simp only [ack_cancel, hl]
  simp [hs, idxRemove, hids]

lemma ack_cancel_panic_buy {Q : Type} (lm : LatencyModel Q) (s : ExchSt Q)
    (order exo : Order Q) (ts : Int)
    (hl : lookupA s.orders order.order_id = some exo)
    (hside : exo.side = Side.Buy)
    (hids : lookupA s.buy_orders exo.price_tick = none) :
    ack_cancel lm s order ts = Except.error Error.PanicUnwrap := by
  simp only [ack_cancel, hl]
  simp [hside, idxRemove, hids]

lemma ack_cancel_panic_sell {Q : Type} (lm : LatencyModel Q) (s : ExchSt Q)
    (order exo : Order Q) (ts : Int)
    (hl : lookupA s.orders order.order_id = some exo)
    (hside : exo.side = Side.Sell)
    (hids : lookupA s.sell_orders exo.price_tick = none) :
    ack_cancel lm s order ts = Except.error Error.PanicUnwrap := by
  have hs : exo.side ≠ Side.Buy := by simp [hside]
  simp only [ack_cancel, hl]
  simp [hs, idxRemove, hids]

lemma busAppend_resp_cases {Q : Type} (lm : LatencyModel Q)
    (hres : ∀ t (o : Order Q), 0 ≤ lm.response t o) (bus : OrderBus Q)
    (o1 : Order Q) (ts : Int) :
    ∀ e ∈ busAppend bus o1 (ts + lm.response ts o1),
      e ∈ bus ∨ (e.2 = ts + lm.response ts e.1 ∧ ts ≤ e.2) := by
  intro e he
  rcases (mem_busAppend bus o1 (ts + lm.response ts o1) e).mp he with h | h
  · exact Or.inl h
  · subst h
    refine Or.inr ⟨rfl, ?_⟩
    have := hres ts o1
    omega

lemma busAppend_entry_cases {Q : Type} (lm : LatencyModel Q)
    (hent : ∀ t (o : Order Q), 0 ≤ lm.entry t o) (bus : OrderBus Q)
    (o1 : Order Q) (ts : Int) :
    ∀ e ∈ busAppend bus o1 (ts + lm.entry ts o1),
      e ∈ bus ∨ (e.2 = ts + lm.entry ts e.1 ∧ ts ≤ e.2) := by
  intro e he
  rcases (mem_busAppend bus o1 (ts + lm.entry ts o1) e).mp he with h | h
  · exact Or.inl h
  · subst h
    refine Or.inr ⟨rfl, ?_⟩
    have := hent ts o1
    omega

/-- C9: every delivery timestamp placed on either order bus equals the
current timestamp plus the latency model's entry delay (local submit and
cancel) or response delay (exchange acks and fills), and — under the
latency-model precondition that both delays are non-negative — is never
earlier than the current timestamp.  The returned `local_recv_timestamp`
of the exchange operations satisfies the same bound. -/
theorem delivery_timestamps_spec {Q : Type} [Inhabited Q] (qm : QueueModel Q)
    (lm : LatencyModel Q) (hent : ∀ t (o : Order Q), 0 ≤ lm.entry t o)
    (hres : ∀ t (o : Order Q), 0 ≤ lm.response t o) :
    (∀ (s : LocalSt Q) (oid : Int) (side : Side) (price qty : ℚ)
        (otype : OrdType) (tif : TimeInForce) (now : Int) (s' : LocalSt Q),
      submit_order lm s oid side price qty otype tif now = Except.ok s' →
      ∀ e ∈ s'.orders_to, e ∈ s.orders_to ∨
        (e.2 = now + lm.entry now e.1 ∧ now ≤ e.2)) ∧
    (∀ (s : LocalSt Q) (oid now : Int) (s' : LocalSt Q),
      cancel lm s oid now = Except.ok s' →
      ∀ e ∈ s'.orders_to, e ∈ s.orders_to ∨
        (e.2 = now + lm.entry now e.1 ∧ now ≤ e.2)) ∧
    (∀ (s : ExchSt Q) (order : Order Q) (ts : Int) (s' : ExchSt Q) (lrt : Int),
      ack_new qm lm s order ts = Except.ok (s', lrt) →
      (∀ e ∈ s'.orders_to, e ∈ s.orders_to ∨
        (e.2 = ts + lm.response ts e.1 ∧ ts ≤ e.2)) ∧ ts ≤ lrt) ∧
    (∀ (s : ExchSt Q) (order : Order Q) (ts : Int) (s' : ExchSt Q) (lrt : Int),
      ack_cancel lm s order ts = Except.ok (s', lrt) →
      (∀ e ∈ s'.orders_to, e ∈ s.orders_to ∨
        (e.2 = ts + lm.response ts e.1 ∧ ts ≤ e.2)) ∧ ts ≤ lrt) ∧
    (∀ (s : ExchSt Q) (o : Order Q) (ts : Int) (maker : Bool) (px : Int)
        (s' : ExchSt Q) (o1 : Order Q) (lrt : Int),
      fill lm s o ts maker px = Except.ok (s', o1, lrt) →
      lrt = ts + lm.response ts o1 ∧ ts ≤ lrt ∧
      s'.orders_to = busAppend s.orders_to o1 lrt ∧
      ∀ e ∈ s'.orders_to, e ∈ s.orders_to ∨
        (e.2 = ts + lm.response ts e.1 ∧ ts ≤ e.2)) := by
  refine ⟨?_, ?_, ?_, ?_, ?_⟩
  · intro s oid side price qty otype tif now s' h
    cases hna : lookupA s.orders oid with
    | some o => simp [submit_order, hna] at h
    | none =>
      simp only [submit_order, hna, Option.isSome_none, Bool.false_eq_true,
        if_false, Except.ok.injEq] at h
      subst h
      exact busAppend_entry_cases lm hent s.orders_to _ now
  · intro s oid now s' h
    cases hna : lookupA s.orders oid with
    | none => simp [cancel, hna] at h
    | some o =>
      by_cases hreq : o.req = Status.None
      · simp only [cancel, hna, hreq, ne_eq, not_true_eq_false, if_false,
          Except.ok.injEq, reduceIte] at h
        subst h
        exact busAppend_entry_cases lm hent s.orders_to _ now
      · simp [cancel, hna, hreq] at h
  · intro s order ts s' lrt h
    by_cases hd : (lookupA s.orders order.order_id).isSome
    · rw [ack_new_dup qm lm s order ts hd] at h
      simp at h
    · have hnone : lookupA s.orders order.order_id = none :=
        Option.not_isSome_iff_eq_none.mp hd
      by_cases hside : order.side = Side.Buy
      · by_cases hc : s.depth.best_ask_tick ≤ order.price_tick
        · by_cases htif : order.time_in_force = TimeInForce.GTX
          · rw [ack_new_buy_gtx qm lm s order ts hnone hside hc htif] at h
            simp only [Except.ok.injEq, Prod.mk.injEq] at h
            obtain ⟨h1, h2⟩ := h
            subst h1
            subst h2
            refine ⟨busAppend_resp_cases lm hres s.orders_to _ ts, ?_⟩
            have := hres ts { order with status := Status.Expired, exch_timestamp := ts }
            omega
          · by_cases hterm : order.status = Status.Expired ∨
                order.status = Status.Canceled ∨ order.status = Status.Filled
            · have herr : ack_new qm lm s order ts =
                  Except.error Error.InvalidOrderStatus := by
                simp [ack_new, hnone, hside, htif, hc, ge_iff_le,
                  fill_error lm s order ts false s.depth.best_ask_tick hterm]
              rw [herr] at h
              simp at h
            · rw [ack_new_buy_taker qm lm s order ts hnone hside hc htif hterm] at h
              simp only [Except.ok.injEq, Prod.mk.injEq] at h
              obtain ⟨h1, h2⟩ := h
              subst h1
              subst h2
              refine ⟨busAppend_resp_cases lm hres s.orders_to _ ts, ?_⟩
              have := hres ts (fillOrder order ts false s.depth.best_ask_tick)
              omega
        · rw [ack_new_buy_accept qm lm s order ts hnone hside (lt_of_not_le hc)] at h
          simp only [Except.ok.injEq, Prod.mk.injEq] at h
          obtain ⟨h1, h2⟩ := h
          subst h1
          subst h2
          refine ⟨busAppend_resp_cases lm hres s.orders_to _ ts, ?_⟩
          have := hres ts (newAccepted qm order s.depth ts)
          omega
      · have hsell : order.side = Side.Sell := by
          cases hcase : order.side
          · exact absurd hcase hside
          · rfl
        by_cases hc : order.price_tick ≤ s.depth.best_bid_tick
        · by_cases htif : order.time_in_force = TimeInForce.GTX
          · rw [ack_new_sell_gtx qm lm s order ts hnone hsell hc htif] at h
            simp only [Except.ok.injEq, Prod.mk.injEq] at h
            obtain ⟨h1, h2⟩ := h
            subst h1
            subst h2
            refine ⟨busAppend_resp_cases lm hres s.orders_to _ ts, ?_⟩
            have := hres ts { order with status := Status.Expired, exch_timestamp := ts }
            omega
          · by_cases hterm : order.status = Status.Expired ∨
                order.status = Status.Canceled ∨ order.status = Status.Filled
            · have herr : ack_new qm lm s order ts =
                  Except.error Error.InvalidOrderStatus := by
                have hs : order.side ≠ Side.Buy := by simp [hsell]
                simp [ack_new, hnone, hs, htif, hc, ge_iff_le,
                  fill_error lm s order ts false s.depth.best_bid_tick hterm]
              rw [herr] at h
              simp at h
            · rw [ack_new_sell_taker qm lm s order ts hnone hsell hc htif hterm] at h
              simp only [Except.ok.injEq, Prod.mk.injEq] at h
              obtain ⟨h1, h2⟩ := h
              subst h1
              subst h2
              refine ⟨busAppend_resp_cases lm hres s.orders_to _ ts, ?_⟩
              have := hres ts (fillOrder order ts false s.depth.best_bid_tick)
              omega
        · rw [ack_new_sell_accept qm lm s order ts hnone hsell (lt_of_not_le hc)] at h
          simp only [Except.ok.injEq, Prod.mk.injEq] at h
          obtain ⟨h1, h2⟩ := h
          subst h1
          subst h2
          refine ⟨busAppend_resp_cases lm hres s.orders_to _ ts, ?_⟩
          have := hres ts (newAccepted qm order s.depth ts)
          omega
  · intro s order ts s' lrt h
    cases hl : lookupA s.orders order.order_id with
    | none =>
      rw [ack_cancel_absent_eq lm s order ts hl] at h
      simp only [Except.ok.injEq, Prod.mk.injEq] at h
      obtain ⟨h1, h2⟩ := h
      subst h1
      subst h2
      refine ⟨fun e he => Or.inl he, ?_⟩
      have := hres ts { order with status := Status.Expired, exch_timestamp := ts }
      omega
    | some exo =>
      by_cases hside : exo.side = Side.Buy
      · cases hids : lookupA s.buy_orders exo.price_tick with
        | none =>
          rw [ack_cancel_panic_buy lm s order exo ts hl hside hids] at h
          simp at h
        | some ids =>
          rw [ack_cancel_present_buy lm s order exo ts ids hl hside hids] at h
          simp only [Except.ok.injEq, Prod.mk.injEq] at h
          obtain ⟨h1, h2⟩ := h
          subst h1
          subst h2
          refine ⟨busAppend_resp_cases lm hres s.orders_to _ ts, ?_⟩
          have := hres ts { exo with status := Status.Canceled, exch_timestamp := ts }
          omega
      · have hsell : exo.side = Side.Sell := by
          cases hcase : exo.side
          · exact absurd hcase hside
          · rfl
        cases hids : lookupA s.sell_orders exo.price_tick with
        | none =>
          rw [ack_cancel_panic_sell lm s order exo ts hl hsell hids] at h
          simp at h
        | some ids =>
          rw [ack_cancel_present_sell lm s order exo ts ids hl hsell hids] at h
          simp only [Except.ok.injEq, Prod.mk.injEq] at h
          obtain ⟨h1, h2⟩ := h
          subst h1
          subst h2
          refine ⟨busAppend_resp_cases lm hres s.orders_to _ ts, ?_⟩
          have := hres ts { exo with status := Status.Canceled, exch_timestamp := ts }
          omega
  · intro s o ts maker px s' o1 lrt h
    by_cases hterm : o.status = Status.Expired ∨ o.status = Status.Canceled ∨
        o.status = Status.Filled
    · rw [fill_error lm s o ts maker px hterm] at h
      simp at h
    · rw [fill_ok lm s o ts maker px hterm] at h
      simp only [Except.ok.injEq, Prod.mk.injEq] at h
      obtain ⟨h1, h2, h3⟩ := h
      subst h1
      subst h2
      subst h3
      have hge := hres ts (fillOrder o ts maker px)
      refine ⟨rfl, by omega, rfl, busAppend_resp_cases lm hres s.orders_to _ ts⟩

/-- Witness for C9 at concrete inputs: the acceptance response for `oBuy52`
at t=10 is delivered no earlier than 10, and a concrete fill at t=11 is
delivered at `11 + response = 12`. -/
theorem delivery_timestamps_spec_witness :
    (10 : Int) ≤ 11 ∧
      (12 : Int) = 11 + lmC.response 11 (fillOrder oSell5 11 true 1001) := by
  have h := delivery_timestamps_spec qmU lmC (fun _ _ => zero_le_one)
    (fun _ _ => zero_le_one)
  constructor
  · exact (h.2.2.1 ex0 oBuy52 10 _ _ rfl).2
  · exact (h.2.2.2.2 ex0 oSell5 11 true 1001 _ _ _ rfl).1

lemma local_recv_loop_spec {Q : Type} (timestamp wait_resp : Int)
    (pre : List (Order Q × Int)) :
    ∀ (post : List (Order Q × Int)) (s : LocalSt Q) (nt : Int),
      (∀ e ∈ pre, e.2 = timestamp) → (∀ e ∈ post, timestamp < e.2) →
      local_recv_loop timestamp wait_resp (pre ++ post) s nt =
        Except.ok ({ List.foldl recv_step s pre with orders_from := post }, nt) := by
  induction pre with
  | nil =>
    intro post s nt _ hpost
    cases post with
    | nil => simp [local_recv_loop]
    | cons e rest =>
      obtain ⟨o, rts⟩ := e
      have hlt : timestamp < rts := hpost (o, rts) (List.mem_cons_self _ _)
      have hne : ¬timestamp = rts := by omega
      simp [local_recv_loop, hne, hlt]
  | cons e pre' ih =>
    intro post s nt hpre hpost
    obtain ⟨o, rts⟩ := e
    have hts : rts = timestamp := hpre (o, rts) (List.mem_cons_self _ _)
    subst hts
    simp only [List.cons_append, local_recv_loop, if_pos rfl,
      local_process_recv_order_, List.foldl_cons]
    exact ih post _ nt (fun x hx => hpre x (List.mem_cons_of_mem _ hx)) hpost

/-- C10: for every timestamp and every `wait_resp` value, the local
processor's `process_recv_order` drains exactly the inbound-bus entries
whose delivery timestamp equals the given timestamp (the bus is split as
`pre ++ post` with `pre` the entries at that timestamp and `post` the later
ones, as the time-sorted bus guarantees) and always returns `i64::MAX`.
The `wait_resp` argument is universally quantified and absent from the
result: it affects neither the drain nor the returned hint.  Each drained
entry acts by `recv_step`: a `Filled` response updates the state accounting
before the response overwrites (or creates) the local order-map entry. -/
theorem local_recv_drain_spec {Q : Type} (s : LocalSt Q)
    (timestamp wait_resp : Int) (pre post : List (Order Q × Int))
    (hsplit : s.orders_from = pre ++ post)
    (hpre : ∀ e ∈ pre, e.2 = timestamp)
    (hpost : ∀ e ∈ post, timestamp < e.2) :
    local_process_recv_order s timestamp wait_resp =
      Except.ok
        ({ List.foldl recv_step { s with orders_from := [] } pre with
            orders_from := post }, I64_MAX) := by
  unfold local_process_recv_order
  rw [hsplit]
  exact local_recv_loop_spec timestamp wait_resp pre post _ I64_MAX hpre hpost

/-- Witness for C10 at a concrete input, at two different `wait_resp` values
(999 and `i64::MAX ≡ none`): both drains produce the same state — the
`Filled` response at t=3 processed through `recv_step`, the t=4 entry left
on the bus — and both return `i64::MAX`. -/
theorem local_recv_drain_spec_witness :
    local_process_recv_order locBus 3 999 =
      Except.ok
        ({ List.foldl recv_step { locBus with orders_from := [] }
            [(respFilled, 3)] with orders_from := [(respNew, 4)] }, I64_MAX) ∧
    local_process_recv_order locBus 3 I64_MAX =
      Except.ok
        ({ List.foldl recv_step { locBus with orders_from := [] }
            [(respFilled, 3)] with orders_from := [(respNew, 4)] }, I64_MAX) :=
  ⟨local_recv_drain_spec locBus 3 999 [(respFilled, 3)] [(respNew, 4)] rfl
      (by decide) (by decide),
   local_recv_drain_spec locBus 3 I64_MAX [(respFilled, 3)] [(respNew, 4)] rfl
      (by decide) (by decide)⟩

lemma check_sell_eq {Q : Type} (qm : QueueModel Q) (lm : LatencyModel Q)
    (s : ExchSt Q) (o : Order Q) (p : Int) (v : ℚ) (ts : Int)
    (hst : o.status = Status.New) :
    check_if_sell_filled qm lm s o p v ts =
      Except.ok
        ((if sellFilledFlag qm s.depth p v o then
            { s with
                filled_orders := s.filled_orders ++ [o.order_id]
                state := apply_fill s.state (examSell qm s.depth p v ts o)
                orders_to := busAppend s.orders_to (examSell qm s.depth p v ts o)
                  (ts + lm.response ts (examSell qm s.depth p v ts o)) }
          else s),
          examSell qm s.depth p v ts o,
          if sellFilledFlag qm s.depth p v o then
            ts + lm.response ts (examSell qm s.depth p v ts o)
          else I64_MAX) := by
  have hterm : ¬(o.status = Status.Expired ∨ o.status = Status.Canceled ∨
      o.status = Status.Filled) := by simp [hst]
  by_cases h1 : o.price_tick < p
  · have hstep : check_if_sell_filled qm lm s o p v ts =
        fill lm (pushFilled s o.order_id) o ts true o.price_tick := by
      simp [check_if_sell_filled, h1]
    rw [hstep, fill_ok lm _ o ts true o.price_tick hterm]
    simp [sellFilledFlag, examSell, h1, pushFilled]
  · by_cases h2 : o.price_tick = p
    · subst h2
      by_cases h3 : qm.is_filled { o with q := qm.trade o v s.depth } s.depth
      · have hterm1 : ¬(({ o with q := qm.trade o v s.depth } : Order Q).status =
            Status.Expired ∨ ({ o with q := qm.trade o v s.depth } : Order Q).status =
            Status.Canceled ∨ ({ o with q := qm.trade o v s.depth } : Order Q).status =
            Status.Filled) := by simp [hst]
        have hstep : check_if_sell_filled qm lm s o o.price_tick v ts =
            fill lm (pushFilled s o.order_id)
              { o with q := qm.trade o v s.depth } ts true o.price_tick := by
          simp [check_if_sell_filled, h1, h3]
        rw [hstep, fill_ok lm _ _ ts true _ hterm1]
        simp [sellFilledFlag, examSell, h1, h3, pushFilled]
      · have hstep : check_if_sell_filled qm lm s o o.price_tick v ts =
            Except.ok (s, { o with q := qm.trade o v s.depth }, I64_MAX) := by
          simp [check_if_sell_filled, h1, h3]
        rw [hstep]
        simp [sellFilledFlag, examSell, h1, h3]
    · have hstep : check_if_sell_filled qm lm s o p v ts =
          Except.ok (s, o, I64_MAX) := by
        simp [check_if_sell_filled, h1, h2]
      rw [hstep]
      simp [sellFilledFlag, examSell, h1, h2]

lemma check_buy_eq {Q : Type} (qm : QueueModel Q) (lm : LatencyModel Q)
    (s : ExchSt Q) (o : Order Q) (p : Int) (v : ℚ) (ts : Int)
    (hst : o.status = Status.New) :
    check_if_buy_filled qm lm s o p v ts =
      Except.ok
        ((if buyFilledFlag qm s.depth p v o then
            { s with
                filled_orders := s.filled_orders ++ [o.order_id]
                state := apply_fill s.state (examBuy qm s.depth p v ts o)
                orders_to := busAppend s.orders_to (examBuy qm s.depth p v ts o)
                  (ts + lm.response ts (examBuy qm s.depth p v ts o)) }
          else s),
          examBuy qm s.depth p v ts o,
          if buyFilledFlag qm s.depth p v o then
            ts + lm.response ts (examBuy qm s.depth p v ts o)
          else I64_MAX) := by
  have hterm : ¬(o.status = Status.Expired ∨ o.status = Status.Canceled ∨
      o.status = Status.Filled) := by simp [hst]
  by_cases h1 : o.price_tick > p
  · have hstep : check_if_buy_filled qm lm s o p v ts =
        fill lm (pushFilled s o.order_id) o ts true o.price_tick := by
      simp [check_if_buy_filled, h1]
    rw [hstep, fill_ok lm _ o ts true o.price_tick hterm]
    simp [buyFilledFlag, examBuy, h1, pushFilled]
  · by_cases h2 : o.price_tick = p
    · subst h2
      by_cases h3 : qm.is_filled { o with q := qm.trade o v s.depth } s.depth
      · have hterm1 : ¬(({ o with q := qm.trade o v s.depth } : Order Q).status =
            Status.Expired ∨ ({ o with q := qm.trade o v s.depth } : Order Q).status =
            Status.Canceled ∨ ({ o with q := qm.trade o v s.depth } : Order Q).status =
            Status.Filled) := by simp [hst]
        have hstep : check_if_buy_filled qm lm s o o.price_tick v ts =
            fill lm (pushFilled s o.order_id)
              { o with q := qm.trade o v s.depth } ts true o.price_tick := by
          simp [check_if_buy_filled, h1, h3]
        rw [hstep, fill_ok lm _ _ ts true _ hterm1]
        simp [buyFilledFlag, examBuy, h1, h3, pushFilled]
      · have hstep : check_if_buy_filled qm lm s o o.price_tick v ts =
            Except.ok (s, { o with q := qm.trade o v s.depth }, I64_MAX) := by
          simp [check_if_buy_filled, h1, h3]
        rw [hstep]
        simp [buyFilledFlag, examBuy, h1, h3]
    · have hstep : check_if_buy_filled qm lm s o p v ts =
          Except.ok (s, o, I64_MAX) := by
        simp [check_if_buy_filled, h1, h2]
      rw [hstep]
      simp [buyFilledFlag, examBuy, h1, h2]

lemma sweep_sell_map_spec {Q : Type} (qm : QueueModel Q) (lm : LatencyModel Q)
    (p : Int) (v : ℚ) (ts : Int) (l : List (Int × Order Q)) :
    ∀ (s : ExchSt Q),
    (∀ ko ∈ l, lookupA s.orders ko.1 = some ko.2) →
    (l.map Prod.fst).Nodup →
    (∀ ko ∈ l, ko.2.order_id = ko.1) →
    (∀ ko ∈ l, ko.2.side = Side.Sell → ko.2.status = Status.New) →
    ∃ s', sweep_sell_map qm lm p v ts l s = Except.ok s' ∧
      s'.filled_orders = s.filled_orders ++
        (l.filter (fun ko => ko.2.side == Side.Sell &&
          sellFilledFlag qm s.depth p v ko.2)).map Prod.fst ∧
      (∀ oid, oid ∉ l.map Prod.fst → lookupA s'.orders oid = lookupA s.orders oid) ∧
      (∀ ko ∈ l, lookupA s'.orders ko.1 =
        some (if ko.2.side = Side.Sell then examSell qm s.depth p v ts ko.2 else ko.2)) ∧
      s'.buy_orders = s.buy_orders ∧ s'.sell_orders = s.sell_orders ∧
      s'.depth = s.depth ∧
      (∀ e ∈ s.orders_to, e ∈ s'.orders_to) ∧
      (∀ e ∈ s'.orders_to, e ∈ s.orders_to ∨
        ∃ ko, ko ∈ l ∧ ko.2.side = Side.Sell ∧
          sellFilledFlag qm s.depth p v ko.2 = true ∧
          e = (examSell qm s.depth p v ts ko.2,
            ts + lm.response ts (examSell qm s.depth p v ts ko.2))) ∧
      (∀ ko ∈ l, ko.2.side = Side.Sell → sellFilledFlag qm s.depth p v ko.2 = true →
        (examSell qm s.depth p v ts ko.2,
          ts + lm.response ts (examSell qm s.depth p v ts ko.2)) ∈ s'.orders_to) := by
  induction l with
  | nil =>
    intro s _ _ _ _
    refine ⟨s, rfl, by simp, fun oid _ => rfl, by simp, rfl, rfl, rfl,
      fun e he => he, fun e he => Or.inl he, by simp⟩
  | cons ko rest ih =>
    obtain ⟨k, o⟩ := ko
    intro s hlk hnd hoid hopen
    have hk : o.order_id = k := hoid (k, o) (List.mem_cons_self _ _)
    have hnd' := hnd
    rw [List.map_cons, List.nodup_cons] at hnd'
    obtain ⟨hknr, hndr⟩ := hnd'
    by_cases hside : o.side = Side.Sell
    · have hst : o.status = Status.New := hopen (k, o) (List.mem_cons_self _ _) hside
      by_cases hflag : sellFilledFlag qm s.depth p v o
      · -- the head order is filled
        set oX := examSell qm s.depth p v ts o with hoX
        set s2 : ExchSt Q :=
          { s with
              filled_orders := s.filled_orders ++ [o.order_id]
              state := apply_fill s.state oX
              orders_to := busAppend s.orders_to oX (ts + lm.response ts oX)
              orders := insertA s.orders k oX } with hs2
        have hstep : sweep_sell_map qm lm p v ts ((k, o) :: rest) s =
            sweep_sell_map qm lm p v ts rest s2 := by
          simp only [sweep_sell_map, if_pos hside, check_sell_eq qm lm s o p v ts hst,
            if_pos hflag]
        obtain ⟨s', hrun, hfill, hunch, hent, hbo, hso, hdep, hfwd, hbwd, hmem⟩ :=
          ih s2
            (fun x hx => by
              have hne : x.1 ≠ k := by
                intro hcon
                exact hknr (hcon ▸ List.mem_map.mpr ⟨x, hx, rfl⟩)
              show lookupA s2.orders x.1 = some x.2
              rw [hs2]
              simpa [lookupA_insertA_ne _ _ _ _ hne] using
                hlk x (List.mem_cons_of_mem _ hx))
            hndr
            (fun x hx => hoid x (List.mem_cons_of_mem _ hx))
            (fun x hx hs => hopen x (List.mem_cons_of_mem _ hx) hs)
        have hd2 : s2.depth = s.depth := rfl
        refine ⟨s', hstep ▸ hrun, ?_, ?_, ?_, by rw [hbo], by rw [hso], by rw [hdep],
          ?_, ?_, ?_⟩
        · rw [hfill]
          simp only [hd2]
          simp [hside, hflag, hk, List.filter_cons]
        · intro oid hoid2
          have hne : oid ≠ k := by
            intro hcon
            exact hoid2 (by simp [hcon])
          have hnr : oid ∉ rest.map Prod.fst := by
            intro hm
            exact hoid2 (by simp [hm])
          rw [hunch oid hnr]
          show lookupA (insertA s.orders k oX) oid = lookupA s.orders oid
          exact lookupA_insertA_ne _ _ _ _ hne
        · intro x hx
          rcases List.mem_cons.mp hx with hx0 | hx0
          · subst hx0
            rw [hunch k hknr]
            show lookupA (insertA s.orders k oX) k = _
            rw [lookupA_insertA_self]
            simp only [hd2] at hoX ⊢
            simp [hside, hoX]
          · have := hent x hx0
            simpa only [hd2] using this
        · intro e he
          apply hfwd
          show e ∈ busAppend s.orders_to oX (ts + lm.response ts oX)
          exact (mem_busAppend _ _ _ _).mpr (Or.inl he)
        · intro e he
          rcases hbwd e he with h0 | ⟨x, hx, hxs, hxf, hxe⟩
          · rcases (mem_busAppend _ _ _ _).mp h0 with h1 | h1
            · exact Or.inl h1
            · exact Or.inr ⟨(k, o), List.mem_cons_self _ _, hside, hflag, h1⟩
          · exact Or.inr ⟨x, List.mem_cons_of_mem _ hx, hxs,
              by simpa only [hd2] using hxf, by simpa only [hd2] using hxe⟩
        · intro x hx hxs hxf
          rcases List.mem_cons.mp hx with hx0 | hx0
          · subst hx0
            apply hfwd
            show _ ∈ busAppend s.orders_to oX (ts + lm.response ts oX)
            exact (mem_busAppend _ _ _ _).mpr (Or.inr rfl)
          · exact hmem x hx0 hxs (by simpa only [hd2] using hxf)
      · -- the head order is examined but not filled
        set oX := examSell qm s.depth p v ts o with hoX
        set s2 : ExchSt Q := { s with orders := insertA s.orders k oX } with hs2
        have hstep : sweep_sell_map qm lm p v ts ((k, o) :: rest) s =
            sweep_sell_map qm lm p v ts rest s2 := by
          simp only [sweep_sell_map, if_pos hside, check_sell_eq qm lm s o p v ts hst,
            if_neg hflag]
        obtain ⟨s', hrun, hfill, hunch, hent, hbo, hso, hdep, hfwd, hbwd, hmem⟩ :=
          ih s2
            (fun x hx => by
              have hne : x.1 ≠ k := by
                intro hcon
                exact hknr (hcon ▸ List.mem_map.mpr ⟨x, hx, rfl⟩)
              show lookupA s2.orders x.1 = some x.2
              rw [hs2]
              simpa [lookupA_insertA_ne _ _ _ _ hne] using
                hlk x (List.mem_cons_of_mem _ hx))
            hndr
            (fun x hx => hoid x (List.mem_cons_of_mem _ hx))
            (fun x hx hs => hopen x (List.mem_cons_of_mem _ hx) hs)
        have hd2 : s2.depth = s.depth := rfl
        refine ⟨s', hstep ▸ hrun, ?_, ?_, ?_, by rw [hbo], by rw [hso], by rw [hdep],
          ?_, ?_, ?_⟩
        · rw [hfill]
          simp only [hd2]
          simp [hside, hflag, List.filter_cons]
        · intro oid hoid2
          have hne : oid ≠ k := by
            intro hcon
            exact hoid2 (by simp [hcon])
          have hnr : oid ∉ rest.map Prod.fst := by
            intro hm
            exact hoid2 (by simp [hm])
          rw [hunch oid hnr]
          show lookupA (insertA s.orders k oX) oid = lookupA s.orders oid
          exact lookupA_insertA_ne _ _ _ _ hne
        · intro x hx
          rcases List.mem_cons.mp hx with hx0 | hx0
          · subst hx0
            rw [hunch k hknr]
            show lookupA (insertA s.orders k oX) k = _
            rw [lookupA_insertA_self]
            simp only [hd2] at hoX ⊢
            simp [hside, hoX]
          · have := hent x hx0
            simpa only [hd2] using this
        · exact fun e he => hfwd e he
        · intro e he
          rcases hbwd e he with h0 | ⟨x, hx, hxs, hxf, hxe⟩
          · exact Or.inl h0
          · exact Or.inr ⟨x, List.mem_cons_of_mem _ hx, hxs,
              by simpa only [hd2] using hxf, by simpa only [hd2] using hxe⟩
        · intro x hx hxs hxf
          rcases List.mem_cons.mp hx with hx0 | hx0
          · subst hx0
            exact absurd hxf (by simpa using hflag)
          · exact hmem x hx0 hxs (by simpa only [hd2] using hxf)
    · -- not a sell order: skipped
      have hstep : sweep_sell_map qm lm p v ts ((k, o) :: rest) s =
          sweep_sell_map qm lm p v ts rest s := by
        simp only [sweep_sell_map, if_neg hside]
      obtain ⟨s', hrun, hfill, hunch, hent, hbo, hso, hdep, hfwd, hbwd, hmem⟩ :=
        ih s
          (fun x hx => hlk x (List.mem_cons_of_mem _ hx))
          hndr
          (fun x hx => hoid x (List.mem_cons_of_mem _ hx))
          (fun x hx hs => hopen x (List.mem_cons_of_mem _ hx) hs)
      refine ⟨s', hstep ▸ hrun, ?_, ?_, ?_, hbo, hso, hdep, hfwd, ?_, ?_⟩
      · rw [hfill]
        simp [hside, List.filter_cons]
      · intro oid hoid2
        have hnr : oid ∉ rest.map Prod.fst := by
          intro hm
          exact hoid2 (by simp [hm])
        exact hunch oid hnr
      · intro x hx
        rcases List.mem_cons.mp hx with hx0 | hx0
        · subst hx0
          rw [hunch k (by simpa using hknr)]
          simp [hside, hlk (k, o) (List.mem_cons_self _ _)]
        · exact hent x hx0
      · intro e he
        rcases hbwd e he with h0 | ⟨x, hx, hxs, hxf, hxe⟩
        · exact Or.inl h0
        · exact Or.inr ⟨x, List.mem_cons_of_mem _ hx, hxs, hxf, hxe⟩
      · intro x hx hxs hxf
        rcases List.mem_cons.mp hx with hx0 | hx0
        · subst hx0
          exact absurd hxs hside
        · exact hmem x hx0 hxs hxf

lemma sweep_buy_map_spec {Q : Type} (qm : QueueModel Q) (lm : LatencyModel Q)
    (p : Int) (v : ℚ) (ts : Int) (l : List (Int × Order Q)) :
    ∀ (s : ExchSt Q),
    (∀ ko ∈ l, lookupA s.orders ko.1 = some ko.2) →
    (l.map Prod.fst).Nodup →
    (∀ ko ∈ l, ko.2.order_id = ko.1) →
    (∀ ko ∈ l, ko.2.side = Side.Buy → ko.2.status = Status.New) →
    ∃ s', sweep_buy_map qm lm p v ts l s = Except.ok s' ∧
      s'.filled_orders = s.filled_orders ++
        (l.filter (fun ko => ko.2.side == Side.Buy &&
          buyFilledFlag qm s.depth p v ko.2)).map Prod.fst ∧
      (∀ oid, oid ∉ l.map Prod.fst → lookupA s'.orders oid = lookupA s.orders oid) ∧
      (∀ ko ∈ l, lookupA s'.orders ko.1 =
        some (if ko.2.side = Side.Buy then examBuy qm s.depth p v ts ko.2 else ko.2)) ∧
      s'.buy_orders = s.buy_orders ∧ s'.sell_orders = s.sell_orders ∧
      s'.depth = s.depth ∧
      (∀ e ∈ s.orders_to, e ∈ s'.orders_to) ∧
      (∀ e ∈ s'.orders_to, e ∈ s.orders_to ∨
        ∃ ko, ko ∈ l ∧ ko.2.side = Side.Buy ∧
          buyFilledFlag qm s.depth p v ko.2 = true ∧
          e = (examBuy qm s.depth p v ts ko.2,
            ts + lm.response ts (examBuy qm s.depth p v ts ko.2))) ∧
      (∀ ko ∈ l, ko.2.side = Side.Buy → buyFilledFlag qm s.depth p v ko.2 = true →
        (examBuy qm s.depth p v ts ko.2,
          ts + lm.response ts (examBuy qm s.depth p v ts ko.2)) ∈ s'.orders_to) := by
  induction l with
  | nil =>
    intro s _ _ _ _
    refine ⟨s, rfl, by simp, fun oid _ => rfl, by simp, rfl, rfl, rfl,
      fun e he => he, fun e he => Or.inl he, by simp⟩
  | cons ko rest ih =>
    obtain ⟨k, o⟩ := ko
    intro s hlk hnd hoid hopen
    have hk : o.order_id = k := hoid (k, o) (List.mem_cons_self _ _)
    have hnd' := hnd
    rw [List.map_cons, List.nodup_cons] at hnd'
    obtain ⟨hknr, hndr⟩ := hnd'
    by_cases hside : o.side = Side.Buy
    · have hst : o.status = Status.New := hopen (k, o) (List.mem_cons_self _ _) hside
      by_cases hflag : buyFilledFlag qm s.depth p v o
      · -- the head order is filled
        set oX := examBuy qm s.depth p v ts o with hoX
        set s2 : ExchSt Q :=
          { s with
              filled_orders := s.filled_orders ++ [o.order_id]
              state := apply_fill s.state oX
              orders_to := busAppend s.orders_to oX (ts + lm.response ts oX)
              orders := insertA s.orders k oX } with hs2
        have hstep : sweep_buy_map qm lm p v ts ((k, o) :: rest) s =
            sweep_buy_map qm lm p v ts rest s2 := by
          simp only [sweep_buy_map, if_pos hside, check_buy_eq qm lm s o p v ts hst,
            if_pos hflag]
        obtain ⟨s', hrun, hfill, hunch, hent, hbo, hso, hdep, hfwd, hbwd, hmem⟩ :=
          ih s2
            (fun x hx => by
              have hne : x.1 ≠ k := by
                intro hcon
                exact hknr (hcon ▸ List.mem_map.mpr ⟨x, hx, rfl⟩)
              show lookupA s2.orders x.1 = some x.2
              rw [hs2]
              simpa [lookupA_insertA_ne _ _ _ _ hne] using
                hlk x (List.mem_cons_of_mem _ hx))
            hndr
            (fun x hx => hoid x (List.mem_cons_of_mem _ hx))
            (fun x hx hs => hopen x (List.mem_cons_of_mem _ hx) hs)
        have hd2 : s2.depth = s.depth := rfl
        refine ⟨s', hstep ▸ hrun, ?_, ?_, ?_, by rw [hbo], by rw [hso], by rw [hdep],
          ?_, ?_, ?_⟩
        · rw [hfill]
          simp only [hd2]
          simp [hside, hflag, hk, List.filter_cons]
        · intro oid hoid2
          have hne : oid ≠ k := by
            intro hcon
            exact hoid2 (by simp [hcon])
          have hnr : oid ∉ rest.map Prod.fst := by
            intro hm
            exact hoid2 (by simp [hm])
          rw [hunch oid hnr]
          show lookupA (insertA s.orders k oX) oid = lookupA s.orders oid
          exact lookupA_insertA_ne _ _ _ _ hne
        · intro x hx
          rcases List.mem_cons.mp hx with hx0 | hx0
          · subst hx0
            rw [hunch k hknr]
            show lookupA (insertA s.orders k oX) k = _
            rw [lookupA_insertA_self]
            simp only [hd2] at hoX ⊢
            simp [hside, hoX]
          · have := hent x hx0
            simpa only [hd2] using this
        · intro e he
          apply hfwd
          show e ∈ busAppend s.orders_to oX (ts + lm.response ts oX)
          exact (mem_busAppend _ _ _ _).mpr (Or.inl he)
        · intro e he
          rcases hbwd e he with h0 | ⟨x, hx, hxs, hxf, hxe⟩
          · rcases (mem_busAppend _ _ _ _).mp h0 with h1 | h1
            · exact Or.inl h1
            · exact Or.inr ⟨(k, o), List.mem_cons_self _ _, hside, hflag, h1⟩
          · exact Or.inr ⟨x, List.mem_cons_of_mem _ hx, hxs,
              by simpa only [hd2] using hxf, by simpa only [hd2] using hxe⟩
        · intro x hx hxs hxf
          rcases List.mem_cons.mp hx with hx0 | hx0
          · subst hx0
            apply hfwd
            show _ ∈ busAppend s.orders_to oX (ts + lm.response ts oX)
            exact (mem_busAppend _ _ _ _).mpr (Or.inr rfl)
          · exact hmem x hx0 hxs (by simpa only [hd2] using hxf)
      · -- the head order is examined but not filled
        set oX := examBuy qm s.depth p v ts o with hoX
        set s2 : ExchSt Q := { s with orders := insertA s.orders k oX } with hs2
        have hstep : sweep_buy_map qm lm p v ts ((k, o) :: rest) s =
            sweep_buy_map qm lm p v ts rest s2 := by
          simp only [sweep_buy_map, if_pos hside, check_buy_eq qm lm s o p v ts hst,
            if_neg hflag]
        obtain ⟨s', hrun, hfill, hunch, hent, hbo, hso, hdep, hfwd, hbwd, hmem⟩ :=
          ih s2
            (fun x hx => by
              have hne : x.1 ≠ k := by
                intro hcon
                exact hknr (hcon ▸ List.mem_map.mpr ⟨x, hx, rfl⟩)
              show lookupA s2.orders x.1 = some x.2
              rw [hs2]
              simpa [lookupA_insertA_ne _ _ _ _ hne] using
                hlk x (List.mem_cons_of_mem _ hx))
            hndr
            (fun x hx => hoid x (List.mem_cons_of_mem _ hx))
            (fun x hx hs => hopen x (List.mem_cons_of_mem _ hx) hs)
        have hd2 : s2.depth = s.depth := rfl
        refine ⟨s', hstep ▸ hrun, ?_, ?_, ?_, by rw [hbo], by rw [hso], by rw [hdep],
          ?_, ?_, ?_⟩
        · rw [hfill]
          simp only [hd2]
          simp [hside, hflag, List.filter_cons]
        · intro oid hoid2
          have hne : oid ≠ k := by
            intro hcon
            exact hoid2 (by simp [hcon])
          have hnr : oid ∉ rest.map Prod.fst := by
            intro hm
            exact hoid2 (by simp [hm])
          rw [hunch oid hnr]
          show lookupA (insertA s.orders k oX) oid = lookupA s.orders oid
          exact lookupA_insertA_ne _ _ _ _ hne
        · intro x hx
          rcases List.mem_cons.mp hx with hx0 | hx0
          · subst hx0
            rw [hunch k hknr]
            show lookupA (insertA s.orders k oX) k = _
            rw [lookupA_insertA_self]
            simp only [hd2] at hoX ⊢
            simp [hside, hoX]
          · have := hent x hx0
            simpa only [hd2] using this
        · exact fun e he => hfwd e he
        · intro e he
          rcases hbwd e he with h0 | ⟨x, hx, hxs, hxf, hxe⟩
          · exact Or.inl h0
          · exact Or.inr ⟨x, List.mem_cons_of_mem _ hx, hxs,
              by simpa only [hd2] using hxf, by simpa only [hd2] using hxe⟩
        · intro x hx hxs hxf
          rcases List.mem_cons.mp hx with hx0 | hx0
          · subst hx0
            exact absurd hxf (by simpa using hflag)
          · exact hmem x hx0 hxs (by simpa only [hd2] using hxf)
    · -- not a sell order: skipped
      have hstep : sweep_buy_map qm lm p v ts ((k, o) :: rest) s =
          sweep_buy_map qm lm p v ts rest s := by
        simp only [sweep_buy_map, if_neg hside]
      obtain ⟨s', hrun, hfill, hunch, hent, hbo, hso, hdep, hfwd, hbwd, hmem⟩ :=
        ih s
          (fun x hx => hlk x (List.mem_cons_of_mem _ hx))
          hndr
          (fun x hx => hoid x (List.mem_cons_of_mem _ hx))
          (fun x hx hs => hopen x (List.mem_cons_of_mem _ hx) hs)
      refine ⟨s', hstep ▸ hrun, ?_, ?_, ?_, hbo, hso, hdep, hfwd, ?_, ?_⟩
      · rw [hfill]
        simp [hside, List.filter_cons]
      · intro oid hoid2
        have hnr : oid ∉ rest.map Prod.fst := by
          intro hm
          exact hoid2 (by simp [hm])
        exact hunch oid hnr
      · intro x hx
        rcases List.mem_cons.mp hx with hx0 | hx0
        · subst hx0
          rw [hunch k (by simpa using hknr)]
          simp [hside, hlk (k, o) (List.mem_cons_self _ _)]
        · exact hent x hx0
      · intro e he
        rcases hbwd e he with h0 | ⟨x, hx, hxs, hxf, hxe⟩
        · exact Or.inl h0
        · exact Or.inr ⟨x, List.mem_cons_of_mem _ hx, hxs, hxf, hxe⟩
      · intro x hx hxs hxf
        rcases List.mem_cons.mp hx with hx0 | hx0
        · subst hx0
          exact absurd hxs hside
        · exact hmem x hx0 hxs hxf

lemma best_bid_map_spec {Q : Type} (lm : LatencyModel Q) (nb : Int) (ts : Int)
    (l : List (Int × Order Q)) :
    ∀ (s : ExchSt Q),
    (∀ ko ∈ l, lookupA s.orders ko.1 = some ko.2) →
    (l.map Prod.fst).Nodup →
    (∀ ko ∈ l, ko.2.order_id = ko.1) →
    (∀ ko ∈ l, ko.2.side = Side.Sell → ko.2.status = Status.New) →
    ∃ s', best_bid_map lm nb ts l s = Except.ok s' ∧
      s'.filled_orders = s.filled_orders ++
        (l.filter (fun ko => ko.2.side == Side.Sell && bestSellFlag nb ko.2)).map Prod.fst ∧
      (∀ oid, oid ∉ l.map Prod.fst → lookupA s'.orders oid = lookupA s.orders oid) ∧
      (∀ ko ∈ l, lookupA s'.orders ko.1 =
        some (if ko.2.side = Side.Sell then examBestSell nb ts ko.2 else ko.2)) ∧
      s'.buy_orders = s.buy_orders ∧ s'.sell_orders = s.sell_orders ∧
      s'.depth = s.depth ∧
      (∀ e ∈ s.orders_to, e ∈ s'.orders_to) ∧
      (∀ e ∈ s'.orders_to, e ∈ s.orders_to ∨
        ∃ ko, ko ∈ l ∧ ko.2.side = Side.Sell ∧ bestSellFlag nb ko.2 = true ∧
          e = (examBestSell nb ts ko.2,
            ts + lm.response ts (examBestSell nb ts ko.2))) ∧
      (∀ ko ∈ l, ko.2.side = Side.Sell → bestSellFlag nb ko.2 = true →
        (examBestSell nb ts ko.2,
          ts + lm.response ts (examBestSell nb ts ko.2)) ∈ s'.orders_to) := by
  induction l with
  | nil =>
    intro s _ _ _ _
    refine ⟨s, rfl, by simp, fun oid _ => rfl, by simp, rfl, rfl, rfl,
      fun e he => he, fun e he => Or.inl he, by simp⟩
  | cons ko rest ih =>
    obtain ⟨k, o⟩ := ko
    intro s hlk hnd hoid hopen
    have hk : o.order_id = k := hoid (k, o) (List.mem_cons_self _ _)
    have hnd' := hnd
    rw [List.map_cons, List.nodup_cons] at hnd'
    obtain ⟨hknr, hndr⟩ := hnd'
    by_cases hcond : o.side = Side.Sell ∧ o.price_tick ≤ nb
    · have hst : o.status = Status.New :=
        hopen (k, o) (List.mem_cons_self _ _) hcond.1
      have hterm : ¬(o.status = Status.Expired ∨ o.status = Status.Canceled ∨
          o.status = Status.Filled) := by simp [hst]
      have hex : examBestSell nb ts o = fillOrder o ts true o.price_tick := by
        simp [examBestSell, hcond.2]
      set oX : Order Q := fillOrder o ts true o.price_tick with hoX
      set s2 : ExchSt Q :=
        { s with
            filled_orders := s.filled_orders ++ [o.order_id]
            state := apply_fill s.state oX
            orders_to := busAppend s.orders_to oX (ts + lm.response ts oX)
            orders := insertA s.orders k oX } with hs2
      have hfillstep := fill_ok lm (pushFilled s o.order_id) o ts true o.price_tick hterm
      simp only [pushFilled] at hfillstep
      have hstep : best_bid_map lm nb ts ((k, o) :: rest) s =
          best_bid_map lm nb ts rest s2 := by
        simp only [best_bid_map, if_pos hcond, pushFilled, hfillstep]
      obtain ⟨s', hrun, hfill, hunch, hent, hbo, hso, hdep, hfwd, hbwd, hmem⟩ :=
        ih s2
          (fun x hx => by
            have hne : x.1 ≠ k := by
              intro hcon
              exact hknr (hcon ▸ List.mem_map.mpr ⟨x, hx, rfl⟩)
            show lookupA s2.orders x.1 = some x.2
            rw [hs2]
            simpa [lookupA_insertA_ne _ _ _ _ hne] using
              hlk x (List.mem_cons_of_mem _ hx))
          hndr
          (fun x hx => hoid x (List.mem_cons_of_mem _ hx))
          (fun x hx hs => hopen x (List.mem_cons_of_mem _ hx) hs)
      refine ⟨s', hstep ▸ hrun, ?_, ?_, ?_, by rw [hbo], by rw [hso], by rw [hdep],
        ?_, ?_, ?_⟩
      · rw [hfill]
        simp [hcond.1, hcond.2, hk, bestSellFlag, List.filter_cons]
      · intro oid hoid2
        have hne : oid ≠ k := by
          intro hcon
          exact hoid2 (by simp [hcon])
        have hnr : oid ∉ rest.map Prod.fst := by
          intro hm
          exact hoid2 (by simp [hm])
        rw [hunch oid hnr]
        show lookupA (insertA s.orders k oX) oid = lookupA s.orders oid
        exact lookupA_insertA_ne _ _ _ _ hne
      · intro x hx
        rcases List.mem_cons.mp hx with hx0 | hx0
        · subst hx0
          rw [hunch k hknr]
          show lookupA (insertA s.orders k oX) k = _
          rw [lookupA_insertA_self]
          simp [hcond.1, hex]
        · exact hent x hx0
      · intro e he
        apply hfwd
        show e ∈ busAppend s.orders_to oX (ts + lm.response ts oX)
        exact (mem_busAppend _ _ _ _).mpr (Or.inl he)
      · intro e he
        rcases hbwd e he with h0 | ⟨x, hx, hxs, hxf, hxe⟩
        · rcases (mem_busAppend _ _ _ _).mp h0 with h1 | h1
          · exact Or.inl h1
          · refine Or.inr ⟨(k, o), List.mem_cons_self _ _, hcond.1, ?_, ?_⟩
            · simp [bestSellFlag, hcond.2]
            · rw [hex]
              exact h1
        · exact Or.inr ⟨x, List.mem_cons_of_mem _ hx, hxs, hxf, hxe⟩
      · intro x hx hxs hxf
        rcases List.mem_cons.mp hx with hx0 | hx0
        · subst hx0
          apply hfwd
          rw [hex]
          show _ ∈ busAppend s.orders_to oX (ts + lm.response ts oX)
          exact (mem_busAppend _ _ _ _).mpr (Or.inr rfl)
        · exact hmem x hx0 hxs hxf
    · have hstep : best_bid_map lm nb ts ((k, o) :: rest) s =
          best_bid_map lm nb ts rest s := by
        simp only [best_bid_map, if_neg hcond]
      obtain ⟨s', hrun, hfill, hunch, hent, hbo, hso, hdep, hfwd, hbwd, hmem⟩ :=
        ih s
          (fun x hx => hlk x (List.mem_cons_of_mem _ hx))
          hndr
          (fun x hx => hoid x (List.mem_cons_of_mem _ hx))
          (fun x hx hs => hopen x (List.mem_cons_of_mem _ hx) hs)
      have hflagor : o.side ≠ Side.Sell ∨ ¬o.price_tick ≤ nb := by
        by_cases h : o.side = Side.Sell
        · exact Or.inr (fun hle => hcond ⟨h, hle⟩)
        · exact Or.inl h
      refine ⟨s', hstep ▸ hrun, ?_, ?_, ?_, hbo, hso, hdep, hfwd, ?_, ?_⟩
      · rw [hfill]
        rcases hflagor with h | h
        · simp [h, List.filter_cons]
        · simp [bestSellFlag, h, List.filter_cons]
      · intro oid hoid2
        have hnr : oid ∉ rest.map Prod.fst := by
          intro hm
          exact hoid2 (by simp [hm])
        exact hunch oid hnr
      · intro x hx
        rcases List.mem_cons.mp hx with hx0 | hx0
        · subst hx0
          rw [hunch k hknr, hlk (k, o) (List.mem_cons_self _ _)]
          rcases hflagor with h | h
          · simp [h]
          · simp [examBestSell, h]
        · exact hent x hx0
      · intro e he
        rcases hbwd e he with h0 | ⟨x, hx, hxs, hxf, hxe⟩
        · exact Or.inl h0
        · exact Or.inr ⟨x, List.mem_cons_of_mem _ hx, hxs, hxf, hxe⟩
      · intro x hx hxs hxf
        rcases List.mem_cons.mp hx with hx0 | hx0
        · subst hx0
          rcases hflagor with h | h
          · exact absurd hxs h
          · exact absurd hxf (by simp [bestSellFlag, h])
        · exact hmem x hx0 hxs hxf

lemma best_ask_map_spec {Q : Type} (lm : LatencyModel Q) (nb : Int) (ts : Int)
    (l : List (Int × Order Q)) :
    ∀ (s : ExchSt Q),
    (∀ ko ∈ l, lookupA s.orders ko.1 = some ko.2) →
    (l.map Prod.fst).Nodup →
    (∀ ko ∈ l, ko.2.order_id = ko.1) →
    (∀ ko ∈ l, ko.2.side = Side.Buy → ko.2.status = Status.New) →
    ∃ s', best_ask_map lm nb ts l s = Except.ok s' ∧
      s'.filled_orders = s.filled_orders ++
        (l.filter (fun ko => ko.2.side == Side.Buy && bestBuyFlag nb ko.2)).map Prod.fst ∧
      (∀ oid, oid ∉ l.map Prod.fst → lookupA s'.orders oid = lookupA s.orders oid) ∧
      (∀ ko ∈ l, lookupA s'.orders ko.1 =
        some (if ko.2.side = Side.Buy then examBestBuy nb ts ko.2 else ko.2)) ∧
      s'.buy_orders = s.buy_orders ∧ s'.sell_orders = s.sell_orders ∧
      s'.depth = s.depth ∧
      (∀ e ∈ s.orders_to, e ∈ s'.orders_to) ∧
      (∀ e ∈ s'.orders_to, e ∈ s.orders_to ∨
        ∃ ko, ko ∈ l ∧ ko.2.side = Side.Buy ∧ bestBuyFlag nb ko.2 = true ∧
          e = (examBestBuy nb ts ko.2,
            ts + lm.response ts (examBestBuy nb ts ko.2))) ∧
      (∀ ko ∈ l, ko.2.side = Side.Buy → bestBuyFlag nb ko.2 = true →
        (examBestBuy nb ts ko.2,
          ts + lm.response ts (examBestBuy nb ts ko.2)) ∈ s'.orders_to) := by
  induction l with
  | nil =>
    intro s _ _ _ _
    refine ⟨s, rfl, by simp, fun oid _ => rfl, by simp, rfl, rfl, rfl,
      fun e he => he, fun e he => Or.inl he, by simp⟩
  | cons ko rest ih =>
    obtain ⟨k, o⟩ := ko
    intro s hlk hnd hoid hopen
    have hk : o.order_id = k := hoid (k, o) (List.mem_cons_self _ _)
    have hnd' := hnd
    rw [List.map_cons, List.nodup_cons] at hnd'
    obtain ⟨hknr, hndr⟩ := hnd'
    by_cases hcond : o.side = Side.Buy ∧ nb ≤ o.price_tick
    · have hst : o.status = Status.New :=
        hopen (k, o) (List.mem_cons_self _ _) hcond.1
      have hterm : ¬(o.status = Status.Expired ∨ o.status = Status.Canceled ∨
          o.status = Status.Filled) := by simp [hst]
      have hex : examBestBuy nb ts o = fillOrder o ts true o.price_tick := by
        simp [examBestBuy, hcond.2]
      set oX : Order Q := fillOrder o ts true o.price_tick with hoX
      set s2 : ExchSt Q :=
        { s with
            filled_orders := s.filled_orders ++ [o.order_id]
            state := apply_fill s.state oX
            orders_to := busAppend s.orders_to oX (ts + lm.response ts oX)
            orders := insertA s.orders k oX } with hs2
      have hfillstep := fill_ok lm (pushFilled s o.order_id) o ts true o.price_tick hterm
      simp only [pushFilled] at hfillstep
      have hstep : best_ask_map lm nb ts ((k, o) :: rest) s =
          best_ask_map lm nb ts rest s2 := by
        simp only [best_ask_map, if_pos hcond, pushFilled, hfillstep]
      obtain ⟨s', hrun, hfill, hunch, hent, hbo, hso, hdep, hfwd, hbwd, hmem⟩ :=
        ih s2
          (fun x hx => by
            have hne : x.1 ≠ k := by
              intro hcon
              exact hknr (hcon ▸ List.mem_map.mpr ⟨x, hx, rfl⟩)
            show lookupA s2.orders x.1 = some x.2
            rw [hs2]
            simpa [lookupA_insertA_ne _ _ _ _ hne] using
              hlk x (List.mem_cons_of_mem _ hx))
          hndr
          (fun x hx => hoid x (List.mem_cons_of_mem _ hx))
          (fun x hx hs => hopen x (List.mem_cons_of_mem _ hx) hs)
      refine ⟨s', hstep ▸ hrun, ?_, ?_, ?_, by rw [hbo], by rw [hso], by rw [hdep],
        ?_, ?_, ?_⟩
      · rw [hfill]
        simp [hcond.1, hcond.2, hk, bestBuyFlag, List.filter_cons]
      · intro oid hoid2
        have hne : oid ≠ k := by
          intro hcon
          exact hoid2 (by simp [hcon])
        have hnr : oid ∉ rest.map Prod.fst := by
          intro hm
          exact hoid2 (by simp [hm])
        rw [hunch oid hnr]
        show lookupA (insertA s.orders k oX) oid = lookupA s.orders oid
        exact lookupA_insertA_ne _ _ _ _ hne
      · intro x hx
        rcases List.mem_cons.mp hx with hx0 | hx0
        · subst hx0
          rw [hunch k hknr]
          show lookupA (insertA s.orders k oX) k = _
          rw [lookupA_insertA_self]
          simp [hcond.1, hex]
        · exact hent x hx0
      · intro e he
        apply hfwd
        show e ∈ busAppend s.orders_to oX (ts + lm.response ts oX)
        exact (mem_busAppend _ _ _ _).mpr (Or.inl he)
      · intro e he
        rcases hbwd e he with h0 | ⟨x, hx, hxs, hxf, hxe⟩
        · rcases (mem_busAppend _ _ _ _).mp h0 with h1 | h1
          · exact Or.inl h1
          · refine Or.inr ⟨(k, o), List.mem_cons_self _ _, hcond.1, ?_, ?_⟩
            · simp [bestBuyFlag, hcond.2]
            · rw [hex]
              exact h1
        · exact Or.inr ⟨x, List.mem_cons_of_mem _ hx, hxs, hxf, hxe⟩
      · intro x hx hxs hxf
        rcases List.mem_cons.mp hx with hx0 | hx0
        · subst hx0
          apply hfwd
          rw [hex]
          show _ ∈ busAppend s.orders_to oX (ts + lm.response ts oX)
          exact (mem_busAppend _ _ _ _).mpr (Or.inr rfl)
        · exact hmem x hx0 hxs hxf
    · have hstep : best_ask_map lm nb ts ((k, o) :: rest) s =
          best_ask_map lm nb ts rest s := by
        simp only [best_ask_map, if_neg hcond]
      obtain ⟨s', hrun, hfill, hunch, hent, hbo, hso, hdep, hfwd, hbwd, hmem⟩ :=
        ih s
          (fun x hx => hlk x (List.mem_cons_of_mem _ hx))
          hndr
          (fun x hx => hoid x (List.mem_cons_of_mem _ hx))
          (fun x hx hs => hopen x (List.mem_cons_of_mem _ hx) hs)
      have hflagor : o.side ≠ Side.Buy ∨ ¬nb ≤ o.price_tick := by
        by_cases h : o.side = Side.Buy
        · exact Or.inr (fun hle => hcond ⟨h, hle⟩)
        · exact Or.inl h
      refine ⟨s', hstep ▸ hrun, ?_, ?_, ?_, hbo, hso, hdep, hfwd, ?_, ?_⟩
      · rw [hfill]
        rcases hflagor with h | h
        · simp [h, List.filter_cons]
        · simp [bestBuyFlag, h, List.filter_cons]
      · intro oid hoid2
        have hnr : oid ∉ rest.map Prod.fst := by
          intro hm
          exact hoid2 (by simp [hm])
        exact hunch oid hnr
      · intro x hx
        rcases List.mem_cons.mp hx with hx0 | hx0
        · subst hx0
          rw [hunch k hknr, hlk (k, o) (List.mem_cons_self _ _)]
          rcases hflagor with h | h
          · simp [h]
          · simp [examBestBuy, h]
        · exact hent x hx0
      · intro e he
        rcases hbwd e he with h0 | ⟨x, hx, hxs, hxf, hxe⟩
        · exact Or.inl h0
        · exact Or.inr ⟨x, List.mem_cons_of_mem _ hx, hxs, hxf, hxe⟩
      · intro x hx hxs hxf
        rcases List.mem_cons.mp hx with hx0 | hx0
        · subst hx0
          rcases hflagor with h | h
          · exact absurd hxs h
          · exact absurd hxf (by simp [bestBuyFlag, h])
        · exact hmem x hx0 hxs hxf

lemma sweep_sell_ids_eq_map {Q : Type} (qm : QueueModel Q) (lm : LatencyModel Q)
    (p : Int) (v : ℚ) (ts : Int) (ids : List Int) :
    ∀ (s : ExchSt Q) (f : Int → Order Q),
    (∀ oid ∈ ids, lookupA s.orders oid = some (f oid)) →
    (∀ oid ∈ ids, (f oid).side = Side.Sell) →
    (∀ oid ∈ ids, (f oid).status = Status.New) →
    ids.Nodup →
    sweep_sell_ids qm lm p v ts ids s =
      sweep_sell_map qm lm p v ts (ids.map (fun i => (i, f i))) s := by
  induction ids with
  | nil =>
    intro s f _ _ _ _
    rfl
  | cons oid rest ih =>
    intro s f hlk hside hst hnd
    have hlk0 := hlk oid (List.mem_cons_self _ _)
    have hside0 := hside oid (List.mem_cons_self _ _)
    have hst0 := hst oid (List.mem_cons_self _ _)
    obtain ⟨hnr, hndr⟩ := List.nodup_cons.mp hnd
    by_cases hflag : sellFilledFlag qm s.depth p v (f oid)
    · have hchk := check_sell_eq qm lm s (f oid) p v ts hst0
      rw [if_pos hflag] at hchk
      have hone : sweep_sell_ids qm lm p v ts (oid :: rest) s =
          sweep_sell_ids qm lm p v ts rest
            { s with
                filled_orders := s.filled_orders ++ [(f oid).order_id]
                state := apply_fill s.state (examSell qm s.depth p v ts (f oid))
                orders_to := busAppend s.orders_to (examSell qm s.depth p v ts (f oid))
                  (ts + lm.response ts (examSell qm s.depth p v ts (f oid)))
                orders := insertA s.orders oid (examSell qm s.depth p v ts (f oid)) } := by
        simp only [sweep_sell_ids, hlk0, hchk]
      have htwo : sweep_sell_map qm lm p v ts ((oid :: rest).map (fun i => (i, f i))) s =
          sweep_sell_map qm lm p v ts (rest.map (fun i => (i, f i)))
            { s with
                filled_orders := s.filled_orders ++ [(f oid).order_id]
                state := apply_fill s.state (examSell qm s.depth p v ts (f oid))
                orders_to := busAppend s.orders_to (examSell qm s.depth p v ts (f oid))
                  (ts + lm.response ts (examSell qm s.depth p v ts (f oid)))
                orders := insertA s.orders oid (examSell qm s.depth p v ts (f oid)) } := by
        simp only [List.map_cons, sweep_sell_map, if_pos hside0, hchk]
      rw [hone, htwo]
      apply ih
      · intro x hx
        have hne : x ≠ oid := fun hcon => hnr (hcon ▸ hx)
        show lookupA (insertA s.orders oid _) x = some (f x)
        rw [lookupA_insertA_ne _ _ _ _ hne]
        exact hlk x (List.mem_cons_of_mem _ hx)
      · exact fun x hx => hside x (List.mem_cons_of_mem _ hx)
      · exact fun x hx => hst x (List.mem_cons_of_mem _ hx)
      · exact hndr
    · have hchk := check_sell_eq qm lm s (f oid) p v ts hst0
      rw [if_neg hflag, if_neg hflag] at hchk
      have hone : sweep_sell_ids qm lm p v ts (oid :: rest) s =
          sweep_sell_ids qm lm p v ts rest
            { s with orders := insertA s.orders oid (examSell qm s.depth p v ts (f oid)) } := by
        simp only [sweep_sell_ids, hlk0, hchk]
      have htwo : sweep_sell_map qm lm p v ts ((oid :: rest).map (fun i => (i, f i))) s =
          sweep_sell_map qm lm p v ts (rest.map (fun i => (i, f i)))
            { s with orders := insertA s.orders oid (examSell qm s.depth p v ts (f oid)) } := by
        simp only [List.map_cons, sweep_sell_map, if_pos hside0, hchk]
      rw [hone, htwo]
      apply ih
      · intro x hx
        have hne : x ≠ oid := fun hcon => hnr (hcon ▸ hx)
        show lookupA (insertA s.orders oid _) x = some (f x)
        rw [lookupA_insertA_ne _ _ _ _ hne]
        exact hlk x (List.mem_cons_of_mem _ hx)
      · exact fun x hx => hside x (List.mem_cons_of_mem _ hx)
      · exact fun x hx => hst x (List.mem_cons_of_mem _ hx)
      · exact hndr

lemma sweep_sell_ids_append {Q : Type} (qm : QueueModel Q) (lm : LatencyModel Q)
    (p : Int) (v : ℚ) (ts : Int) (a b : List Int) :
    ∀ (s : ExchSt Q),
    sweep_sell_ids qm lm p v ts (a ++ b) s =
      match sweep_sell_ids qm lm p v ts a s with
      | Except.error e => Except.error e
      | Except.ok s1 => sweep_sell_ids qm lm p v ts b s1 := by
  induction a with
  | nil =>
    intro s
    rfl
  | cons oid rest ih =>
    intro s
    cases hl : lookupA s.orders oid with
    | none => simp only [List.cons_append, sweep_sell_ids, hl]
    | some o =>
      cases hc : check_if_sell_filled qm lm s o p v ts with
      | error e => simp only [List.cons_append, sweep_sell_ids, hl, hc]
      | ok r =>
        obtain ⟨s1, o1, rr⟩ := r
        simp only [List.cons_append, sweep_sell_ids, hl, hc]
        exact ih _

lemma sweep_sell_ticks_eq_ids {Q : Type} (qm : QueueModel Q)
    (lm : LatencyModel Q) (p : Int) (v : ℚ) (ts : Int)
    (idx : List (Int × List Int)) (span : List Int) :
    ∀ (s : ExchSt Q),
    sweep_sell_ticks qm lm p v ts idx span s =
      sweep_sell_ids qm lm p v ts (spanIds idx span) s := by
  induction span with
  | nil =>
    intro s
    rfl
  | cons t rest ih =>
    intro s
    show sweep_sell_ticks qm lm p v ts idx (t :: rest) s = _
    unfold sweep_sell_ticks
    rw [show spanIds idx (t :: rest) = idxGet idx t ++ spanIds idx rest from rfl,
      sweep_sell_ids_append]
    cases hl : lookupA idx t with
    | none =>
      simp only [idxGet, hl, Option.getD_none]
      show sweep_sell_ticks qm lm p v ts idx rest s = _
      rw [ih s]
      rfl
    | some ids =>
      simp only [idxGet, hl, Option.getD_some]
      cases sweep_sell_ids qm lm p v ts ids s with
      | error e => rfl
      | ok s1 => exact ih s1

lemma sweep_buy_ids_eq_map {Q : Type} (qm : QueueModel Q) (lm : LatencyModel Q)
    (p : Int) (v : ℚ) (ts : Int) (ids : List Int) :
    ∀ (s : ExchSt Q) (f : Int → Order Q),
    (∀ oid ∈ ids, lookupA s.orders oid = some (f oid)) →
    (∀ oid ∈ ids, (f oid).side = Side.Buy) →
    (∀ oid ∈ ids, (f oid).status = Status.New) →
    ids.Nodup →
    sweep_buy_ids qm lm p v ts ids s =
      sweep_buy_map qm lm p v ts (ids.map (fun i => (i, f i))) s := by
  induction ids with
  | nil =>
    intro s f _ _ _ _
    rfl
  | cons oid rest ih =>
    intro s f hlk hside hst hnd
    have hlk0 := hlk oid (List.mem_cons_self _ _)
    have hside0 := hside oid (List.mem_cons_self _ _)
    have hst0 := hst oid (List.mem_cons_self _ _)
    obtain ⟨hnr, hndr⟩ := List.nodup_cons.mp hnd
    by_cases hflag : buyFilledFlag qm s.depth p v (f oid)
    · have hchk := check_buy_eq qm lm s (f oid) p v ts hst0
      rw [if_pos hflag] at hchk
      have hone : sweep_buy_ids qm lm p v ts (oid :: rest) s =
          sweep_buy_ids qm lm p v ts rest
            { s with
                filled_orders := s.filled_orders ++ [(f oid).order_id]
                state := apply_fill s.state (examBuy qm s.depth p v ts (f oid))
                orders_to := busAppend s.orders_to (examBuy qm s.depth p v ts (f oid))
                  (ts + lm.response ts (examBuy qm s.depth p v ts (f oid)))
                orders := insertA s.orders oid (examBuy qm s.depth p v ts (f oid)) } := by
        simp only [sweep_buy_ids, hlk0, hchk]
      have htwo : sweep_buy_map qm lm p v ts ((oid :: rest).map (fun i => (i, f i))) s =
          sweep_buy_map qm lm p v ts (rest.map (fun i => (i, f i)))
            { s with
                filled_orders := s.filled_orders ++ [(f oid).order_id]
                state := apply_fill s.state (examBuy qm s.depth p v ts (f oid))
                orders_to := busAppend s.orders_to (examBuy qm s.depth p v ts (f oid))
                  (ts + lm.response ts (examBuy qm s.depth p v ts (f oid)))
                orders := insertA s.orders oid (examBuy qm s.depth p v ts (f oid)) } := by
        simp only [List.map_cons, sweep_buy_map, if_pos hside0, hchk]
      rw [hone, htwo]
      apply ih
      · intro x hx
        have hne : x ≠ oid := fun hcon => hnr (hcon ▸ hx)
        show lookupA (insertA s.orders oid _) x = some (f x)
        rw [lookupA_insertA_ne _ _ _ _ hne]
        exact hlk x (List.mem_cons_of_mem _ hx)
      · exact fun x hx => hside x (List.mem_cons_of_mem _ hx)
      · exact fun x hx => hst x (List.mem_cons_of_mem _ hx)
      · exact hndr
    · have hchk := check_buy_eq qm lm s (f oid) p v ts hst0
      rw [if_neg hflag, if_neg hflag] at hchk
      have hone : sweep_buy_ids qm lm p v ts (oid :: rest) s =
          sweep_buy_ids qm lm p v ts rest
            { s with orders := insertA s.orders oid (examBuy qm s.depth p v ts (f oid)) } := by
        simp only [sweep_buy_ids, hlk0, hchk]
      have htwo : sweep_buy_map qm lm p v ts ((oid :: rest).map (fun i => (i, f i))) s =
          sweep_buy_map qm lm p v ts (rest.map (fun i => (i, f i)))
            { s with orders := insertA s.orders oid (examBuy qm s.depth p v ts (f oid)) } := by
        simp only [List.map_cons, sweep_buy_map, if_pos hside0, hchk]
      rw [hone, htwo]
      apply ih
      · intro x hx
        have hne : x ≠ oid := fun hcon => hnr (hcon ▸ hx)
        show lookupA (insertA s.orders oid _) x = some (f x)
        rw [lookupA_insertA_ne _ _ _ _ hne]
        exact hlk x (List.mem_cons_of_mem _ hx)
      · exact fun x hx => hside x (List.mem_cons_of_mem _ hx)
      · exact fun x hx => hst x (List.mem_cons_of_mem _ hx)
      · exact hndr

lemma sweep_buy_ids_append {Q : Type} (qm : QueueModel Q) (lm : LatencyModel Q)
    (p : Int) (v : ℚ) (ts : Int) (a b : List Int) :
    ∀ (s : ExchSt Q),
    sweep_buy_ids qm lm p v ts (a ++ b) s =
      match sweep_buy_ids qm lm p v ts a s with
      | Except.error e => Except.error e
      | Except.ok s1 => sweep_buy_ids qm lm p v ts b s1 := by
  induction a with
  | nil =>
    intro s
    rfl
  | cons oid rest ih =>
    intro s
    cases hl : lookupA s.orders oid with
    | none => simp only [List.cons_append, sweep_buy_ids, hl]
    | some o =>
      cases hc : check_if_buy_filled qm lm s o p v ts with
      | error e => simp only [List.cons_append, sweep_buy_ids, hl, hc]
      | ok r =>
        obtain ⟨s1, o1, rr⟩ := r
        simp only [List.cons_append, sweep_buy_ids, hl, hc]
        exact ih _

lemma sweep_buy_ticks_eq_ids {Q : Type} (qm : QueueModel Q)
    (lm : LatencyModel Q) (p : Int) (v : ℚ) (ts : Int)
    (idx : List (Int × List Int)) (span : List Int) :
    ∀ (s : ExchSt Q),
    sweep_buy_ticks qm lm p v ts idx span s =
      sweep_buy_ids qm lm p v ts (spanIds idx span) s := by
  induction span with
  | nil =>
    intro s
    rfl
  | cons t rest ih =>
    intro s
    show sweep_buy_ticks qm lm p v ts idx (t :: rest) s = _
    unfold sweep_buy_ticks
    rw [show spanIds idx (t :: rest) = idxGet idx t ++ spanIds idx rest from rfl,
      sweep_buy_ids_append]
    cases hl : lookupA idx t with
    | none =>
      simp only [idxGet, hl, Option.getD_none]
      show sweep_buy_ticks qm lm p v ts idx rest s = _
      rw [ih s]
      rfl
    | some ids =>
      simp only [idxGet, hl, Option.getD_some]
      cases sweep_buy_ids qm lm p v ts ids s with
      | error e => rfl
      | ok s1 => exact ih s1

lemma best_bid_ids_eq_map {Q : Type} (lm : LatencyModel Q) (nb ts : Int)
    (ids : List Int) :
    ∀ (s : ExchSt Q) (f : Int → Order Q),
    (∀ oid ∈ ids, lookupA s.orders oid = some (f oid)) →
    (∀ oid ∈ ids, (f oid).side = Side.Sell) →
    (∀ oid ∈ ids, (f oid).price_tick ≤ nb) →
    (∀ oid ∈ ids, (f oid).status = Status.New) →
    (∀ oid ∈ ids, (f oid).order_id = oid) →
    ids.Nodup →
    best_bid_ids lm ts ids s =
      best_bid_map lm nb ts (ids.map (fun i => (i, f i))) s := by
  induction ids with
  | nil =>
    intro s f _ _ _ _ _ _
    rfl
  | cons oid rest ih =>
    intro s f hlk hside htick hst hfoid hnd
    have hlk0 := hlk oid (List.mem_cons_self _ _)
    have hcond : (f oid).side = Side.Sell ∧ (f oid).price_tick ≤ nb :=
      ⟨hside oid (List.mem_cons_self _ _), htick oid (List.mem_cons_self _ _)⟩
    have hterm : ¬((f oid).status = Status.Expired ∨
        (f oid).status = Status.Canceled ∨ (f oid).status = Status.Filled) := by
      simp [hst oid (List.mem_cons_self _ _)]
    have hfid := hfoid oid (List.mem_cons_self _ _)
    obtain ⟨hnr, hndr⟩ := List.nodup_cons.mp hnd
    have hfill := fill_ok lm (pushFilled s oid) (f oid) ts true (f oid).price_tick hterm
    simp only [pushFilled] at hfill
    have hone : best_bid_ids lm ts (oid :: rest) s =
        best_bid_ids lm ts rest
          { s with
              filled_orders := s.filled_orders ++ [oid]
              state := apply_fill s.state (fillOrder (f oid) ts true (f oid).price_tick)
              orders_to := busAppend s.orders_to
                (fillOrder (f oid) ts true (f oid).price_tick)
                (ts + lm.response ts (fillOrder (f oid) ts true (f oid).price_tick))
              orders := insertA s.orders oid
                (fillOrder (f oid) ts true (f oid).price_tick) } := by
      simp only [best_bid_ids, pushFilled, hlk0, hfill]
    have hfill2 := fill_ok lm (pushFilled s (f oid).order_id) (f oid) ts true
      (f oid).price_tick hterm
    simp only [pushFilled, hfid] at hfill2
    have htwo : best_bid_map lm nb ts ((oid :: rest).map (fun i => (i, f i))) s =
        best_bid_map lm nb ts (rest.map (fun i => (i, f i)))
          { s with
              filled_orders := s.filled_orders ++ [oid]
              state := apply_fill s.state (fillOrder (f oid) ts true (f oid).price_tick)
              orders_to := busAppend s.orders_to
                (fillOrder (f oid) ts true (f oid).price_tick)
                (ts + lm.response ts (fillOrder (f oid) ts true (f oid).price_tick))
              orders := insertA s.orders oid
                (fillOrder (f oid) ts true (f oid).price_tick) } := by
      simp only [List.map_cons, best_bid_map, if_pos hcond, pushFilled, hfid, hfill2]
    rw [hone, htwo]
    apply ih
    · intro x hx
      have hne : x ≠ oid := fun hcon => hnr (hcon ▸ hx)
      show lookupA (insertA s.orders oid _) x = some (f x)
      rw [lookupA_insertA_ne _ _ _ _ hne]
      exact hlk x (List.mem_cons_of_mem _ hx)
    · exact fun x hx => hside x (List.mem_cons_of_mem _ hx)
    · exact fun x hx => htick x (List.mem_cons_of_mem _ hx)
    · exact fun x hx => hst x (List.mem_cons_of_mem _ hx)
    · exact fun x hx => hfoid x (List.mem_cons_of_mem _ hx)
    · exact hndr

lemma best_bid_ids_append {Q : Type} (lm : LatencyModel Q) (ts : Int)
    (a b : List Int) :
    ∀ (s : ExchSt Q),
    best_bid_ids lm ts (a ++ b) s =
      match best_bid_ids lm ts a s with
      | Except.error e => Except.error e
      | Except.ok s1 => best_bid_ids lm ts b s1 := by
  induction a with
  | nil =>
    intro s
    rfl
  | cons oid rest ih =>
    intro s
    cases hl : lookupA (pushFilled s oid).orders oid with
    | none => simp only [List.cons_append, best_bid_ids, hl]
    | some o =>
      cases hc : fill lm (pushFilled s oid) o ts true o.price_tick with
      | error e => simp only [List.cons_append, best_bid_ids, hl, hc]
      | ok r =>
        obtain ⟨s1, o1, rr⟩ := r
        simp only [List.cons_append, best_bid_ids, hl, hc]
        exact ih _

lemma best_bid_ticks_eq_ids {Q : Type} (lm : LatencyModel Q) (ts : Int)
    (idx : List (Int × List Int)) (span : List Int) :
    ∀ (s : ExchSt Q),
    best_bid_ticks lm ts idx span s =
      best_bid_ids lm ts (spanIds idx span) s := by
  induction span with
  | nil =>
    intro s
    rfl
  | cons t rest ih =>
    intro s
    unfold best_bid_ticks
    rw [show spanIds idx (t :: rest) = idxGet idx t ++ spanIds idx rest from rfl,
      best_bid_ids_append]
    cases hl : lookupA idx t with
    | none =>
      simp only [idxGet, hl, Option.getD_none]
      show best_bid_ticks lm ts idx rest s = _
      rw [ih s]
      rfl
    | some ids =>
      simp only [idxGet, hl, Option.getD_some]
      cases best_bid_ids lm ts ids s with
      | error e => rfl
      | ok s1 => exact ih s1

lemma best_ask_ids_eq_map {Q : Type} (lm : LatencyModel Q) (nb ts : Int)
    (ids : List Int) :
    ∀ (s : ExchSt Q) (f : Int → Order Q),
    (∀ oid ∈ ids, lookupA s.orders oid = some (f oid)) →
    (∀ oid ∈ ids, (f oid).side = Side.Buy) →
    (∀ oid ∈ ids, nb ≤ (f oid).price_tick) →
    (∀ oid ∈ ids, (f oid).status = Status.New) →
    (∀ oid ∈ ids, (f oid).order_id = oid) →
    ids.Nodup →
    best_ask_ids lm ts ids s =
      best_ask_map lm nb ts (ids.map (fun i => (i, f i))) s := by
  induction ids with
  | nil =>
    intro s f _ _ _ _ _ _
    rfl
  | cons oid rest ih =>
    intro s f hlk hside htick hst hfoid hnd
    have hlk0 := hlk oid (List.mem_cons_self _ _)
    have hcond : (f oid).side = Side.Buy ∧ nb ≤ (f oid).price_tick :=
      ⟨hside oid (List.mem_cons_self _ _), htick oid (List.mem_cons_self _ _)⟩
    have hterm : ¬((f oid).status = Status.Expired ∨
        (f oid).status = Status.Canceled ∨ (f oid).status = Status.Filled) := by
      simp [hst oid (List.mem_cons_self _ _)]
    have hfid := hfoid oid (List.mem_cons_self _ _)
    obtain ⟨hnr, hndr⟩ := List.nodup_cons.mp hnd
    have hfill := fill_ok lm (pushFilled s oid) (f oid) ts true (f oid).price_tick hterm
    simp only [pushFilled] at hfill
    have hone : best_ask_ids lm ts (oid :: rest) s =
        best_ask_ids lm ts rest
          { s with
              filled_orders := s.filled_orders ++ [oid]
              state := apply_fill s.state (fillOrder (f oid) ts true (f oid).price_tick)
              orders_to := busAppend s.orders_to
                (fillOrder (f oid) ts true (f oid).price_tick)
                (ts + lm.response ts (fillOrder (f oid) ts true (f oid).price_tick))
              orders := insertA s.orders oid
                (fillOrder (f oid) ts true (f oid).price_tick) } := by
      simp only [best_ask_ids, pushFilled, hlk0, hfill]
    have hfill2 := fill_ok lm (pushFilled s (f oid).order_id) (f oid) ts true
      (f oid).price_tick hterm
    simp only [pushFilled, hfid] at hfill2
    have htwo : best_ask_map lm nb ts ((oid :: rest).map (fun i => (i, f i))) s =
        best_ask_map lm nb ts (rest.map (fun i => (i, f i)))
          { s with
              filled_orders := s.filled_orders ++ [oid]
              state := apply_fill s.state (fillOrder (f oid) ts true (f oid).price_tick)
              orders_to := busAppend s.orders_to
                (fillOrder (f oid) ts true (f oid).price_tick)
                (ts + lm.response ts (fillOrder (f oid) ts true (f oid).price_tick))
              orders := insertA s.orders oid
                (fillOrder (f oid) ts true (f oid).price_tick) } := by
      simp only [List.map_cons, best_ask_map, if_pos hcond, pushFilled, hfid, hfill2]
    rw [hone, htwo]
    apply ih
    · intro x hx
      have hne : x ≠ oid := fun hcon => hnr (hcon ▸ hx)
      show lookupA (insertA s.orders oid _) x = some (f x)
      rw [lookupA_insertA_ne _ _ _ _ hne]
      exact hlk x (List.mem_cons_of_mem _ hx)
    · exact fun x hx => hside x (List.mem_cons_of_mem _ hx)
    · exact fun x hx => htick x (List.mem_cons_of_mem _ hx)
    · exact fun x hx => hst x (List.mem_cons_of_mem _ hx)
    · exact fun x hx => hfoid x (List.mem_cons_of_mem _ hx)
    · exact hndr

lemma best_ask_ids_append {Q : Type} (lm : LatencyModel Q) (ts : Int)
    (a b : List Int) :
    ∀ (s : ExchSt Q),
    best_ask_ids lm ts (a ++ b) s =
      match best_ask_ids lm ts a s with
      | Except.error e => Except.error e
      | Except.ok s1 => best_ask_ids lm ts b s1 := by
  induction a with
  | nil =>
    intro s
    rfl
  | cons oid rest ih =>
    intro s
    cases hl : lookupA (pushFilled s oid).orders oid with
    | none => simp only [List.cons_append, best_ask_ids, hl]
    | some o =>
      cases hc : fill lm (pushFilled s oid) o ts true o.price_tick with
      | error e => simp only [List.cons_append, best_ask_ids, hl, hc]
      | ok r =>
        obtain ⟨s1, o1, rr⟩ := r
        simp only [List.cons_append, best_ask_ids, hl, hc]
        exact ih _

lemma best_ask_ticks_eq_ids {Q : Type} (lm : LatencyModel Q) (ts : Int)
    (idx : List (Int × List Int)) (span : List Int) :
    ∀ (s : ExchSt Q),
    best_ask_ticks lm ts idx span s =
      best_ask_ids lm ts (spanIds idx span) s := by
  induction span with
  | nil =>
    intro s
    rfl
  | cons t rest ih =>
    intro s
    unfold best_ask_ticks
    rw [show spanIds idx (t :: rest) = idxGet idx t ++ spanIds idx rest from rfl,
      best_ask_ids_append]
    cases hl : lookupA idx t with
    | none =>
      simp only [idxGet, hl, Option.getD_none]
      show best_ask_ticks lm ts idx rest s = _
      rw [ih s]
      rfl
    | some ids =>
      simp only [idxGet, hl, Option.getD_some]
      cases best_ask_ids lm ts ids s with
      | error e => rfl
      | ok s1 => exact ih s1

lemma mem_spanIds {idx : List (Int × List Int)} {span : List Int} {oid : Int} :
    oid ∈ spanIds idx span ↔ ∃ t ∈ span, oid ∈ idxGet idx t := by
  induction span with
  | nil => simp [spanIds]
  | cons t rest ih =>
    simp only [spanIds, List.mem_append, ih]
    constructor
    · rintro (h | ⟨t', ht', hm⟩)
      · exact ⟨t, List.mem_cons_self _ _, h⟩
      · exact ⟨t', List.mem_cons_of_mem _ ht', hm⟩
    · rintro ⟨t', ht', hm⟩
      rcases List.mem_cons.mp ht' with h | h
      · exact Or.inl (h ▸ hm)
      · exact Or.inr ⟨t', h, hm⟩

lemma mem_tickRange {a b t : Int} : t ∈ tickRange a b ↔ a ≤ t ∧ t ≤ b := by
  constructor
  · intro h
    obtain ⟨n, hn, he⟩ := List.mem_map.mp h
    have hn' := List.mem_range.mp hn
    omega
  · rintro ⟨h1, h2⟩
    exact List.mem_map.mpr ⟨(t - a).toNat, List.mem_range.mpr (by omega), by omega⟩

lemma tickRange_nodup (a b : Int) : (tickRange a b).Nodup := by
  refine List.Nodup.map ?_ (List.nodup_range _)
  intro x y hxy
  simp only [add_right_inj, Nat.cast_inj] at hxy
  exact hxy

lemma spanIds_nodup {idx : List (Int × List Int)} {span : List Int}
    (g : Int → Int)
    (hg : ∀ t ∈ span, ∀ oid ∈ idxGet idx t, g oid = t)
    (hspan : span.Nodup)
    (htick : ∀ t ∈ span, (idxGet idx t).Nodup) :
    (spanIds idx span).Nodup := by
  induction span with
  | nil => simp [spanIds]
  | cons t rest ih =>
    obtain ⟨hnr, hndr⟩ := List.nodup_cons.mp hspan
    simp only [spanIds]
    refine List.Nodup.append (htick t (List.mem_cons_self _ _))
      (ih (fun x hx => hg x (List.mem_cons_of_mem _ hx)) hndr
        (fun x hx => htick x (List.mem_cons_of_mem _ hx))) ?_
    intro oid h1 h2
    obtain ⟨t', ht', hm'⟩ := mem_spanIds.mp h2
    have e1 : g oid = t := hg t (List.mem_cons_self _ _) oid h1
    have e2 : g oid = t' := hg t' (List.mem_cons_of_mem _ ht') oid hm'
    exact hnr (by rw [← e1.symm.trans e2] at ht'; exact ht')

lemma sellFilledFlag_le {Q : Type} {qm : QueueModel Q} {dep : Depth} {p : Int}
    {v : ℚ} {o : Order Q} (h : sellFilledFlag qm dep p v o = true) :
    o.price_tick ≤ p := by
  unfold sellFilledFlag at h
  by_cases h1 : o.price_tick < p
  · omega
  · by_cases h2 : o.price_tick = p
    · omega
    · simp [h1, h2] at h

lemma buyFilledFlag_ge {Q : Type} {qm : QueueModel Q} {dep : Depth} {p : Int}
    {v : ℚ} {o : Order Q} (h : buyFilledFlag qm dep p v o = true) :
    p ≤ o.price_tick := by
  unfold buyFilledFlag at h
  by_cases h1 : o.price_tick > p
  · omega
  · by_cases h2 : o.price_tick = p
    · omega
    · simp [h1, h2] at h

lemma idxGet_mem_entry {idx : List (Int × List Int)} {t oid : Int}
    (h : oid ∈ idxGet idx t) : ∃ ids, (t, ids) ∈ idx ∧ oid ∈ ids := by
  unfold idxGet at h
  cases hl : lookupA idx t with
  | none => simp [hl] at h
  | some ids =>
    rw [hl] at h
    exact ⟨ids, lookupA_mem hl, by simpa using h⟩

lemma equiv_buy_trade {Q : Type} [Inhabited Q] (qm : QueueModel Q)
    (lm : LatencyModel Q) (s : ExchSt Q) (p : Int) (v : ℚ) (ts : Int)
    (hwf : ordersWF s) (hsound : sellIdxSound s) (hcomp : sellIdxComplete s)
    (hidxnd : sellIdxNodup s) (hopen : sellsOpen s)
    (habove : sellsAbove s s.depth.best_bid_tick)
    (hfe : s.filled_orders = []) :
    ∃ sA sB, sweep_sell_map qm lm p v ts s.orders s = Except.ok sA ∧
      sweep_sell_ticks qm lm p v ts s.sell_orders
        (tickRange (s.depth.best_bid_tick + 1) p) s = Except.ok sB ∧
      sA.filled_orders.toFinset = sB.filled_orders.toFinset := by
  classical
  set b := s.depth.best_bid_tick with hb
  set span := tickRange (b + 1) p with hspan
  set f : Int → Order Q := fun i =>
    (lookupA s.orders i).getD
      (Order.new 0 0 0 0 Side.Sell OrdType.Limit TimeInForce.GTC) with hf
  have hkey : ∀ t oid, oid ∈ idxGet s.sell_orders t →
      lookupA s.orders oid = some (f oid) ∧ (f oid).side = Side.Sell ∧
      (f oid).price_tick = t ∧ (f oid).status = Status.New ∧
      (f oid).order_id = oid := by
    intro t oid hm
    obtain ⟨ids, hent, hmem⟩ := idxGet_mem_entry hm
    have hS := hsound (t, ids) hent oid hmem
    obtain ⟨o, hl, hg⟩ := Option.map_eq_some'.mp hS
    simp only [Prod.mk.injEq] at hg
    obtain ⟨h1, h2, h3, h4⟩ := hg
    have hfo : f oid = o := by rw [hf]; simp [hl]
    rw [hfo]
    exact ⟨hl, h1, h2, h3, h4⟩
  have htnodup : ∀ t ∈ span, (idxGet s.sell_orders t).Nodup := by
    intro t _
    unfold idxGet
    cases hl : lookupA s.sell_orders t with
    | none => simp
    | some ids =>
      simp only [Option.getD_some]
      exact hidxnd (t, ids) (lookupA_mem hl)
  have hall_nd : (spanIds s.sell_orders span).Nodup :=
    spanIds_nodup (fun oid => (f oid).price_tick)
      (fun t _ oid hm => (hkey t oid hm).2.2.1) (tickRange_nodup _ _) htnodup
  have hall : ∀ oid ∈ spanIds s.sell_orders span,
      lookupA s.orders oid = some (f oid) ∧ (f oid).side = Side.Sell ∧
      (f oid).status = Status.New ∧ (f oid).order_id = oid := by
    intro oid hm
    obtain ⟨t, _, hmt⟩ := mem_spanIds.mp hm
    obtain ⟨h1, h2, _, h4, h5⟩ := hkey t oid hmt
    exact ⟨h1, h2, h4, h5⟩
  have hB : sweep_sell_ticks qm lm p v ts s.sell_orders span s =
      sweep_sell_map qm lm p v ts
        ((spanIds s.sell_orders span).map (fun i => (i, f i))) s := by
    rw [sweep_sell_ticks_eq_ids]
    exact sweep_sell_ids_eq_map qm lm p v ts _ s f
      (fun oid hm => (hall oid hm).1) (fun oid hm => (hall oid hm).2.1)
      (fun oid hm => (hall oid hm).2.2.1) hall_nd
  obtain ⟨sA, hrunA, hfillA, _, _, _, _, _, _, _, _⟩ :=
    sweep_sell_map_spec qm lm p v ts s.orders s
      (fun ko hko => mem_lookupA hwf.1 (by simpa using hko))
      hwf.1 (fun ko hko => hwf.2 ko hko) (fun ko hko => hopen ko hko)
  have hkeysB : (((spanIds s.sell_orders span).map (fun i => (i, f i))).map
      Prod.fst).Nodup := by
    rw [List.map_map]
    have hidm : (Prod.fst ∘ fun i => (i, f i)) = fun (i : Int) => i := rfl
    rw [hidm, List.map_id']
    exact hall_nd
  obtain ⟨sB, hrunB, hfillB, _, _, _, _, _, _, _, _⟩ :=
    sweep_sell_map_spec qm lm p v ts
      ((spanIds s.sell_orders span).map (fun i => (i, f i))) s
      (fun ko hko => by
        obtain ⟨i, hi, rfl⟩ := List.mem_map.mp hko
        exact (hall i hi).1)
      hkeysB
      (fun ko hko => by
        obtain ⟨i, hi, rfl⟩ := List.mem_map.mp hko
        exact (hall i hi).2.2.2)
      (fun ko hko _ => by
        obtain ⟨i, hi, rfl⟩ := List.mem_map.mp hko
        exact (hall i hi).2.2.1)
  refine ⟨sA, sB, hrunA, hB ▸ hrunB, ?_⟩
  rw [hfillA, hfillB, hfe]
  simp only [List.nil_append]
  apply Finset.ext
  intro oid
  simp only [List.mem_toFinset, List.mem_map, List.mem_filter]
  constructor
  · rintro ⟨ko, ⟨hko, hflt⟩, rfl⟩
    simp only [Bool.and_eq_true, beq_iff_eq] at hflt
    obtain ⟨hside, hflag⟩ := hflt
    have hlk : lookupA s.orders ko.1 = some ko.2 := mem_lookupA hwf.1 (by simpa using hko)
    have hfko : f ko.1 = ko.2 := by rw [hf]; simp [hlk]
    have hle : ko.2.price_tick ≤ p := sellFilledFlag_le hflag
    have hgt : b < ko.2.price_tick := habove ko hko hside
    have hin_idx : ko.1 ∈ idxGet s.sell_orders ko.2.price_tick := hcomp ko hko hside
    have hin_span : ko.2.price_tick ∈ span := by
      rw [hspan, mem_tickRange]
      omega
    have hin_all : ko.1 ∈ spanIds s.sell_orders span :=
      mem_spanIds.mpr ⟨ko.2.price_tick, hin_span, hin_idx⟩
    refine ⟨(ko.1, f ko.1), ⟨⟨ko.1, hin_all, rfl⟩, ?_⟩, rfl⟩
    simp only [Bool.and_eq_true, beq_iff_eq]
    rw [hfko]
    exact ⟨hside, hflag⟩
  · rintro ⟨ko, ⟨hko, hflt⟩, rfl⟩
    obtain ⟨i, hi, rfl⟩ := hko
    simp only [Bool.and_eq_true, beq_iff_eq] at hflt
    obtain ⟨hside, hflag⟩ := hflt
    have hlk : lookupA s.orders i = some (f i) := (hall i hi).1
    refine ⟨(i, f i), ⟨lookupA_mem hlk, ?_⟩, rfl⟩
    simp only [Bool.and_eq_true, beq_iff_eq]
    exact ⟨hside, hflag⟩

lemma equiv_sell_trade {Q : Type} [Inhabited Q] (qm : QueueModel Q)
    (lm : LatencyModel Q) (s : ExchSt Q) (p : Int) (v : ℚ) (ts : Int)
    (hwf : ordersWF s) (hsound : buyIdxSound s) (hcomp : buyIdxComplete s)
    (hidxnd : buyIdxNodup s) (hopen : buysOpen s)
    (hbelow : buysBelow s s.depth.best_ask_tick)
    (hfe : s.filled_orders = []) :
    ∃ sA sB, sweep_buy_map qm lm p v ts s.orders s = Except.ok sA ∧
      sweep_buy_ticks qm lm p v ts s.buy_orders
        (tickRange p (s.depth.best_ask_tick - 1)).reverse s = Except.ok sB ∧
      sA.filled_orders.toFinset = sB.filled_orders.toFinset := by
  classical
  set a := s.depth.best_ask_tick with ha
  set span := (tickRange p (a - 1)).reverse with hspan
  set f : Int → Order Q := fun i =>
    (lookupA s.orders i).getD
      (Order.new 0 0 0 0 Side.Buy OrdType.Limit TimeInForce.GTC) with hf
  have hkey : ∀ t oid, oid ∈ idxGet s.buy_orders t →
      lookupA s.orders oid = some (f oid) ∧ (f oid).side = Side.Buy ∧
      (f oid).price_tick = t ∧ (f oid).status = Status.New ∧
      (f oid).order_id = oid := by
    intro t oid hm
    obtain ⟨ids, hent, hmem⟩ := idxGet_mem_entry hm
    have hS := hsound (t, ids) hent oid hmem
    obtain ⟨o, hl, hg⟩ := Option.map_eq_some'.mp hS
    simp only [Prod.mk.injEq] at hg
    obtain ⟨h1, h2, h3, h4⟩ := hg
    have hfo : f oid = o := by rw [hf]; simp [hl]
    rw [hfo]
    exact ⟨hl, h1, h2, h3, h4⟩
  have htnodup : ∀ t ∈ span, (idxGet s.buy_orders t).Nodup := by
    intro t _
    unfold idxGet
    cases hl : lookupA s.buy_orders t with
    | none => simp
    | some ids =>
      simp only [Option.getD_some]
      exact hidxnd (t, ids) (lookupA_mem hl)
  have hall_nd : (spanIds s.buy_orders span).Nodup :=
    spanIds_nodup (fun oid => (f oid).price_tick)
      (fun t _ oid hm => (hkey t oid hm).2.2.1)
      (by rw [hspan]; exact List.nodup_reverse.mpr (tickRange_nodup _ _)) htnodup
  have hall : ∀ oid ∈ spanIds s.buy_orders span,
      lookupA s.orders oid = some (f oid) ∧ (f oid).side = Side.Buy ∧
      (f oid).status = Status.New ∧ (f oid).order_id = oid := by
    intro oid hm
    obtain ⟨t, _, hmt⟩ := mem_spanIds.mp hm
    obtain ⟨h1, h2, _, h4, h5⟩ := hkey t oid hmt
    exact ⟨h1, h2, h4, h5⟩
  have hB : sweep_buy_ticks qm lm p v ts s.buy_orders span s =
      sweep_buy_map qm lm p v ts
        ((spanIds s.buy_orders span).map (fun i => (i, f i))) s := by
    rw [sweep_buy_ticks_eq_ids]
    exact sweep_buy_ids_eq_map qm lm p v ts _ s f
      (fun oid hm => (hall oid hm).1) (fun oid hm => (hall oid hm).2.1)
      (fun oid hm => (hall oid hm).2.2.1) hall_nd
  obtain ⟨sA, hrunA, hfillA, _, _, _, _, _, _, _, _⟩ :=
    sweep_buy_map_spec qm lm p v ts s.orders s
      (fun ko hko => mem_lookupA hwf.1 (by simpa using hko))
      hwf.1 (fun ko hko => hwf.2 ko hko) (fun ko hko => hopen ko hko)
  have hkeysB : (((spanIds s.buy_orders span).map (fun i => (i, f i))).map
      Prod.fst).Nodup := by
    rw [List.map_map]
    have hidm : (Prod.fst ∘ fun i => (i, f i)) = fun (i : Int) => i := rfl
    rw [hidm, List.map_id']
    exact hall_nd
  obtain ⟨sB, hrunB, hfillB, _, _, _, _, _, _, _, _⟩ :=
    sweep_buy_map_spec qm lm p v ts
      ((spanIds s.buy_orders span).map (fun i => (i, f i))) s
      (fun ko hko => by
        obtain ⟨i, hi, rfl⟩ := List.mem_map.mp hko
        exact (hall i hi).1)
      hkeysB
      (fun ko hko => by
        obtain ⟨i, hi, rfl⟩ := List.mem_map.mp hko
        exact (hall i hi).2.2.2)
      (fun ko hko _ => by
        obtain ⟨i, hi, rfl⟩ := List.mem_map.mp hko
        exact (hall i hi).2.2.1)
  refine ⟨sA, sB, hrunA, hB ▸ hrunB, ?_⟩
  rw [hfillA, hfillB, hfe]
  simp only [List.nil_append]
  apply Finset.ext
  intro oid
  simp only [List.mem_toFinset, List.mem_map, List.mem_filter]
  constructor
  · rintro ⟨ko, ⟨hko, hflt⟩, rfl⟩
    simp only [Bool.and_eq_true, beq_iff_eq] at hflt
    obtain ⟨hside, hflag⟩ := hflt
    have hlk : lookupA s.orders ko.1 = some ko.2 := mem_lookupA hwf.1 (by simpa using hko)
    have hfko : f ko.1 = ko.2 := by rw [hf]; simp [hlk]
    have hge : p ≤ ko.2.price_tick := buyFilledFlag_ge hflag
    have hlt : ko.2.price_tick < a := hbelow ko hko hside
    have hin_idx : ko.1 ∈ idxGet s.buy_orders ko.2.price_tick := hcomp ko hko hside
    have hin_span : ko.2.price_tick ∈ span := by
      rw [hspan, List.mem_reverse, mem_tickRange]
      omega
    have hin_all : ko.1 ∈ spanIds s.buy_orders span :=
      mem_spanIds.mpr ⟨ko.2.price_tick, hin_span, hin_idx⟩
    refine ⟨(ko.1, f ko.1), ⟨⟨ko.1, hin_all, rfl⟩, ?_⟩, rfl⟩
    simp only [Bool.and_eq_true, beq_iff_eq]
    rw [hfko]
    exact ⟨hside, hflag⟩
  · rintro ⟨ko, ⟨hko, hflt⟩, rfl⟩
    obtain ⟨i, hi, rfl⟩ := hko
    simp only [Bool.and_eq_true, beq_iff_eq] at hflt
    obtain ⟨hside, hflag⟩ := hflt
    have hlk : lookupA s.orders i = some (f i) := (hall i hi).1
    refine ⟨(i, f i), ⟨lookupA_mem hlk, ?_⟩, rfl⟩
    simp only [Bool.and_eq_true, beq_iff_eq]
    exact ⟨hside, hflag⟩

lemma equiv_best_bid {Q : Type} [Inhabited Q] (lm : LatencyModel Q)
    (s : ExchSt Q) (prev nb ts : Int)
    (hwf : ordersWF s) (hsound : sellIdxSound s) (hcomp : sellIdxComplete s)
    (hidxnd : sellIdxNodup s) (hopen : sellsOpen s)
    (habove : sellsAbove s prev)
    (hfe : s.filled_orders = []) :
    ∃ sA sB, best_bid_map lm nb ts s.orders s = Except.ok sA ∧
      best_bid_ticks lm ts s.sell_orders (tickRange (prev + 1) nb) s =
        Except.ok sB ∧
      sA.filled_orders.toFinset = sB.filled_orders.toFinset := by
  classical
  set span := tickRange (prev + 1) nb with hspan
  set f : Int → Order Q := fun i =>
    (lookupA s.orders i).getD
      (Order.new 0 0 0 0 Side.Sell OrdType.Limit TimeInForce.GTC) with hf
  have hkey : ∀ t oid, oid ∈ idxGet s.sell_orders t →
      lookupA s.orders oid = some (f oid) ∧ (f oid).side = Side.Sell ∧
      (f oid).price_tick = t ∧ (f oid).status = Status.New ∧
      (f oid).order_id = oid := by
    intro t oid hm
    obtain ⟨ids, hent, hmem⟩ := idxGet_mem_entry hm
    have hS := hsound (t, ids) hent oid hmem
    obtain ⟨o, hl, hg⟩ := Option.map_eq_some'.mp hS
    simp only [Prod.mk.injEq] at hg
    obtain ⟨h1, h2, h3, h4⟩ := hg
    have hfo : f oid = o := by rw [hf]; simp [hl]
    rw [hfo]
    exact ⟨hl, h1, h2, h3, h4⟩
  have htnodup : ∀ t ∈ span, (idxGet s.sell_orders t).Nodup := by
    intro t _
    unfold idxGet
    cases hl : lookupA s.sell_orders t with
    | none => simp
    | some ids =>
      simp only [Option.getD_some]
      exact hidxnd (t, ids) (lookupA_mem hl)
  have hall_nd : (spanIds s.sell_orders span).Nodup :=
    spanIds_nodup (fun oid => (f oid).price_tick)
      (fun t _ oid hm => (hkey t oid hm).2.2.1) (tickRange_nodup _ _) htnodup
  have hall : ∀ oid ∈ spanIds s.sell_orders span,
      lookupA s.orders oid = some (f oid) ∧ (f oid).side = Side.Sell ∧
      (f oid).price_tick ≤ nb ∧ (f oid).status = Status.New ∧
      (f oid).order_id = oid := by
    intro oid hm
    obtain ⟨t, hts, hmt⟩ := mem_spanIds.mp hm
    obtain ⟨h1, h2, h3, h4, h5⟩ := hkey t oid hmt
    have hb2 : t ≤ nb := (mem_tickRange.mp (hspan ▸ hts)).2
    exact ⟨h1, h2, by omega, h4, h5⟩
  have hB : best_bid_ticks lm ts s.sell_orders span s =
      best_bid_map lm nb ts
        ((spanIds s.sell_orders span).map (fun i => (i, f i))) s := by
    rw [best_bid_ticks_eq_ids]
    exact best_bid_ids_eq_map lm nb ts _ s f
      (fun oid hm => (hall oid hm).1) (fun oid hm => (hall oid hm).2.1)
      (fun oid hm => (hall oid hm).2.2.1) (fun oid hm => (hall oid hm).2.2.2.1)
      (fun oid hm => (hall oid hm).2.2.2.2) hall_nd
  obtain ⟨sA, hrunA, hfillA, _, _, _, _, _, _, _, _⟩ :=
    best_bid_map_spec lm nb ts s.orders s
      (fun ko hko => mem_lookupA hwf.1 (by simpa using hko))
      hwf.1 (fun ko hko => hwf.2 ko hko) (fun ko hko => hopen ko hko)
  have hkeysB : (((spanIds s.sell_orders span).map (fun i => (i, f i))).map
      Prod.fst).Nodup := by
    rw [List.map_map]
    have hidm : (Prod.fst ∘ fun i => (i, f i)) = fun (i : Int) => i := rfl
    rw [hidm, List.map_id']
    exact hall_nd
  obtain ⟨sB, hrunB, hfillB, _, _, _, _, _, _, _, _⟩ :=
    best_bid_map_spec lm nb ts
      ((spanIds s.sell_orders span).map (fun i => (i, f i))) s
      (fun ko hko => by
        obtain ⟨i, hi, rfl⟩ := List.mem_map.mp hko
        exact (hall i hi).1)
      hkeysB
      (fun ko hko => by
        obtain ⟨i, hi, rfl⟩ := List.mem_map.mp hko
        exact (hall i hi).2.2.2.2)
      (fun ko hko _ => by
        obtain ⟨i, hi, rfl⟩ := List.mem_map.mp hko
        exact (hall i hi).2.2.2.1)
  refine ⟨sA, sB, hrunA, hB ▸ hrunB, ?_⟩
  rw [hfillA, hfillB, hfe]
  simp only [List.nil_append]
  apply Finset.ext
  intro oid
  simp only [List.mem_toFinset, List.mem_map, List.mem_filter]
  constructor
  · rintro ⟨ko, ⟨hko, hflt⟩, rfl⟩
    simp only [Bool.and_eq_true, beq_iff_eq] at hflt
    obtain ⟨hside, hflag⟩ := hflt
    have hlk : lookupA s.orders ko.1 = some ko.2 := mem_lookupA hwf.1 (by simpa using hko)
    have hfko : f ko.1 = ko.2 := by rw [hf]; simp [hlk]
    have hle : ko.2.price_tick ≤ nb := by
      have := hflag
      unfold bestSellFlag at this
      exact of_decide_eq_true this
    have hgt : prev < ko.2.price_tick := habove ko hko hside
    have hin_idx : ko.1 ∈ idxGet s.sell_orders ko.2.price_tick := hcomp ko hko hside
    have hin_span : ko.2.price_tick ∈ span := by
      rw [hspan, mem_tickRange]
      omega
    have hin_all : ko.1 ∈ spanIds s.sell_orders span :=
      mem_spanIds.mpr ⟨ko.2.price_tick, hin_span, hin_idx⟩
    refine ⟨(ko.1, f ko.1), ⟨⟨ko.1, hin_all, rfl⟩, ?_⟩, rfl⟩
    simp only [Bool.and_eq_true, beq_iff_eq]
    rw [hfko]
    exact ⟨hside, hflag⟩
  · rintro ⟨ko, ⟨hko, hflt⟩, rfl⟩
    obtain ⟨i, hi, rfl⟩ := hko
    simp only [Bool.and_eq_true, beq_iff_eq] at hflt
    obtain ⟨hside, hflag⟩ := hflt
    have hlk : lookupA s.orders i = some (f i) := (hall i hi).1
    refine ⟨(i, f i), ⟨lookupA_mem hlk, ?_⟩, rfl⟩
    simp only [Bool.and_eq_true, beq_iff_eq]
    exact ⟨hside, hflag⟩

lemma equiv_best_ask {Q : Type} [Inhabited Q] (lm : LatencyModel Q)
    (s : ExchSt Q) (prev nb ts : Int)
    (hwf : ordersWF s) (hsound : buyIdxSound s) (hcomp : buyIdxComplete s)
    (hidxnd : buyIdxNodup s) (hopen : buysOpen s)
    (hbelow : buysBelow s prev)
    (hfe : s.filled_orders = []) :
    ∃ sA sB, best_ask_map lm nb ts s.orders s = Except.ok sA ∧
      best_ask_ticks lm ts s.buy_orders (tickRange nb (prev - 1)) s =
        Except.ok sB ∧
      sA.filled_orders.toFinset = sB.filled_orders.toFinset := by
  classical
  set span := tickRange nb (prev - 1) with hspan
  set f : Int → Order Q := fun i =>
    (lookupA s.orders i).getD
      (Order.new 0 0 0 0 Side.Buy OrdType.Limit TimeInForce.GTC) with hf
  have hkey : ∀ t oid, oid ∈ idxGet s.buy_orders t →
      lookupA s.orders oid = some (f oid) ∧ (f oid).side = Side.Buy ∧
      (f oid).price_tick = t ∧ (f oid).status = Status.New ∧
      (f oid).order_id = oid := by
    intro t oid hm
    obtain ⟨ids, hent, hmem⟩ := idxGet_mem_entry hm
    have hS := hsound (t, ids) hent oid hmem
    obtain ⟨o, hl, hg⟩ := Option.map_eq_some'.mp hS
    simp only [Prod.mk.injEq] at hg
    obtain ⟨h1, h2, h3, h4⟩ := hg
    have hfo : f oid = o := by rw [hf]; simp [hl]
    rw [hfo]
    exact ⟨hl, h1, h2, h3, h4⟩
  have htnodup : ∀ t ∈ span, (idxGet s.buy_orders t).Nodup := by
    intro t _
    unfold idxGet
    cases hl : lookupA s.buy_orders t with
    | none => simp
    | some ids =>
      simp only [Option.getD_some]
      exact hidxnd (t, ids) (lookupA_mem hl)
  have hall_nd : (spanIds s.buy_orders span).Nodup :=
    spanIds_nodup (fun oid => (f oid).price_tick)
      (fun t _ oid hm => (hkey t oid hm).2.2.1) (tickRange_nodup _ _) htnodup
  have hall : ∀ oid ∈ spanIds s.buy_orders span,
      lookupA s.orders oid = some (f oid) ∧ (f oid).side = Side.Buy ∧
      nb ≤ (f oid).price_tick ∧ (f oid).status = Status.New ∧
      (f oid).order_id = oid := by
    intro oid hm
    obtain ⟨t, hts, hmt⟩ := mem_spanIds.mp hm
    obtain ⟨h1, h2, h3, h4, h5⟩ := hkey t oid hmt
    have hb2 : nb ≤ t := (mem_tickRange.mp (hspan ▸ hts)).1
    exact ⟨h1, h2, by omega, h4, h5⟩
  have hB : best_ask_ticks lm ts s.buy_orders span s =
      best_ask_map lm nb ts
        ((spanIds s.buy_orders span).map (fun i => (i, f i))) s := by
    rw [best_ask_ticks_eq_ids]
    exact best_ask_ids_eq_map lm nb ts _ s f
      (fun oid hm => (hall oid hm).1) (fun oid hm => (hall oid hm).2.1)
      (fun oid hm => (hall oid hm).2.2.1) (fun oid hm => (hall oid hm).2.2.2.1)
      (fun oid hm => (hall oid hm).2.2.2.2) hall_nd
  obtain ⟨sA, hrunA, hfillA, _, _, _, _, _, _, _, _⟩ :=
    best_ask_map_spec lm nb ts s.orders s
      (fun ko hko => mem_lookupA hwf.1 (by simpa using hko))
      hwf.1 (fun ko hko => hwf.2 ko hko) (fun ko hko => hopen ko hko)
  have hkeysB : (((spanIds s.buy_orders span).map (fun i => (i, f i))).map
      Prod.fst).Nodup := by
    rw [List.map_map]
    have hidm : (Prod.fst ∘ fun i => (i, f i)) = fun (i : Int) => i := rfl
    rw [hidm, List.map_id']
    exact hall_nd
  obtain ⟨sB, hrunB, hfillB, _, _, _, _, _, _, _, _⟩ :=
    best_ask_map_spec lm nb ts
      ((spanIds s.buy_orders span).map (fun i => (i, f i))) s
      (fun ko hko => by
        obtain ⟨i, hi, rfl⟩ := List.mem_map.mp hko
        exact (hall i hi).1)
      hkeysB
      (fun ko hko => by
        obtain ⟨i, hi, rfl⟩ := List.mem_map.mp hko
        exact (hall i hi).2.2.2.2)
      (fun ko hko _ => by
        obtain ⟨i, hi, rfl⟩ := List.mem_map.mp hko
        exact (hall i hi).2.2.2.1)
  refine ⟨sA, sB, hrunA, hB ▸ hrunB, ?_⟩
  rw [hfillA, hfillB, hfe]
  simp only [List.nil_append]
  apply Finset.ext
  intro oid
  simp only [List.mem_toFinset, List.mem_map, List.mem_filter]
  constructor
  · rintro ⟨ko, ⟨hko, hflt⟩, rfl⟩
    simp only [Bool.and_eq_true, beq_iff_eq] at hflt
    obtain ⟨hside, hflag⟩ := hflt
    have hlk : lookupA s.orders ko.1 = some ko.2 := mem_lookupA hwf.1 (by simpa using hko)
    have hfko : f ko.1 = ko.2 := by rw [hf]; simp [hlk]
    have hle : nb ≤ ko.2.price_tick := by
      have := hflag
      unfold bestBuyFlag at this
      exact of_decide_eq_true this
    have hgt : ko.2.price_tick < prev := hbelow ko hko hside
    have hin_idx : ko.1 ∈ idxGet s.buy_orders ko.2.price_tick := hcomp ko hko hside
    have hin_span : ko.2.price_tick ∈ span := by
      rw [hspan, mem_tickRange]
      omega
    have hin_all : ko.1 ∈ spanIds s.buy_orders span :=
      mem_spanIds.mpr ⟨ko.2.price_tick, hin_span, hin_idx⟩
    refine ⟨(ko.1, f ko.1), ⟨⟨ko.1, hin_all, rfl⟩, ?_⟩, rfl⟩
    simp only [Bool.and_eq_true, beq_iff_eq]
    rw [hfko]
    exact ⟨hside, hflag⟩
  · rintro ⟨ko, ⟨hko, hflt⟩, rfl⟩
    obtain ⟨i, hi, rfl⟩ := hko
    simp only [Bool.and_eq_true, beq_iff_eq] at hflt
    obtain ⟨hside, hflag⟩ := hflt
    have hlk : lookupA s.orders i = some (f i) := (hall i hi).1
    refine ⟨(i, f i), ⟨lookupA_mem hlk, ?_⟩, rfl⟩
    simp only [Bool.and_eq_true, beq_iff_eq]
    exact ⟨hside, hflag⟩

/-- C4: branch equivalence of the sweep optimisation.  For each of the four
sweep sites — buy-trade, sell-trade, best-bid improvement, best-ask
improvement — the two iteration strategies the cardinality heuristic (or a
sentinel-valued previous best) chooses between, namely walking the whole
resting-order map versus walking the swept tick span through the per-tick
index, produce exactly the same set of filled order ids.  The hypotheses
characterize every reachable exchange state: the map is well keyed, the
per-tick index is sound and complete for it, resting orders are open
(`New`), no resting sell sits at or below the relevant best bid and no
resting buy at or above the relevant best ask (`ack_new`/the walks
themselves enforce this), and the filled-order scratch list is empty
between events. -/
theorem sweep_strategy_equivalence {Q : Type} [Inhabited Q]
    (qm : QueueModel Q) (lm : LatencyModel Q) (s : ExchSt Q) (p : Int)
    (v : ℚ) (ts prevb nb preva na : Int) :
    (ordersWF s → sellIdxSound s → sellIdxComplete s → sellIdxNodup s →
      sellsOpen s → sellsAbove s s.depth.best_bid_tick → s.filled_orders = [] →
      ∃ sA sB, sweep_sell_map qm lm p v ts s.orders s = Except.ok sA ∧
        sweep_sell_ticks qm lm p v ts s.sell_orders
          (tickRange (s.depth.best_bid_tick + 1) p) s = Except.ok sB ∧
        sA.filled_orders.toFinset = sB.filled_orders.toFinset) ∧
    (ordersWF s → buyIdxSound s → buyIdxComplete s → buyIdxNodup s →
      buysOpen s → buysBelow s s.depth.best_ask_tick → s.filled_orders = [] →
      ∃ sA sB, sweep_buy_map qm lm p v ts s.orders s = Except.ok sA ∧
        sweep_buy_ticks qm lm p v ts s.buy_orders
          (tickRange p (s.depth.best_ask_tick - 1)).reverse s = Except.ok sB ∧
        sA.filled_orders.toFinset = sB.filled_orders.toFinset) ∧
    (ordersWF s → sellIdxSound s → sellIdxComplete s → sellIdxNodup s →
      sellsOpen s → sellsAbove s prevb → s.filled_orders = [] →
      ∃ sA sB, best_bid_map lm nb ts s.orders s = Except.ok sA ∧
        best_bid_ticks lm ts s.sell_orders (tickRange (prevb + 1) nb) s =
          Except.ok sB ∧
        sA.filled_orders.toFinset = sB.filled_orders.toFinset) ∧
    (ordersWF s → buyIdxSound s → buyIdxComplete s → buyIdxNodup s →
      buysOpen s → buysBelow s preva → s.filled_orders = [] →
      ∃ sA sB, best_ask_map lm na ts s.orders s = Except.ok sA ∧
        best_ask_ticks lm ts s.buy_orders (tickRange na (preva - 1)) s =
          Except.ok sB ∧
        sA.filled_orders.toFinset = sB.filled_orders.toFinset) :=
  ⟨fun h1 h2 h3 h4 h5 h6 h7 => equiv_buy_trade qm lm s p v ts h1 h2 h3 h4 h5 h6 h7,
   fun h1 h2 h3 h4 h5 h6 h7 => equiv_sell_trade qm lm s p v ts h1 h2 h3 h4 h5 h6 h7,
   fun h1 h2 h3 h4 h5 h6 h7 => equiv_best_bid lm s prevb nb ts h1 h2 h3 h4 h5 h6 h7,
   fun h1 h2 h3 h4 h5 h6 h7 => equiv_best_ask lm s preva na ts h1 h2 h3 h4 h5 h6 h7⟩

/-- Witness for C4 at the concrete state `ex0` (sells resting at 1001 and
1002, buy at 1000): a buy trade at tick 1002 and a best-bid improvement
from 1000 to 1001 produce the same fill sets along both strategies. -/
theorem sweep_strategy_equivalence_witness :
    (∃ sA sB, sweep_sell_map qmU lmC 1002 10 20 ex0.orders ex0 = Except.ok sA ∧
      sweep_sell_ticks qmU lmC 1002 10 20 ex0.sell_orders
        (tickRange (ex0.depth.best_bid_tick + 1) 1002) ex0 = Except.ok sB ∧
      sA.filled_orders.toFinset = sB.filled_orders.toFinset) ∧
    (∃ sA sB, best_bid_map lmC 1001 20 ex0.orders ex0 = Except.ok sA ∧
      best_bid_ticks lmC 20 ex0.sell_orders (tickRange (1000 + 1) 1001) ex0 =
        Except.ok sB ∧
      sA.filled_orders.toFinset = sB.filled_orders.toFinset) := by
  constructor
  · exact (sweep_strategy_equivalence qmU lmC ex0 1002 10 20 1000 1001 1001
      1000).1 (by unfold ordersWF; decide) (by unfold sellIdxSound; decide)
      (by unfold sellIdxComplete; decide) (by unfold sellIdxNodup; decide)
      (by unfold sellsOpen; decide) (by unfold sellsAbove; decide) rfl
  · exact (sweep_strategy_equivalence qmU lmC ex0 1002 10 20 1000 1001 1001
      1000).2.2.1 (by unfold ordersWF; decide) (by unfold sellIdxSound; decide)
      (by unfold sellIdxComplete; decide) (by unfold sellIdxNodup; decide)
      (by unfold sellsOpen; decide) (by unfold sellsAbove; decide) rfl

lemma insertA_map_fst_of_mem {α : Type} :
    ∀ (l : List (Int × α)) (k : Int) (a : α), k ∈ l.map Prod.fst →
    (insertA l k a).map Prod.fst = l.map Prod.fst := by
  intro l
  induction l with
  | nil =>
    intro k a h
    simp at h
  | cons hd t ih =>
    intro k a h
    obtain ⟨k0, a0⟩ := hd
    by_cases hk : k = k0
    · subst hk
      simp [insertA]
    · have hm : k ∈ t.map Prod.fst := by
        rw [List.map_cons, List.mem_cons] at h
        rcases h with h0 | h0
        · exact absurd h0 hk
        · exact h0
      simp [insertA, hk, ih k a hm]

lemma eraseA_map_fst_sublist {α : Type} :
    ∀ (l : List (Int × α)) (k : Int),
    ((eraseA l k).map Prod.fst).Sublist (l.map Prod.fst) := by
  intro l
  induction l with
  | nil =>
    intro k
    simp [eraseA]
  | cons hd t ih =>
    intro k
    obtain ⟨k0, a0⟩ := hd
    by_cases hk : k = k0
    · simp only [eraseA, if_pos hk, List.map_cons]
      exact (List.Sublist.refl _).cons _
    · simp only [eraseA, if_neg hk, List.map_cons]
      exact (ih k).cons₂ _

lemma examSell_side_tick {Q : Type} (qm : QueueModel Q) (dep : Depth)
    (p : Int) (v : ℚ) (ts : Int) (o : Order Q) :
    (examSell qm dep p v ts o).side = o.side ∧
    (examSell qm dep p v ts o).price_tick = o.price_tick := by
  simp only [examSell, fillOrder]
  split_ifs <;> simp

lemma examBuy_side_tick {Q : Type} (qm : QueueModel Q) (dep : Depth)
    (p : Int) (v : ℚ) (ts : Int) (o : Order Q) :
    (examBuy qm dep p v ts o).side = o.side ∧
    (examBuy qm dep p v ts o).price_tick = o.price_tick := by
  simp only [examBuy, fillOrder]
  split_ifs <;> simp

lemma examSell_filled_fields {Q : Type} {qm : QueueModel Q} {dep : Depth}
    {p : Int} {v : ℚ} {o : Order Q} (ts : Int)
    (h : sellFilledFlag qm dep p v o = true) :
    (examSell qm dep p v ts o).status = Status.Filled ∧
    (examSell qm dep p v ts o).maker = true ∧
    (examSell qm dep p v ts o).exec_price_tick = o.price_tick ∧
    (examSell qm dep p v ts o).exec_qty = o.leaves_qty := by
  simp only [sellFilledFlag] at h
  simp only [examSell, fillOrder]
  split_ifs at h ⊢ <;> simp_all

lemma examBuy_filled_fields {Q : Type} {qm : QueueModel Q} {dep : Depth}
    {p : Int} {v : ℚ} {o : Order Q} (ts : Int)
    (h : buyFilledFlag qm dep p v o = true) :
    (examBuy qm dep p v ts o).status = Status.Filled ∧
    (examBuy qm dep p v ts o).maker = true ∧
    (examBuy qm dep p v ts o).exec_price_tick = o.price_tick ∧
    (examBuy qm dep p v ts o).exec_qty = o.leaves_qty := by
  simp only [buyFilledFlag] at h
  simp only [examBuy, fillOrder]
  split_ifs at h ⊢ <;> simp_all

lemma examSell_gt {Q : Type} (qm : QueueModel Q) (dep : Depth) {p : Int}
    (v : ℚ) (ts : Int) {o : Order Q} (h : p < o.price_tick) :
    examSell qm dep p v ts o = o := by
  simp only [examSell]
  rw [if_neg (by omega), if_neg (by omega)]

lemma examBuy_lt {Q : Type} (qm : QueueModel Q) (dep : Depth) {p : Int}
    (v : ℚ) (ts : Int) {o : Order Q} (h : o.price_tick < p) :
    examBuy qm dep p v ts o = o := by
  simp only [examBuy]
  rw [if_neg (by omega), if_neg (by omega)]

lemma idxRemove_shrink {idx idx' : List (Int × List Int)} {t oid : Int}
    (h : idxRemove idx t oid = Except.ok idx') :
    ∀ t' oid', oid' ∈ idxGet idx' t' → oid' ∈ idxGet idx t' := by
  unfold idxRemove at h
  cases hl : lookupA idx t with
  | none => simp [hl] at h
  | some ids =>
    simp [hl] at h
    subst h
    intro t' oid' hm
    by_cases ht : t' = t
    · subst ht
      simp only [idxGet, lookupA_insertA_self, Option.getD_some] at hm
      simp only [idxGet, hl, Option.getD_some]
      exact (List.mem_filter.mp hm).1
    · rwa [idxGet, lookupA_insertA_ne _ _ _ _ ht] at hm

lemma idxRemove_isSome {idx idx' : List (Int × List Int)} {t oid : Int}
    (h : idxRemove idx t oid = Except.ok idx') (t' : Int)
    (hs : (lookupA idx t').isSome) : (lookupA idx' t').isSome := by
  unfold idxRemove at h
  cases hl : lookupA idx t with
  | none => simp [hl] at h
  | some ids =>
    simp [hl] at h
    subst h
    by_cases ht : t' = t
    · subst ht
      simp [lookupA_insertA_self]
    · rwa [lookupA_insertA_ne _ _ _ _ ht]

lemma sweep_sell_map_keys {Q : Type} (qm : QueueModel Q) (lm : LatencyModel Q)
    (p : Int) (v : ℚ) (ts : Int) :
    ∀ (l : List (Int × Order Q)) (s s' : ExchSt Q),
    (∀ ko ∈ l, ko.1 ∈ s.orders.map Prod.fst) →
    (∀ ko ∈ l, ko.2.side = Side.Sell → ko.2.status = Status.New) →
    sweep_sell_map qm lm p v ts l s = Except.ok s' →
    s'.orders.map Prod.fst = s.orders.map Prod.fst := by
  intro l
  induction l with
  | nil =>
    intro s s' _ _ hrun
    cases hrun
    rfl
  | cons ko rest ih =>
    intro s s' hmem hopen hrun
    obtain ⟨k, o⟩ := ko
    have hkmem : k ∈ s.orders.map Prod.fst := hmem (k, o) (List.mem_cons_self _ _)
    by_cases hside : o.side = Side.Sell
    · have hst := hopen (k, o) (List.mem_cons_self _ _) hside
      by_cases hflag : sellFilledFlag qm s.depth p v o
      · simp only [sweep_sell_map, if_pos hside,
          check_sell_eq qm lm s o p v ts hst, if_pos hflag] at hrun
        have := ih _ s'
          (fun x hx => by
            rw [insertA_map_fst_of_mem _ _ _ hkmem]
            exact hmem x (List.mem_cons_of_mem _ hx))
          (fun x hx => hopen x (List.mem_cons_of_mem _ hx)) hrun
        rwa [insertA_map_fst_of_mem _ _ _ hkmem] at this
      · simp only [sweep_sell_map, if_pos hside,
          check_sell_eq qm lm s o p v ts hst, if_neg hflag] at hrun
        have := ih _ s'
          (fun x hx => by
            rw [insertA_map_fst_of_mem _ _ _ hkmem]
            exact hmem x (List.mem_cons_of_mem _ hx))
          (fun x hx => hopen x (List.mem_cons_of_mem _ hx)) hrun
        rwa [insertA_map_fst_of_mem _ _ _ hkmem] at this
    · simp only [sweep_sell_map, if_neg hside] at hrun
      exact ih _ s' (fun x hx => hmem x (List.mem_cons_of_mem _ hx))
        (fun x hx => hopen x (List.mem_cons_of_mem _ hx)) hrun

lemma sweep_buy_map_keys {Q : Type} (qm : QueueModel Q) (lm : LatencyModel Q)
    (p : Int) (v : ℚ) (ts : Int) :
    ∀ (l : List (Int × Order Q)) (s s' : ExchSt Q),
    (∀ ko ∈ l, ko.1 ∈ s.orders.map Prod.fst) →
    (∀ ko ∈ l, ko.2.side = Side.Buy → ko.2.status = Status.New) →
    sweep_buy_map qm lm p v ts l s = Except.ok s' →
    s'.orders.map Prod.fst = s.orders.map Prod.fst := by
  intro l
  induction l with
  | nil =>
    intro s s' _ _ hrun
    cases hrun
    rfl
  | cons ko rest ih =>
    intro s s' hmem hopen hrun
    obtain ⟨k, o⟩ := ko
    have hkmem : k ∈ s.orders.map Prod.fst := hmem (k, o) (List.mem_cons_self _ _)
    by_cases hside : o.side = Side.Buy
    · have hst := hopen (k, o) (List.mem_cons_self _ _) hside
      by_cases hflag : buyFilledFlag qm s.depth p v o
      · simp only [sweep_buy_map, if_pos hside,
          check_buy_eq qm lm s o p v ts hst, if_pos hflag] at hrun
        have := ih _ s'
          (fun x hx => by
            rw [insertA_map_fst_of_mem _ _ _ hkmem]
            exact hmem x (List.mem_cons_of_mem _ hx))
          (fun x hx => hopen x (List.mem_cons_of_mem _ hx)) hrun
        rwa [insertA_map_fst_of_mem _ _ _ hkmem] at this
      · simp only [sweep_buy_map, if_pos hside,
          check_buy_eq qm lm s o p v ts hst, if_neg hflag] at hrun
        have := ih _ s'
          (fun x hx => by
            rw [insertA_map_fst_of_mem _ _ _ hkmem]
            exact hmem x (List.mem_cons_of_mem _ hx))
          (fun x hx => hopen x (List.mem_cons_of_mem _ hx)) hrun
        rwa [insertA_map_fst_of_mem _ _ _ hkmem] at this
    · simp only [sweep_buy_map, if_neg hside] at hrun
      exact ih _ s' (fun x hx => hmem x (List.mem_cons_of_mem _ hx))
        (fun x hx => hopen x (List.mem_cons_of_mem _ hx)) hrun

lemma remove_filled_go_spec {Q : Type} :
    ∀ (fl : List Int) (s : ExchSt Q),
    fl.Nodup →
    (s.orders.map Prod.fst).Nodup →
    (∀ oid ∈ fl, ∃ o, lookupA s.orders oid = some o ∧
      (o.side = Side.Buy → (lookupA s.buy_orders o.price_tick).isSome = true) ∧
      (¬o.side = Side.Buy → (lookupA s.sell_orders o.price_tick).isSome = true)) →
    ∃ s', remove_filled_go fl s = Except.ok s' ∧
      (∀ oid ∈ fl, lookupA s'.orders oid = none) ∧
      (∀ oid, oid ∉ fl → lookupA s'.orders oid = lookupA s.orders oid) ∧
      (∀ t oid, oid ∈ idxGet s'.buy_orders t → oid ∈ idxGet s.buy_orders t) ∧
      (∀ t oid, oid ∈ idxGet s'.sell_orders t → oid ∈ idxGet s.sell_orders t) ∧
      (∀ oid ∈ fl, ∀ o, lookupA s.orders oid = some o →
        (o.side = Side.Buy → oid ∉ idxGet s'.buy_orders o.price_tick) ∧
        (¬o.side = Side.Buy → oid ∉ idxGet s'.sell_orders o.price_tick)) ∧
      s'.orders_to = s.orders_to ∧ s'.depth = s.depth ∧ s'.state = s.state ∧
      s'.filled_orders = s.filled_orders := by
  intro fl
  induction fl with
  | nil =>
    intro s _ _ _
    exact ⟨s, rfl, by simp, fun _ _ => rfl, fun _ _ h => h, fun _ _ h => h,
      by simp, rfl, rfl, rfl, rfl⟩
  | cons oid fl' ih =>
    intro s hnd hknd hpre
    obtain ⟨hnotin, hnd'⟩ := List.nodup_cons.mp hnd
    obtain ⟨o, hlk, hbuy, hsell⟩ := hpre oid (List.mem_cons_self _ _)
    by_cases hside : o.side = Side.Buy
    · obtain ⟨ids, hids⟩ := Option.isSome_iff_exists.mp (hbuy hside)
      have hrem : idxRemove s.buy_orders o.price_tick oid =
          Except.ok (insertA s.buy_orders o.price_tick
            (ids.filter (fun i => i ≠ oid))) := by
        unfold idxRemove
        rw [hids]
      set s2 : ExchSt Q :=
        { s with
            orders := eraseA s.orders oid
            buy_orders := insertA s.buy_orders o.price_tick
              (ids.filter (fun i => i ≠ oid)) } with hs2
      have hstep : remove_filled_go (oid :: fl') s = remove_filled_go fl' s2 := by
        simp only [remove_filled_go, hlk, if_pos hside, hrem]
      obtain ⟨s', hrun, hgone, hunch, hbshr, hsshr, hremcl, hbus, hdep, hstate,
          hfill⟩ :=
        ih s2 hnd'
          (List.Nodup.sublist (eraseA_map_fst_sublist s.orders oid) hknd)
          (fun x hx => by
            obtain ⟨o', hl', hb', hs'⟩ := hpre x (List.mem_cons_of_mem _ hx)
            have hne : x ≠ oid := fun hc => hnotin (hc ▸ hx)
            refine ⟨o', ?_, ?_, ?_⟩
            · show lookupA (eraseA s.orders oid) x = some o'
              rw [eraseA_lookup_ne s.orders oid x hne]
              exact hl'
            · intro hob
              exact idxRemove_isSome hrem _ (hb' hob)
            · intro hob
              exact hs' hob)
      refine ⟨s', by rw [hstep]; exact hrun, ?_, ?_, ?_, ?_, ?_, hbus, hdep,
        hstate, hfill⟩
      · intro x hx
        rcases List.mem_cons.mp hx with rfl | hx'
        · rw [hunch x hnotin]
          exact eraseA_lookup_self s.orders x hknd
        · exact hgone x hx'
      · intro x hx
        have hx1 : x ∉ fl' := fun h => hx (List.mem_cons_of_mem _ h)
        have hx2 : x ≠ oid := fun h => hx (h ▸ List.mem_cons_self _ _)
        rw [hunch x hx1]
        exact eraseA_lookup_ne s.orders oid x hx2
      · intro t x hm
        exact idxRemove_shrink hrem t x (hbshr t x hm)
      · intro t x hm
        exact hsshr t x hm
      · intro x hx o'' hlk''
        rcases List.mem_cons.mp hx with rfl | hx'
        · have ho : o'' = o := by
            rw [hlk] at hlk''
            exact (Option.some.inj hlk'').symm
          subst ho
          constructor
          · intro _ hmem'
            exact not_mem_idxGet_idxRemove hrem (hbshr _ _ hmem')
          · intro hob
            exact absurd hside hob
        · have hne : x ≠ oid := fun hc => hnotin (hc ▸ hx')
          have hlk2 : lookupA s2.orders x = some o'' := by
            show lookupA (eraseA s.orders oid) x = some o''
            rw [eraseA_lookup_ne s.orders oid x hne]
            exact hlk''
          exact hremcl x hx' o'' hlk2
    · obtain ⟨ids, hids⟩ := Option.isSome_iff_exists.mp (hsell hside)
      have hrem : idxRemove s.sell_orders o.price_tick oid =
          Except.ok (insertA s.sell_orders o.price_tick
            (ids.filter (fun i => i ≠ oid))) := by
        unfold idxRemove
        rw [hids]
      set s2 : ExchSt Q :=
        { s with
            orders := eraseA s.orders oid
            sell_orders := insertA s.sell_orders o.price_tick
              (ids.filter (fun i => i ≠ oid)) } with hs2
      have hstep : remove_filled_go (oid :: fl') s = remove_filled_go fl' s2 := by
        simp only [remove_filled_go, hlk, if_neg hside, hrem]
      obtain ⟨s', hrun, hgone, hunch, hbshr, hsshr, hremcl, hbus, hdep, hstate,
          hfill⟩ :=
        ih s2 hnd'
          (List.Nodup.sublist (eraseA_map_fst_sublist s.orders oid) hknd)
          (fun x hx => by
            obtain ⟨o', hl', hb', hs'⟩ := hpre x (List.mem_cons_of_mem _ hx)
            have hne : x ≠ oid := fun hc => hnotin (hc ▸ hx)
            refine ⟨o', ?_, ?_, ?_⟩
            · show lookupA (eraseA s.orders oid) x = some o'
              rw [eraseA_lookup_ne s.orders oid x hne]
              exact hl'
            · intro hob
              exact hb' hob
            · intro hob
              exact idxRemove_isSome hrem _ (hs' hob))
      refine ⟨s', by rw [hstep]; exact hrun, ?_, ?_, ?_, ?_, ?_, hbus, hdep,
        hstate, hfill⟩
      · intro x hx
        rcases List.mem_cons.mp hx with rfl | hx'
        · rw [hunch x hnotin]
          exact eraseA_lookup_self s.orders x hknd
        · exact hgone x hx'
      · intro x hx
        have hx1 : x ∉ fl' := fun h => hx (List.mem_cons_of_mem _ h)
        have hx2 : x ≠ oid := fun h => hx (h ▸ List.mem_cons_self _ _)
        rw [hunch x hx1]
        exact eraseA_lookup_ne s.orders oid x hx2
      · intro t x hm
        exact hbshr t x hm
      · intro t x hm
        exact idxRemove_shrink hrem t x (hsshr t x hm)
      · intro x hx o'' hlk''
        rcases List.mem_cons.mp hx with rfl | hx'
        · have ho : o'' = o := by
            rw [hlk] at hlk''
            exact (Option.some.inj hlk'').symm
          subst ho
          constructor
          · intro hob
            exact absurd hob hside
          · intro _ hmem'
            exact not_mem_idxGet_idxRemove hrem (hsshr _ _ hmem')
        · have hne : x ≠ oid := fun hc => hnotin (hc ▸ hx')
          have hlk2 : lookupA s2.orders x = some o'' := by
            show lookupA (eraseA s.orders oid) x = some o''
            rw [eraseA_lookup_ne s.orders oid x hne]
            exact hlk''
          exact hremcl x hx' o'' hlk2

lemma buy_walk_spec {Q : Type} [Inhabited Q] (qm : QueueModel Q)
    (lm : LatencyModel Q) (s : ExchSt Q) (p : Int) (v : ℚ) (ts : Int)
    (hwf : ordersWF s) (hsound : sellIdxSound s) (hcomp : sellIdxComplete s)
    (hidxnd : sellIdxNodup s) (hopen : sellsOpen s)
    (habove : sellsAbove s s.depth.best_bid_tick)
    (hfe : s.filled_orders = [])
    (r : Except Error (ExchSt Q))
    (hr : r = sweep_sell_map qm lm p v ts s.orders s ∨
      r = sweep_sell_ticks qm lm p v ts s.sell_orders
        (tickRange (s.depth.best_bid_tick + 1) p) s) :
    ∃ s1, r = Except.ok s1 ∧
      (∀ ko ∈ s.orders, lookupA s1.orders ko.1 =
        some (if ko.2.side = Side.Sell then examSell qm s.depth p v ts ko.2
          else ko.2)) ∧
      (∀ x, x ∈ s1.filled_orders ↔ ∃ ko, ko ∈ s.orders ∧ ko.1 = x ∧
        ko.2.side = Side.Sell ∧ sellFilledFlag qm s.depth p v ko.2 = true) ∧
      s1.filled_orders.Nodup ∧
      s1.orders.map Prod.fst = s.orders.map Prod.fst ∧
      s1.buy_orders = s.buy_orders ∧ s1.sell_orders = s.sell_orders ∧
      s1.depth = s.depth ∧
      (∀ ko ∈ s.orders, ko.2.side = Side.Sell →
        sellFilledFlag qm s.depth p v ko.2 = true →
        (examSell qm s.depth p v ts ko.2,
          ts + lm.response ts (examSell qm s.depth p v ts ko.2)) ∈
          s1.orders_to) := by
  classical
  rcases hr with hr | hr
  · obtain ⟨s1, hrun, hfill, hunch, hent, hbo, hso, hdep, hfwd, hbwd, hmem⟩ :=
      sweep_sell_map_spec qm lm p v ts s.orders s
        (fun ko hko => mem_lookupA hwf.1 (by simpa using hko))
        hwf.1 (fun ko hko => hwf.2 ko hko) (fun ko hko => hopen ko hko)
    refine ⟨s1, hr ▸ hrun, hent, ?_, ?_, ?_, hbo, hso, hdep,
      fun ko hko hsd hflag => hmem ko hko hsd hflag⟩
    · intro x
      rw [hfill, hfe, List.nil_append]
      simp only [List.mem_map, List.mem_filter, Bool.and_eq_true, beq_iff_eq]
      constructor
      · rintro ⟨ko, ⟨hko, hsd, hflag⟩, rfl⟩
        exact ⟨ko, hko, rfl, hsd, hflag⟩
      · rintro ⟨ko, hko, rfl, hsd, hflag⟩
        exact ⟨ko, ⟨hko, hsd, hflag⟩, rfl⟩
    · rw [hfill, hfe, List.nil_append]
      exact List.Nodup.sublist
        (List.Sublist.map Prod.fst (List.filter_sublist s.orders)) hwf.1
    · exact sweep_sell_map_keys qm lm p v ts s.orders s s1
        (fun ko hko => List.mem_map.mpr ⟨ko, hko, rfl⟩)
        (fun ko hko => hopen ko hko) hrun
  · set b := s.depth.best_bid_tick with hb
    set span := tickRange (b + 1) p with hspan
    set f : Int → Order Q := fun i =>
      (lookupA s.orders i).getD
        (Order.new 0 0 0 0 Side.Sell OrdType.Limit TimeInForce.GTC) with hf
    have hkey : ∀ t oid, oid ∈ idxGet s.sell_orders t →
        lookupA s.orders oid = some (f oid) ∧ (f oid).side = Side.Sell ∧
        (f oid).price_tick = t ∧ (f oid).status = Status.New ∧
        (f oid).order_id = oid := by
      intro t oid hm
      obtain ⟨ids, hent, hmem⟩ := idxGet_mem_entry hm
      have hS := hsound (t, ids) hent oid hmem
      obtain ⟨o, hl, hg⟩ := Option.map_eq_some'.mp hS
      simp only [Prod.mk.injEq] at hg
      obtain ⟨h1, h2, h3, h4⟩ := hg
      have hfo : f oid = o := by rw [hf]; simp [hl]
      rw [hfo]
      exact ⟨hl, h1, h2, h3, h4⟩
    have htnodup : ∀ t ∈ span, (idxGet s.sell_orders t).Nodup := by
      intro t _
      unfold idxGet
      cases hl : lookupA s.sell_orders t with
      | none => simp
      | some ids =>
        simp only [Option.getD_some]
        exact hidxnd (t, ids) (lookupA_mem hl)
    have hall_nd : (spanIds s.sell_orders span).Nodup :=
      spanIds_nodup (fun oid => (f oid).price_tick)
        (fun t _ oid hm => (hkey t oid hm).2.2.1) (tickRange_nodup _ _) htnodup
    have hall : ∀ oid ∈ spanIds s.sell_orders span,
        lookupA s.orders oid = some (f oid) ∧ (f oid).side = Side.Sell ∧
        (f oid).status = Status.New ∧ (f oid).order_id = oid := by
      intro oid hm
      obtain ⟨t, _, hmt⟩ := mem_spanIds.mp hm
      obtain ⟨h1, h2, _, h4, h5⟩ := hkey t oid hmt
      exact ⟨h1, h2, h4, h5⟩
    set L : List (Int × Order Q) :=
      (spanIds s.sell_orders span).map (fun i => (i, f i)) with hL
    have hLfst : L.map Prod.fst = spanIds s.sell_orders span := by
      rw [hL, List.map_map]
      have hidm : (Prod.fst ∘ fun i => (i, f i)) = fun (i : Int) => i := rfl
      rw [hidm, List.map_id']
    have hB : sweep_sell_ticks qm lm p v ts s.sell_orders span s =
        sweep_sell_map qm lm p v ts L s := by
      rw [sweep_sell_ticks_eq_ids]
      exact sweep_sell_ids_eq_map qm lm p v ts _ s f
        (fun oid hm => (hall oid hm).1) (fun oid hm => (hall oid hm).2.1)
        (fun oid hm => (hall oid hm).2.2.1) hall_nd
    have hmemL : ∀ ko, ko ∈ s.orders → ko.2.side = Side.Sell →
        ko.2.price_tick ≤ p → (ko.1, ko.2) ∈ L ∧ f ko.1 = ko.2 := by
      intro ko hko hsd hle
      have hlkko : lookupA s.orders ko.1 = some ko.2 :=
        mem_lookupA hwf.1 (by simpa using hko)
      have hfko : f ko.1 = ko.2 := by rw [hf]; simp [hlkko]
      have hgt : b < ko.2.price_tick := habove ko hko hsd
      have hin_idx : ko.1 ∈ idxGet s.sell_orders ko.2.price_tick :=
        hcomp ko hko hsd
      have hin_span : ko.2.price_tick ∈ span := by
        rw [hspan, mem_tickRange]
        omega
      have hin_all : ko.1 ∈ spanIds s.sell_orders span :=
        mem_spanIds.mpr ⟨ko.2.price_tick, hin_span, hin_idx⟩
      have : (ko.1, f ko.1) ∈ L := List.mem_map.mpr ⟨ko.1, hin_all, rfl⟩
      rw [hfko] at this
      exact ⟨this, hfko⟩
    have hnotinL : ∀ ko, ko ∈ s.orders →
        (¬ko.2.side = Side.Sell ∨ p < ko.2.price_tick) →
        ko.1 ∉ spanIds s.sell_orders span := by
      intro ko hko hcase hin
      have hlkko : lookupA s.orders ko.1 = some ko.2 :=
        mem_lookupA hwf.1 (by simpa using hko)
      obtain ⟨t, htspan, hmt⟩ := mem_spanIds.mp hin
      obtain ⟨h1, h2, h3, _, _⟩ := hkey t ko.1 hmt
      have hfko : f ko.1 = ko.2 := by
        have := h1.symm.trans hlkko
        exact Option.some.inj this
      rw [hfko] at h2 h3
      rcases hcase with hcase | hcase
      · exact hcase h2
      · rw [hspan, mem_tickRange] at htspan
        omega
    obtain ⟨s1, hrun, hfill, hunch, hent, hbo, hso, hdep, hfwd, hbwd, hmem⟩ :=
      sweep_sell_map_spec qm lm p v ts L s
        (fun ko hko => by
          obtain ⟨i, hi, rfl⟩ := List.mem_map.mp hko
          exact (hall i hi).1)
        (by rw [hLfst]; exact hall_nd)
        (fun ko hko => by
          obtain ⟨i, hi, rfl⟩ := List.mem_map.mp hko
          exact (hall i hi).2.2.2)
        (fun ko hko _ => by
          obtain ⟨i, hi, rfl⟩ := List.mem_map.mp hko
          exact (hall i hi).2.2.1)
    have hreq : r = Except.ok s1 := by
      rw [hr, hspan, hb] at *
      rw [hB] at *
      exact hrun
    refine ⟨s1, hreq, ?_, ?_, ?_, ?_, hbo, hso, hdep, ?_⟩
    · intro ko hko
      by_cases hsd : ko.2.side = Side.Sell
      · by_cases hle : ko.2.price_tick ≤ p
        · obtain ⟨hinL, hfko⟩ := hmemL ko hko hsd hle
          have := hent (ko.1, ko.2) hinL
          simpa using this
        · have hni : ko.1 ∉ L.map Prod.fst := by
            rw [hLfst]
            exact hnotinL ko hko (Or.inr (by omega))
          rw [hunch ko.1 hni, mem_lookupA hwf.1 (by simpa using hko)]
          rw [if_pos hsd, examSell_gt qm s.depth v ts (by omega)]
      · have hni : ko.1 ∉ L.map Prod.fst := by
          rw [hLfst]
          exact hnotinL ko hko (Or.inl hsd)
        rw [hunch ko.1 hni, mem_lookupA hwf.1 (by simpa using hko)]
        rw [if_neg hsd]
    · intro x
      rw [hfill, hfe, List.nil_append]
      simp only [List.mem_map, List.mem_filter, Bool.and_eq_true, beq_iff_eq]
      constructor
      · rintro ⟨ko, ⟨hko, hsd, hflag⟩, rfl⟩
        obtain ⟨i, hi, rfl⟩ := List.mem_map.mp hko
        exact ⟨(i, f i), lookupA_mem (hall i hi).1, rfl, hsd, hflag⟩
      · rintro ⟨ko, hko, rfl, hsd, hflag⟩
        obtain ⟨hinL, hfko⟩ := hmemL ko hko hsd (sellFilledFlag_le hflag)
        exact ⟨(ko.1, ko.2), ⟨hinL, hsd, hflag⟩, rfl⟩
    · rw [hfill, hfe, List.nil_append]
      refine List.Nodup.sublist (List.Sublist.map Prod.fst (List.filter_sublist L)) ?_
      rw [hLfst]
      exact hall_nd
    · exact sweep_sell_map_keys qm lm p v ts L s s1
        (fun ko hko => by
          obtain ⟨i, hi, rfl⟩ := List.mem_map.mp hko
          exact List.mem_map.mpr ⟨(i, f i), lookupA_mem (hall i hi).1, rfl⟩)
        (fun ko hko _ => by
          obtain ⟨i, hi, rfl⟩ := List.mem_map.mp hko
          exact (hall i hi).2.2.1)
        hrun
    · intro ko hko hsd hflag
      obtain ⟨hinL, hfko⟩ := hmemL ko hko hsd (sellFilledFlag_le hflag)
      have := hmem (ko.1, ko.2) hinL hsd hflag
      exact this

lemma sell_walk_spec {Q : Type} [Inhabited Q] (qm : QueueModel Q)
    (lm : LatencyModel Q) (s : ExchSt Q) (p : Int) (v : ℚ) (ts : Int)
    (hwf : ordersWF s) (hsound : buyIdxSound s) (hcomp : buyIdxComplete s)
    (hidxnd : buyIdxNodup s) (hopen : buysOpen s)
    (hbelow : buysBelow s s.depth.best_ask_tick)
    (hfe : s.filled_orders = [])
    (r : Except Error (ExchSt Q))
    (hr : r = sweep_buy_map qm lm p v ts s.orders s ∨
      r = sweep_buy_ticks qm lm p v ts s.buy_orders
        (tickRange p (s.depth.best_ask_tick - 1)).reverse s) :
    ∃ s1, r = Except.ok s1 ∧
      (∀ ko ∈ s.orders, lookupA s1.orders ko.1 =
        some (if ko.2.side = Side.Buy then examBuy qm s.depth p v ts ko.2
          else ko.2)) ∧
      (∀ x, x ∈ s1.filled_orders ↔ ∃ ko, ko ∈ s.orders ∧ ko.1 = x ∧
        ko.2.side = Side.Buy ∧ buyFilledFlag qm s.depth p v ko.2 = true) ∧
      s1.filled_orders.Nodup ∧
      s1.orders.map Prod.fst = s.orders.map Prod.fst ∧
      s1.buy_orders = s.buy_orders ∧ s1.sell_orders = s.sell_orders ∧
      s1.depth = s.depth ∧
      (∀ ko ∈ s.orders, ko.2.side = Side.Buy →
        buyFilledFlag qm s.depth p v ko.2 = true →
        (examBuy qm s.depth p v ts ko.2,
          ts + lm.response ts (examBuy qm s.depth p v ts ko.2)) ∈
          s1.orders_to) := by
  classical
  rcases hr with hr | hr
  · obtain ⟨s1, hrun, hfill, hunch, hent, hbo, hso, hdep, hfwd, hbwd, hmem⟩ :=
      sweep_buy_map_spec qm lm p v ts s.orders s
        (fun ko hko => mem_lookupA hwf.1 (by simpa using hko))
        hwf.1 (fun ko hko => hwf.2 ko hko) (fun ko hko => hopen ko hko)
    refine ⟨s1, hr ▸ hrun, hent, ?_, ?_, ?_, hbo, hso, hdep,
      fun ko hko hsd hflag => hmem ko hko hsd hflag⟩
    · intro x
      rw [hfill, hfe, List.nil_append]
      simp only [List.mem_map, List.mem_filter, Bool.and_eq_true, beq_iff_eq]
      constructor
      · rintro ⟨ko, ⟨hko, hsd, hflag⟩, rfl⟩
        exact ⟨ko, hko, rfl, hsd, hflag⟩
      · rintro ⟨ko, hko, rfl, hsd, hflag⟩
        exact ⟨ko, ⟨hko, hsd, hflag⟩, rfl⟩
    · rw [hfill, hfe, List.nil_append]
      exact List.Nodup.sublist
        (List.Sublist.map Prod.fst (List.filter_sublist s.orders)) hwf.1
    · exact sweep_buy_map_keys qm lm p v ts s.orders s s1
        (fun ko hko => List.mem_map.mpr ⟨ko, hko, rfl⟩)
        (fun ko hko => hopen ko hko) hrun
  · set a := s.depth.best_ask_tick with ha
    set span := (tickRange p (a - 1)).reverse with hspan
    set f : Int → Order Q := fun i =>
      (lookupA s.orders i).getD
        (Order.new 0 0 0 0 Side.Buy OrdType.Limit TimeInForce.GTC) with hf
    have hkey : ∀ t oid, oid ∈ idxGet s.buy_orders t →
        lookupA s.orders oid = some (f oid) ∧ (f oid).side = Side.Buy ∧
        (f oid).price_tick = t ∧ (f oid).status = Status.New ∧
        (f oid).order_id = oid := by
      intro t oid hm
      obtain ⟨ids, hent, hmem⟩ := idxGet_mem_entry hm
      have hS := hsound (t, ids) hent oid hmem
      obtain ⟨o, hl, hg⟩ := Option.map_eq_some'.mp hS
      simp only [Prod.mk.injEq] at hg
      obtain ⟨h1, h2, h3, h4⟩ := hg
      have hfo : f oid = o := by rw [hf]; simp [hl]
      rw [hfo]
      exact ⟨hl, h1, h2, h3, h4⟩
    have htnodup : ∀ t ∈ span, (idxGet s.buy_orders t).Nodup := by
      intro t _
      unfold idxGet
      cases hl : lookupA s.buy_orders t with
      | none => simp
      | some ids =>
        simp only [Option.getD_some]
        exact hidxnd (t, ids) (lookupA_mem hl)
    have hall_nd : (spanIds s.buy_orders span).Nodup :=
      spanIds_nodup (fun oid => (f oid).price_tick)
        (fun t _ oid hm => (hkey t oid hm).2.2.1)
        (List.nodup_reverse.mpr (tickRange_nodup _ _)) htnodup
    have hall : ∀ oid ∈ spanIds s.buy_orders span,
        lookupA s.orders oid = some (f oid) ∧ (f oid).side = Side.Buy ∧
        (f oid).status = Status.New ∧ (f oid).order_id = oid := by
      intro oid hm
      obtain ⟨t, _, hmt⟩ := mem_spanIds.mp hm
      obtain ⟨h1, h2, _, h4, h5⟩ := hkey t oid hmt
      exact ⟨h1, h2, h4, h5⟩
    set L : List (Int × Order Q) :=
      (spanIds s.buy_orders span).map (fun i => (i, f i)) with hL
    have hLfst : L.map Prod.fst = spanIds s.buy_orders span := by
      rw [hL, List.map_map]
      have hidm : (Prod.fst ∘ fun i => (i, f i)) = fun (i : Int) => i := rfl
      rw [hidm, List.map_id']
    have hB : sweep_buy_ticks qm lm p v ts s.buy_orders span s =
        sweep_buy_map qm lm p v ts L s := by
      rw [sweep_buy_ticks_eq_ids]
      exact sweep_buy_ids_eq_map qm lm p v ts _ s f
        (fun oid hm => (hall oid hm).1) (fun oid hm => (hall oid hm).2.1)
        (fun oid hm => (hall oid hm).2.2.1) hall_nd
    have hmemL : ∀ ko, ko ∈ s.orders → ko.2.side = Side.Buy →
        p ≤ ko.2.price_tick → (ko.1, ko.2) ∈ L ∧ f ko.1 = ko.2 := by
      intro ko hko hsd hle
      have hlkko : lookupA s.orders ko.1 = some ko.2 :=
        mem_lookupA hwf.1 (by simpa using hko)
      have hfko : f ko.1 = ko.2 := by rw [hf]; simp [hlkko]
      have hgt : ko.2.price_tick < a := hbelow ko hko hsd
      have hin_idx : ko.1 ∈ idxGet s.buy_orders ko.2.price_tick :=
        hcomp ko hko hsd
      have hin_span : ko.2.price_tick ∈ span := by
        rw [hspan, List.mem_reverse, mem_tickRange]
        omega
      have hin_all : ko.1 ∈ spanIds s.buy_orders span :=
        mem_spanIds.mpr ⟨ko.2.price_tick, hin_span, hin_idx⟩
      have : (ko.1, f ko.1) ∈ L := List.mem_map.mpr ⟨ko.1, hin_all, rfl⟩
      rw [hfko] at this
      exact ⟨this, hfko⟩
    have hnotinL : ∀ ko, ko ∈ s.orders →
        (¬ko.2.side = Side.Buy ∨ ko.2.price_tick < p) →
        ko.1 ∉ spanIds s.buy_orders span := by
      intro ko hko hcase hin
      have hlkko : lookupA s.orders ko.1 = some ko.2 :=
        mem_lookupA hwf.1 (by simpa using hko)
      obtain ⟨t, htspan, hmt⟩ := mem_spanIds.mp hin
      obtain ⟨h1, h2, h3, _, _⟩ := hkey t ko.1 hmt
      have hfko : f ko.1 = ko.2 := by
        have := h1.symm.trans hlkko
        exact Option.some.inj this
      rw [hfko] at h2 h3
      rcases hcase with hcase | hcase
      · exact hcase h2
      · rw [hspan, List.mem_reverse, mem_tickRange] at htspan
        omega
    obtain ⟨s1, hrun, hfill, hunch, hent, hbo, hso, hdep, hfwd, hbwd, hmem⟩ :=
      sweep_buy_map_spec qm lm p v ts L s
        (fun ko hko => by
          obtain ⟨i, hi, rfl⟩ := List.mem_map.mp hko
          exact (hall i hi).1)
        (by rw [hLfst]; exact hall_nd)
        (fun ko hko => by
          obtain ⟨i, hi, rfl⟩ := List.mem_map.mp hko
          exact (hall i hi).2.2.2)
        (fun ko hko _ => by
          obtain ⟨i, hi, rfl⟩ := List.mem_map.mp hko
          exact (hall i hi).2.2.1)
    have hreq : r = Except.ok s1 := by
      rw [hr, hspan, ha] at *
      rw [hB] at *
      exact hrun
    refine ⟨s1, hreq, ?_, ?_, ?_, ?_, hbo, hso, hdep, ?_⟩
    · intro ko hko
      by_cases hsd : ko.2.side = Side.Buy
      · by_cases hle : p ≤ ko.2.price_tick
        · obtain ⟨hinL, hfko⟩ := hmemL ko hko hsd hle
          have := hent (ko.1, ko.2) hinL
          simpa using this
        · have hni : ko.1 ∉ L.map Prod.fst := by
            rw [hLfst]
            exact hnotinL ko hko (Or.inr (by omega))
          rw [hunch ko.1 hni, mem_lookupA hwf.1 (by simpa using hko)]
          rw [if_pos hsd, examBuy_lt qm s.depth v ts (by omega)]
      · have hni : ko.1 ∉ L.map Prod.fst := by
          rw [hLfst]
          exact hnotinL ko hko (Or.inl hsd)
        rw [hunch ko.1 hni, mem_lookupA hwf.1 (by simpa using hko)]
        rw [if_neg hsd]
    · intro x
      rw [hfill, hfe, List.nil_append]
      simp only [List.mem_map, List.mem_filter, Bool.and_eq_true, beq_iff_eq]
      constructor
      · rintro ⟨ko, ⟨hko, hsd, hflag⟩, rfl⟩
        obtain ⟨i, hi, rfl⟩ := List.mem_map.mp hko
        exact ⟨(i, f i), lookupA_mem (hall i hi).1, rfl, hsd, hflag⟩
      · rintro ⟨ko, hko, rfl, hsd, hflag⟩
        obtain ⟨hinL, hfko⟩ := hmemL ko hko hsd (buyFilledFlag_ge hflag)
        exact ⟨(ko.1, ko.2), ⟨hinL, hsd, hflag⟩, rfl⟩
    · rw [hfill, hfe, List.nil_append]
      refine List.Nodup.sublist (List.Sublist.map Prod.fst (List.filter_sublist L)) ?_
      rw [hLfst]
      exact hall_nd
    · exact sweep_buy_map_keys qm lm p v ts L s s1
        (fun ko hko => by
          obtain ⟨i, hi, rfl⟩ := List.mem_map.mp hko
          exact List.mem_map.mpr ⟨(i, f i), lookupA_mem (hall i hi).1, rfl⟩)
        (fun ko hko _ => by
          obtain ⟨i, hi, rfl⟩ := List.mem_map.mp hko
          exact (hall i hi).2.2.1)
        hrun
    · intro ko hko hsd hflag
      obtain ⟨hinL, hfko⟩ := hmemL ko hko hsd (buyFilledFlag_ge hflag)
      have := hmem (ko.1, ko.2) hinL hsd hflag
      exact this

lemma process_buy_trade_spec {Q : Type} [Inhabited Q] (qm : QueueModel Q)
    (lm : LatencyModel Q) (s : ExchSt Q) (px v : ℚ) (ts p : Int)
    (hp : rustRound (px / s.depth.tick_size) = p)
    (hwf : ordersWF s) (hsound : sellIdxSound s) (hcomp : sellIdxComplete s)
    (hidxnd : sellIdxNodup s) (hopen : sellsOpen s)
    (habove : sellsAbove s s.depth.best_bid_tick)
    (hfe : s.filled_orders = []) :
    ∃ s', process_buy_trade qm lm s px v ts = Except.ok s' ∧
      (∀ ko ∈ s.orders, ko.2.side = Side.Sell →
        (sellFilledFlag qm s.depth p v ko.2 = true →
          lookupA s'.orders ko.1 = none ∧
          ko.1 ∉ idxGet s'.sell_orders ko.2.price_tick ∧
          (examSell qm s.depth p v ts ko.2,
            ts + lm.response ts (examSell qm s.depth p v ts ko.2)) ∈
            s'.orders_to ∧
          (examSell qm s.depth p v ts ko.2).status = Status.Filled ∧
          (examSell qm s.depth p v ts ko.2).maker = true ∧
          (examSell qm s.depth p v ts ko.2).exec_price_tick = ko.2.price_tick ∧
          (examSell qm s.depth p v ts ko.2).exec_qty = ko.2.leaves_qty) ∧
        (sellFilledFlag qm s.depth p v ko.2 = false →
          lookupA s'.orders ko.1 = some (examSell qm s.depth p v ts ko.2)) ∧
        (p < ko.2.price_tick → lookupA s'.orders ko.1 = some ko.2)) ∧
      (∀ ko ∈ s.orders, ko.2.side = Side.Buy →
        lookupA s'.orders ko.1 = some ko.2) ∧
      s'.filled_orders = [] ∧ s'.depth = s.depth := by
  classical
  obtain ⟨s1, hr1, hlook, hmemfill, hndfill, hkeys, hbo, hso, hdep, hbus⟩ :=
    buy_walk_spec qm lm s p v ts hwf hsound hcomp hidxnd hopen habove hfe
      (if s.depth.best_bid_tick = INVALID_MIN ∨
          (s.orders.length : Int) < p - s.depth.best_bid_tick then
        sweep_sell_map qm lm p v ts s.orders s
      else
        sweep_sell_ticks qm lm p v ts s.sell_orders
          (tickRange (s.depth.best_bid_tick + 1) p) s)
      (by
        by_cases hc : s.depth.best_bid_tick = INVALID_MIN ∨
            (s.orders.length : Int) < p - s.depth.best_bid_tick
        · exact Or.inl (if_pos hc)
        · exact Or.inr (if_neg hc))
  have hproc : process_buy_trade qm lm s px v ts = remove_filled_orders s1 := by
    simp only [process_buy_trade, hp]
    rw [hr1]
  have hentry : ∀ ko, ko ∈ s.orders → ∀ ko', ko' ∈ s.orders → ko'.1 = ko.1 →
      ko'.2 = ko.2 := by
    intro ko hko ko' hko' hkk
    have h1 : lookupA s.orders ko.1 = some ko.2 :=
      mem_lookupA hwf.1 (by simpa using hko)
    have h2 : lookupA s.orders ko'.1 = some ko'.2 :=
      mem_lookupA hwf.1 (by simpa using hko')
    rw [hkk, h1] at h2
    exact (Option.some.inj h2).symm
  obtain ⟨s2, hrun, hgone, hunch, hbshr, hsshr, hremcl, hbus2, hdep2, hst2,
      hfill2⟩ :=
    remove_filled_go_spec s1.filled_orders s1 hndfill
      (by rw [hkeys]; exact hwf.1)
      (fun oid hoid => by
        obtain ⟨ko, hko, hk1, hsd, hflag⟩ := (hmemfill oid).mp hoid
        subst hk1
        have hlkS : lookupA s1.orders ko.1 =
            some (examSell qm s.depth p v ts ko.2) := by
          rw [hlook ko hko, if_pos hsd]
        have hsides : (examSell qm s.depth p v ts ko.2).side = Side.Sell := by
          rw [(examSell_side_tick qm s.depth p v ts ko.2).1]
          exact hsd
        refine ⟨examSell qm s.depth p v ts ko.2, hlkS, ?_, ?_⟩
        · intro hob
          rw [hsides] at hob
          exact absurd hob (by decide)
        · intro _
          rw [(examSell_side_tick qm s.depth p v ts ko.2).2, hso]
          obtain ⟨ids, hids, _⟩ :=
            lookupA_isSome_of_mem_idxGet (hcomp ko hko hsd)
          rw [hids]
          rfl)
  have hro : process_buy_trade qm lm s px v ts =
      Except.ok { s2 with filled_orders := [] } := by
    rw [hproc]
    unfold remove_filled_orders
    rw [hrun]
  have hnotfill : ∀ ko, ko ∈ s.orders →
      (ko.2.side = Side.Buy ∨ sellFilledFlag qm s.depth p v ko.2 = false) →
      ko.1 ∉ s1.filled_orders := by
    intro ko hko hcase hin
    obtain ⟨ko', hko', hk1, hsd', hflag'⟩ := (hmemfill ko.1).mp hin
    have he : ko'.2 = ko.2 := hentry ko hko ko' hko' hk1
    rw [he] at hsd' hflag'
    rcases hcase with hcase | hcase
    · rw [hcase] at hsd'
      exact absurd hsd' (by decide)
    · rw [hcase] at hflag'
      exact absurd hflag' (by decide)
  refine ⟨{ s2 with filled_orders := [] }, hro, ?_, ?_, rfl, ?_⟩
  · intro ko hko hsd
    refine ⟨?_, ?_, ?_⟩
    · intro hflag
      have hinf : ko.1 ∈ s1.filled_orders :=
        (hmemfill ko.1).mpr ⟨ko, hko, rfl, hsd, hflag⟩
      have hlkS : lookupA s1.orders ko.1 =
          some (examSell qm s.depth p v ts ko.2) := by
        rw [hlook ko hko, if_pos hsd]
      have hsides : (examSell qm s.depth p v ts ko.2).side = Side.Sell := by
        rw [(examSell_side_tick qm s.depth p v ts ko.2).1]
        exact hsd
      obtain ⟨hf1, hf2, hf3, hf4⟩ := examSell_filled_fields ts hflag
      refine ⟨hgone ko.1 hinf, ?_, ?_, hf1, hf2, hf3, hf4⟩
      · have hcl := (hremcl ko.1 hinf _ hlkS).2
          (by rw [hsides]; exact (by decide))
        rwa [(examSell_side_tick qm s.depth p v ts ko.2).2] at hcl
      · rw [show ({ s2 with filled_orders := [] } : ExchSt Q).orders_to =
            s2.orders_to from rfl, hbus2]
        exact hbus ko hko hsd hflag
    · intro hflag
      rw [show ({ s2 with filled_orders := [] } : ExchSt Q).orders =
          s2.orders from rfl,
        hunch ko.1 (hnotfill ko hko (Or.inr hflag)), hlook ko hko, if_pos hsd]
    · intro hgtp
      have hflag : sellFilledFlag qm s.depth p v ko.2 = false := by
        unfold sellFilledFlag
        rw [if_neg (by omega), if_neg (by omega)]
      rw [show ({ s2 with filled_orders := [] } : ExchSt Q).orders =
          s2.orders from rfl,
        hunch ko.1 (hnotfill ko hko (Or.inr hflag)), hlook ko hko, if_pos hsd,
        examSell_gt qm s.depth v ts hgtp]
  · intro ko hko hsd
    have hns : ¬ko.2.side = Side.Sell := by
      rw [hsd]
      exact (by decide)
    rw [show ({ s2 with filled_orders := [] } : ExchSt Q).orders =
        s2.orders from rfl,
      hunch ko.1 (hnotfill ko hko (Or.inl hsd)), hlook ko hko, if_neg hns]
  · rw [show ({ s2 with filled_orders := [] } : ExchSt Q).depth =
        s2.depth from rfl, hdep2, hdep]

lemma process_sell_trade_spec {Q : Type} [Inhabited Q] (qm : QueueModel Q)
    (lm : LatencyModel Q) (s : ExchSt Q) (px v : ℚ) (ts p : Int)
    (hp : rustRound (px / s.depth.tick_size) = p)
    (hwf : ordersWF s) (hsound : buyIdxSound s) (hcomp : buyIdxComplete s)
    (hidxnd : buyIdxNodup s) (hopen : buysOpen s)
    (hbelow : buysBelow s s.depth.best_ask_tick)
    (hfe : s.filled_orders = []) :
    ∃ s', process_sell_trade qm lm s px v ts = Except.ok s' ∧
      (∀ ko ∈ s.orders, ko.2.side = Side.Buy →
        (buyFilledFlag qm s.depth p v ko.2 = true →
          lookupA s'.orders ko.1 = none ∧
          ko.1 ∉ idxGet s'.buy_orders ko.2.price_tick ∧
          (examBuy qm s.depth p v ts ko.2,
            ts + lm.response ts (examBuy qm s.depth p v ts ko.2)) ∈
            s'.orders_to ∧
          (examBuy qm s.depth p v ts ko.2).status = Status.Filled ∧
          (examBuy qm s.depth p v ts ko.2).maker = true ∧
          (examBuy qm s.depth p v ts ko.2).exec_price_tick = ko.2.price_tick ∧
          (examBuy qm s.depth p v ts ko.2).exec_qty = ko.2.leaves_qty) ∧
        (buyFilledFlag qm s.depth p v ko.2 = false →
          lookupA s'.orders ko.1 = some (examBuy qm s.depth p v ts ko.2)) ∧
        (ko.2.price_tick < p → lookupA s'.orders ko.1 = some ko.2)) ∧
      (∀ ko ∈ s.orders, ko.2.side = Side.Sell →
        lookupA s'.orders ko.1 = some ko.2) ∧
      s'.filled_orders = [] ∧ s'.depth = s.depth := by
  classical
  obtain ⟨s1, hr1, hlook, hmemfill, hndfill, hkeys, hbo, hso, hdep, hbus⟩ :=
    sell_walk_spec qm lm s p v ts hwf hsound hcomp hidxnd hopen hbelow hfe
      (if s.depth.best_ask_tick = INVALID_MAX ∨
          (s.orders.length : Int) < s.depth.best_ask_tick - p then
        sweep_buy_map qm lm p v ts s.orders s
      else
        sweep_buy_ticks qm lm p v ts s.buy_orders
          (tickRange p (s.depth.best_ask_tick - 1)).reverse s)
      (by
        by_cases hc : s.depth.best_ask_tick = INVALID_MAX ∨
            (s.orders.length : Int) < s.depth.best_ask_tick - p
        · exact Or.inl (if_pos hc)
        · exact Or.inr (if_neg hc))
  have hproc : process_sell_trade qm lm s px v ts = remove_filled_orders s1 := by
    simp only [process_sell_trade, hp]
    rw [hr1]
  have hentry : ∀ ko, ko ∈ s.orders → ∀ ko', ko' ∈ s.orders → ko'.1 = ko.1 →
      ko'.2 = ko.2 := by
    intro ko hko ko' hko' hkk
    have h1 : lookupA s.orders ko.1 = some ko.2 :=
      mem_lookupA hwf.1 (by simpa using hko)
    have h2 : lookupA s.orders ko'.1 = some ko'.2 :=
      mem_lookupA hwf.1 (by simpa using hko')
    rw [hkk, h1] at h2
    exact (Option.some.inj h2).symm
  obtain ⟨s2, hrun, hgone, hunch, hbshr, hsshr, hremcl, hbus2, hdep2, hst2,
      hfill2⟩ :=
    remove_filled_go_spec s1.filled_orders s1 hndfill
      (by rw [hkeys]; exact hwf.1)
      (fun oid hoid => by
        obtain ⟨ko, hko, hk1, hsd, hflag⟩ := (hmemfill oid).mp hoid
        subst hk1
        have hlkS : lookupA s1.orders ko.1 =
            some (examBuy qm s.depth p v ts ko.2) := by
          rw [hlook ko hko, if_pos hsd]
        have hsides : (examBuy qm s.depth p v ts ko.2).side = Side.Buy := by
          rw [(examBuy_side_tick qm s.depth p v ts ko.2).1]
          exact hsd
        refine ⟨examBuy qm s.depth p v ts ko.2, hlkS, ?_, ?_⟩
        · intro _
          rw [(examBuy_side_tick qm s.depth p v ts ko.2).2, hbo]
          obtain ⟨ids, hids, _⟩ :=
            lookupA_isSome_of_mem_idxGet (hcomp ko hko hsd)
          rw [hids]
          rfl
        · intro hob
          exact absurd hsides hob)
  have hro : process_sell_trade qm lm s px v ts =
      Except.ok { s2 with filled_orders := [] } := by
    rw [hproc]
    unfold remove_filled_orders
    rw [hrun]
  have hnotfill : ∀ ko, ko ∈ s.orders →
      (ko.2.side = Side.Sell ∨ buyFilledFlag qm s.depth p v ko.2 = false) →
      ko.1 ∉ s1.filled_orders := by
    intro ko hko hcase hin
    obtain ⟨ko', hko', hk1, hsd', hflag'⟩ := (hmemfill ko.1).mp hin
    have he : ko'.2 = ko.2 := hentry ko hko ko' hko' hk1
    rw [he] at hsd' hflag'
    rcases hcase with hcase | hcase
    · rw [hcase] at hsd'
      exact absurd hsd' (by decide)
    · rw [hcase] at hflag'
      exact absurd hflag' (by decide)
  refine ⟨{ s2 with filled_orders := [] }, hro, ?_, ?_, rfl, ?_⟩
  · intro ko hko hsd
    refine ⟨?_, ?_, ?_⟩
    · intro hflag
      have hinf : ko.1 ∈ s1.filled_orders :=
        (hmemfill ko.1).mpr ⟨ko, hko, rfl, hsd, hflag⟩
      have hlkS : lookupA s1.orders ko.1 =
          some (examBuy qm s.depth p v ts ko.2) := by
        rw [hlook ko hko, if_pos hsd]
      have hsides : (examBuy qm s.depth p v ts ko.2).side = Side.Buy := by
        rw [(examBuy_side_tick qm s.depth p v ts ko.2).1]
        exact hsd
      obtain ⟨hf1, hf2, hf3, hf4⟩ := examBuy_filled_fields ts hflag
      refine ⟨hgone ko.1 hinf, ?_, ?_, hf1, hf2, hf3, hf4⟩
      · have hcl := (hremcl ko.1 hinf _ hlkS).1 hsides
        rwa [(examBuy_side_tick qm s.depth p v ts ko.2).2] at hcl
      · rw [show ({ s2 with filled_orders := [] } : ExchSt Q).orders_to =
            s2.orders_to from rfl, hbus2]
        exact hbus ko hko hsd hflag
    · intro hflag
      rw [show ({ s2 with filled_orders := [] } : ExchSt Q).orders =
          s2.orders from rfl,
        hunch ko.1 (hnotfill ko hko (Or.inr hflag)), hlook ko hko, if_pos hsd]
    · intro hgtp
      have hflag : buyFilledFlag qm s.depth p v ko.2 = false := by
        unfold buyFilledFlag
        rw [if_neg (by omega), if_neg (by omega)]
      rw [show ({ s2 with filled_orders := [] } : ExchSt Q).orders =
          s2.orders from rfl,
        hunch ko.1 (hnotfill ko hko (Or.inr hflag)), hlook ko hko, if_pos hsd,
        examBuy_lt qm s.depth v ts hgtp]
  · intro ko hko hsd
    have hns : ¬ko.2.side = Side.Buy := by
      rw [hsd]
      exact (by decide)
    rw [show ({ s2 with filled_orders := [] } : ExchSt Q).orders =
        s2.orders from rfl,
      hunch ko.1 (hnotfill ko hko (Or.inl hsd)), hlook ko hko, if_neg hns]
  · rw [show ({ s2 with filled_orders := [] } : ExchSt Q).depth =
        s2.depth from rfl, hdep2, hdep]

/-- C5: on a buy-trade event at price `px`, with trade tick
`p = round(px / tick_size)`, exactly the resting sell orders with tick in
the half-open interval (previous best bid tick, p] are examined: under the
reachable-state hypotheses every resting sell sits strictly above the
previous best bid, a sell with tick above `p` is untouched, one with tick
strictly below `p` is definitively filled as maker at its own tick
(`sellFilledFlag` is true, and the examined order carries status `Filled`,
`maker`, `exec_price_tick` equal to its own tick and `exec_qty` equal to
its `leaves_qty`, with the response on the outbound bus), and one with tick
equal to `p` has its queue position updated via `queue_model.trade` and is
filled iff `queue_model.is_filled` predicts so; every filled order is
removed from the order map and from its per-tick index at the end of the
event and the scratch list is drained.  Symmetric for sell-trade events
against the resting buys. -/
theorem trade_event_fill_spec {Q : Type} [Inhabited Q] (qm : QueueModel Q)
    (lm : LatencyModel Q) (s : ExchSt Q) (px v : ℚ) (ts p : Int) :
    (rustRound (px / s.depth.tick_size) = p → ordersWF s → sellIdxSound s →
      sellIdxComplete s → sellIdxNodup s → sellsOpen s →
      sellsAbove s s.depth.best_bid_tick → s.filled_orders = [] →
      ∃ s', process_buy_trade qm lm s px v ts = Except.ok s' ∧
        (∀ ko ∈ s.orders, ko.2.side = Side.Sell →
          (sellFilledFlag qm s.depth p v ko.2 = true →
            lookupA s'.orders ko.1 = none ∧
            ko.1 ∉ idxGet s'.sell_orders ko.2.price_tick ∧
            (examSell qm s.depth p v ts ko.2,
              ts + lm.response ts (examSell qm s.depth p v ts ko.2)) ∈
              s'.orders_to ∧
            (examSell qm s.depth p v ts ko.2).status = Status.Filled ∧
            (examSell qm s.depth p v ts ko.2).maker = true ∧
            (examSell qm s.depth p v ts ko.2).exec_price_tick =
              ko.2.price_tick ∧
            (examSell qm s.depth p v ts ko.2).exec_qty = ko.2.leaves_qty) ∧
          (sellFilledFlag qm s.depth p v ko.2 = false →
            lookupA s'.orders ko.1 = some (examSell qm s.depth p v ts ko.2)) ∧
          (p < ko.2.price_tick → lookupA s'.orders ko.1 = some ko.2)) ∧
        (∀ ko ∈ s.orders, ko.2.side = Side.Buy →
          lookupA s'.orders ko.1 = some ko.2) ∧
        s'.filled_orders = [] ∧ s'.depth = s.depth) ∧
    (rustRound (px / s.depth.tick_size) = p → ordersWF s → buyIdxSound s →
      buyIdxComplete s → buyIdxNodup s → buysOpen s →
      buysBelow s s.depth.best_ask_tick → s.filled_orders = [] →
      ∃ s', process_sell_trade qm lm s px v ts = Except.ok s' ∧
        (∀ ko ∈ s.orders, ko.2.side = Side.Buy →
          (buyFilledFlag qm s.depth p v ko.2 = true →
            lookupA s'.orders ko.1 = none ∧
            ko.1 ∉ idxGet s'.buy_orders ko.2.price_tick ∧
            (examBuy qm s.depth p v ts ko.2,
              ts + lm.response ts (examBuy qm s.depth p v ts ko.2)) ∈
              s'.orders_to ∧
            (examBuy qm s.depth p v ts ko.2).status = Status.Filled ∧
            (examBuy qm s.depth p v ts ko.2).maker = true ∧
            (examBuy qm s.depth p v ts ko.2).exec_price_tick =
              ko.2.price_tick ∧
            (examBuy qm s.depth p v ts ko.2).exec_qty = ko.2.leaves_qty) ∧
          (buyFilledFlag qm s.depth p v ko.2 = false →
            lookupA s'.orders ko.1 = some (examBuy qm s.depth p v ts ko.2)) ∧
          (ko.2.price_tick < p → lookupA s'.orders ko.1 = some ko.2)) ∧
        (∀ ko ∈ s.orders, ko.2.side = Side.Sell →
          lookupA s'.orders ko.1 = some ko.2) ∧
        s'.filled_orders = [] ∧ s'.depth = s.depth) :=
  ⟨fun hp h1 h2 h3 h4 h5 h6 h7 =>
      process_buy_trade_spec qm lm s px v ts p hp h1 h2 h3 h4 h5 h6 h7,
    fun hp h1 h2 h3 h4 h5 h6 h7 =>
      process_sell_trade_spec qm lm s px v ts p hp h1 h2 h3 h4 h5 h6 h7⟩

/-- Witness for C5 at `ex0`: a buy trade at price 100.2 (tick 1002) and a
sell trade at price 99.9 (tick 999). -/
theorem trade_event_fill_spec_witness :
    (∃ s', process_buy_trade qmU lmC ex0 (1002 / 10) 10 20 = Except.ok s' ∧
      (∀ ko ∈ ex0.orders, ko.2.side = Side.Sell →
        (sellFilledFlag qmU ex0.depth 1002 10 ko.2 = true →
          lookupA s'.orders ko.1 = none ∧
          ko.1 ∉ idxGet s'.sell_orders ko.2.price_tick ∧
          (examSell qmU ex0.depth 1002 10 20 ko.2,
            20 + lmC.response 20 (examSell qmU ex0.depth 1002 10 20 ko.2)) ∈
            s'.orders_to ∧
          (examSell qmU ex0.depth 1002 10 20 ko.2).status = Status.Filled ∧
          (examSell qmU ex0.depth 1002 10 20 ko.2).maker = true ∧
          (examSell qmU ex0.depth 1002 10 20 ko.2).exec_price_tick =
            ko.2.price_tick ∧
          (examSell qmU ex0.depth 1002 10 20 ko.2).exec_qty =
            ko.2.leaves_qty) ∧
        (sellFilledFlag qmU ex0.depth 1002 10 ko.2 = false →
          lookupA s'.orders ko.1 =
            some (examSell qmU ex0.depth 1002 10 20 ko.2)) ∧
        (1002 < ko.2.price_tick → lookupA s'.orders ko.1 = some ko.2)) ∧
      (∀ ko ∈ ex0.orders, ko.2.side = Side.Buy →
        lookupA s'.orders ko.1 = some ko.2) ∧
      s'.filled_orders = [] ∧ s'.depth = ex0.depth) ∧
    (∃ s', process_sell_trade qmU lmC ex0 (999 / 10) 10 20 = Except.ok s' ∧
      (∀ ko ∈ ex0.orders, ko.2.side = Side.Buy →
        (buyFilledFlag qmU ex0.depth 999 10 ko.2 = true →
          lookupA s'.orders ko.1 = none ∧
          ko.1 ∉ idxGet s'.buy_orders ko.2.price_tick ∧
          (examBuy qmU ex0.depth 999 10 20 ko.2,
            20 + lmC.response 20 (examBuy qmU ex0.depth 999 10 20 ko.2)) ∈
            s'.orders_to ∧
          (examBuy qmU ex0.depth 999 10 20 ko.2).status = Status.Filled ∧
          (examBuy qmU ex0.depth 999 10 20 ko.2).maker = true ∧
          (examBuy qmU ex0.depth 999 10 20 ko.2).exec_price_tick =
            ko.2.price_tick ∧
          (examBuy qmU ex0.depth 999 10 20 ko.2).exec_qty =
            ko.2.leaves_qty) ∧
        (buyFilledFlag qmU ex0.depth 999 10 ko.2 = false →
          lookupA s'.orders ko.1 =
            some (examBuy qmU ex0.depth 999 10 20 ko.2)) ∧
        (ko.2.price_tick < 999 → lookupA s'.orders ko.1 = some ko.2)) ∧
      (∀ ko ∈ ex0.orders, ko.2.side = Side.Sell →
        lookupA s'.orders ko.1 = some ko.2) ∧
      s'.filled_orders = [] ∧ s'.depth = ex0.depth) := by
  constructor
  · exact (trade_event_fill_spec qmU lmC ex0 (1002 / 10) 10 20 1002).1
      (by show rustRound ((1002 / 10 : ℚ) / (1 / 10 : ℚ)) = 1002
          norm_num [rustRound])
      (by unfold ordersWF; decide) (by unfold sellIdxSound; decide)
      (by unfold sellIdxComplete; decide) (by unfold sellIdxNodup; decide)
      (by unfold sellsOpen; decide) (by unfold sellsAbove; decide) rfl
  · exact (trade_event_fill_spec qmU lmC ex0 (999 / 10) 10 20 999).2
      (by show rustRound ((999 / 10 : ℚ) / (1 / 10 : ℚ)) = 999
          norm_num [rustRound])
      (by unfold ordersWF; decide) (by unfold buyIdxSound; decide)
      (by unfold buyIdxComplete; decide) (by unfold buyIdxNodup; decide)
      (by unfold buysOpen; decide) (by unfold buysBelow; decide) rfl

lemma mem_insertA {α : Type} :
    ∀ (l : List (Int × α)) (k : Int) (a : α) (x : Int × α),
    x ∈ insertA l k a → x = (k, a) ∨ x ∈ l := by
  intro l
  induction l with
  | nil =>
    intro k a x hx
    simp [insertA] at hx
    exact Or.inl hx
  | cons hd t ih =>
    intro k a x hx
    obtain ⟨k0, a0⟩ := hd
    by_cases hk : k = k0
    · subst hk
      simp only [insertA, if_pos rfl] at hx
      rcases List.mem_cons.mp hx with h | h
      · exact Or.inl h
      · exact Or.inr (List.mem_cons_of_mem _ h)
    · simp only [insertA, if_neg hk] at hx
      rcases List.mem_cons.mp hx with h | h
      · exact Or.inr (h ▸ List.mem_cons_self _ _)
      · rcases ih k a x h with h' | h'
        · exact Or.inl h'
        · exact Or.inr (List.mem_cons_of_mem _ h')

lemma mem_eraseA {α : Type} :
    ∀ (l : List (Int × α)) (k : Int) (x : Int × α),
    x ∈ eraseA l k → x ∈ l := by
  intro l
  induction l with
  | nil =>
    intro k x hx
    simp [eraseA] at hx
  | cons hd t ih =>
    intro k x hx
    obtain ⟨k0, a0⟩ := hd
    by_cases hk : k = k0
    · simp only [eraseA, if_pos hk] at hx
      exact List.mem_cons_of_mem _ hx
    · simp only [eraseA, if_neg hk] at hx
      rcases List.mem_cons.mp hx with h | h
      · exact h ▸ List.mem_cons_self _ _
      · exact List.mem_cons_of_mem _ (ih k x h)

lemma OrderInv_new {Q : Type} [Inhabited Q] (oid pt : Int) (tsz q : ℚ)
    (sd : Side) (ot : OrdType) (tif : TimeInForce) (hq : 0 ≤ q) :
    OrderInv (Order.new oid pt tsz q sd ot tif : Order Q) :=
  ⟨hq, le_refl 0, by simp [Order.new], fun hf => Status.noConfusion hf⟩

lemma OrderInv_fillOrder {Q : Type} {o : Order Q} (h : OrderInv o)
    (ts : Int) (mk : Bool) (px : Int) : OrderInv (fillOrder o ts mk px) := by
  obtain ⟨h1, h2, h3, _⟩ := h
  exact ⟨le_refl 0, h1, by simp only [fillOrder]; linarith, fun _ => rfl⟩

lemma OrderInv_expired {Q : Type} {o : Order Q} (h : OrderInv o) (ts : Int) :
    OrderInv { o with status := Status.Expired, exch_timestamp := ts } :=
  ⟨h.1, h.2.1, h.2.2.1, fun hf => Status.noConfusion hf⟩

lemma OrderInv_canceled {Q : Type} {o : Order Q} (h : OrderInv o) (ts : Int) :
    OrderInv { o with status := Status.Canceled, exch_timestamp := ts } :=
  ⟨h.1, h.2.1, h.2.2.1, fun hf => Status.noConfusion hf⟩

lemma OrderInv_newAccepted {Q : Type} {o : Order Q} (h : OrderInv o)
    (qm : QueueModel Q) (dep : Depth) (ts : Int) :
    OrderInv (newAccepted qm o dep ts) :=
  ⟨h.1, h.2.1, h.2.2.1, fun hf => Status.noConfusion hf⟩

lemma OrderInv_qupd {Q : Type} {o : Order Q} (h : OrderInv o) (qv : Q) :
    OrderInv { o with q := qv } :=
  ⟨h.1, h.2.1, h.2.2.1, h.2.2.2⟩

lemma OrderInv_examSell {Q : Type} {qm : QueueModel Q} {dep : Depth}
    {p : Int} {v : ℚ} {ts : Int} {o : Order Q} (h : OrderInv o) :
    OrderInv (examSell qm dep p v ts o) := by
  simp only [examSell]
  split_ifs
  · exact OrderInv_fillOrder h ts true o.price_tick
  · exact OrderInv_fillOrder (OrderInv_qupd h _) ts true _
  · exact OrderInv_qupd h _
  · exact h

lemma OrderInv_examBuy {Q : Type} {qm : QueueModel Q} {dep : Depth}
    {p : Int} {v : ℚ} {ts : Int} {o : Order Q} (h : OrderInv o) :
    OrderInv (examBuy qm dep p v ts o) := by
  simp only [examBuy]
  split_ifs
  · exact OrderInv_fillOrder h ts true o.price_tick
  · exact OrderInv_fillOrder (OrderInv_qupd h _) ts true _
  · exact OrderInv_qupd h _
  · exact h

lemma ack_new_buy_taker_term {Q : Type} (qm : QueueModel Q)
    (lm : LatencyModel Q) (s : ExchSt Q) (order : Order Q) (ts : Int)
    (hnone : lookupA s.orders order.order_id = none)
    (hside : order.side = Side.Buy)
    (hc : s.depth.best_ask_tick ≤ order.price_tick)
    (htif : order.time_in_force ≠ TimeInForce.GTX)
    (hst : order.status = Status.Expired ∨ order.status = Status.Canceled ∨
      order.status = Status.Filled) :
    ack_new qm lm s order ts = Except.error Error.InvalidOrderStatus := by
  simp [ack_new, hnone, hside, htif, hc, ge_iff_le, fill, hst]

lemma ack_new_sell_taker_term {Q : Type} (qm : QueueModel Q)
    (lm : LatencyModel Q) (s : ExchSt Q) (order : Order Q) (ts : Int)
    (hnone : lookupA s.orders order.order_id = none)
    (hside : order.side ≠ Side.Buy)
    (hc : order.price_tick ≤ s.depth.best_bid_tick)
    (htif : order.time_in_force ≠ TimeInForce.GTX)
    (hst : order.status = Status.Expired ∨ order.status = Status.Canceled ∨
      order.status = Status.Filled) :
    ack_new qm lm s order ts = Except.error Error.InvalidOrderStatus := by
  simp [ack_new, hnone, hside, htif, hc, ge_iff_le, fill, hst]

lemma check_sell_qtyinv {Q : Type} {qm : QueueModel Q} {lm : LatencyModel Q}
    {s s1 : ExchSt Q} {o o1 : Order Q} {p : Int} {v : ℚ} {ts t1 : Int}
    (hinv : ExchQtyInv s) (ho : OrderInv o)
    (hc : check_if_sell_filled qm lm s o p v ts = Except.ok (s1, o1, t1)) :
    ExchQtyInv s1 ∧ OrderInv o1 ∧ s1.orders = s.orders := by
  simp only [check_if_sell_filled] at hc
  split_ifs at hc with h1 h2 h3
  · by_cases hterm : o.status = Status.Expired ∨ o.status = Status.Canceled ∨
        o.status = Status.Filled
    · rw [fill_error lm (pushFilled s o.order_id) o ts true o.price_tick
        hterm] at hc
      exact Except.noConfusion hc
    · rw [fill_ok lm (pushFilled s o.order_id) o ts true o.price_tick
        hterm] at hc
      simp only [Except.ok.injEq, Prod.mk.injEq] at hc
      obtain ⟨rfl, rfl, rfl⟩ := hc
      refine ⟨⟨hinv.1, ?_⟩, OrderInv_fillOrder ho ts true o.price_tick, rfl⟩
      intro e he
      rcases (mem_busAppend s.orders_to _ _ e).mp he with h | h
      · exact hinv.2 e h
      · rw [h]
        exact OrderInv_fillOrder ho ts true o.price_tick
  · by_cases hterm : o.status = Status.Expired ∨ o.status = Status.Canceled ∨
        o.status = Status.Filled
    · rw [fill_error lm _ { o with q := qm.trade o v s.depth } ts true _
        hterm] at hc
      exact Except.noConfusion hc
    · rw [fill_ok lm _ { o with q := qm.trade o v s.depth } ts true _
        hterm] at hc
      simp only [Except.ok.injEq, Prod.mk.injEq] at hc
      obtain ⟨rfl, rfl, rfl⟩ := hc
      refine ⟨⟨hinv.1, ?_⟩,
        OrderInv_fillOrder (OrderInv_qupd ho _) ts true _, rfl⟩
      intro e he
      rcases (mem_busAppend s.orders_to _ _ e).mp he with h | h
      · exact hinv.2 e h
      · rw [h]
        exact OrderInv_fillOrder (OrderInv_qupd ho _) ts true _
  · simp only [Except.ok.injEq, Prod.mk.injEq] at hc
    obtain ⟨rfl, rfl, rfl⟩ := hc
    exact ⟨hinv, OrderInv_qupd ho _, rfl⟩
  · simp only [Except.ok.injEq, Prod.mk.injEq] at hc
    obtain ⟨rfl, rfl, rfl⟩ := hc
    exact ⟨hinv, ho, rfl⟩

lemma check_buy_qtyinv {Q : Type} {qm : QueueModel Q} {lm : LatencyModel Q}
    {s s1 : ExchSt Q} {o o1 : Order Q} {p : Int} {v : ℚ} {ts t1 : Int}
    (hinv : ExchQtyInv s) (ho : OrderInv o)
    (hc : check_if_buy_filled qm lm s o p v ts = Except.ok (s1, o1, t1)) :
    ExchQtyInv s1 ∧ OrderInv o1 ∧ s1.orders = s.orders := by
  simp only [check_if_buy_filled] at hc
  split_ifs at hc with h1 h2 h3
  · by_cases hterm : o.status = Status.Expired ∨ o.status = Status.Canceled ∨
        o.status = Status.Filled
    · rw [fill_error lm (pushFilled s o.order_id) o ts true o.price_tick
        hterm] at hc
      exact Except.noConfusion hc
    · rw [fill_ok lm (pushFilled s o.order_id) o ts true o.price_tick
        hterm] at hc
      simp only [Except.ok.injEq, Prod.mk.injEq] at hc
      obtain ⟨rfl, rfl, rfl⟩ := hc
      refine ⟨⟨hinv.1, ?_⟩, OrderInv_fillOrder ho ts true o.price_tick, rfl⟩
      intro e he
      rcases (mem_busAppend s.orders_to _ _ e).mp he with h | h
      · exact hinv.2 e h
      · rw [h]
        exact OrderInv_fillOrder ho ts true o.price_tick
  · by_cases hterm : o.status = Status.Expired ∨ o.status = Status.Canceled ∨
        o.status = Status.Filled
    · rw [fill_error lm _ { o with q := qm.trade o v s.depth } ts true _
        hterm] at hc
      exact Except.noConfusion hc
    · rw [fill_ok lm _ { o with q := qm.trade o v s.depth } ts true _
        hterm] at hc
      simp only [Except.ok.injEq, Prod.mk.injEq] at hc
      obtain ⟨rfl, rfl, rfl⟩ := hc
      refine ⟨⟨hinv.1, ?_⟩,
        OrderInv_fillOrder (OrderInv_qupd ho _) ts true _, rfl⟩
      intro e he
      rcases (mem_busAppend s.orders_to _ _ e).mp he with h | h
      · exact hinv.2 e h
      · rw [h]
        exact OrderInv_fillOrder (OrderInv_qupd ho _) ts true _
  · simp only [Except.ok.injEq, Prod.mk.injEq] at hc
    obtain ⟨rfl, rfl, rfl⟩ := hc
    exact ⟨hinv, OrderInv_qupd ho _, rfl⟩
  · simp only [Except.ok.injEq, Prod.mk.injEq] at hc
    obtain ⟨rfl, rfl, rfl⟩ := hc
    exact ⟨hinv, ho, rfl⟩

lemma sweep_sell_ids_qtyinv {Q : Type} (qm : QueueModel Q)
    (lm : LatencyModel Q) (p : Int) (v : ℚ) (ts : Int) :
    ∀ (ids : List Int) (s s' : ExchSt Q), ExchQtyInv s →
    sweep_sell_ids qm lm p v ts ids s = Except.ok s' → ExchQtyInv s' := by
  intro ids
  induction ids with
  | nil =>
    intro s s' hinv hrun
    cases hrun
    exact hinv
  | cons oid rest ih =>
    intro s s' hinv hrun
    cases hl : lookupA s.orders oid with
    | none =>
      simp only [sweep_sell_ids, hl] at hrun
      exact Except.noConfusion hrun
    | some o =>
      cases hc : check_if_sell_filled qm lm s o p v ts with
      | error e =>
        simp only [sweep_sell_ids, hl, hc] at hrun
        exact Except.noConfusion hrun
      | ok res =>
        obtain ⟨s1, o1, t1⟩ := res
        simp only [sweep_sell_ids, hl, hc] at hrun
        have ho : OrderInv o := hinv.1 (oid, o) (lookupA_mem hl)
        obtain ⟨hinv1, ho1, _⟩ := check_sell_qtyinv hinv ho hc
        refine ih _ s' ?_ hrun
        refine ⟨?_, hinv1.2⟩
        intro ko hko
        rcases mem_insertA _ _ _ ko hko with h | h
        · rw [h]
          exact ho1
        · exact hinv1.1 ko h

lemma sweep_buy_ids_qtyinv {Q : Type} (qm : QueueModel Q)
    (lm : LatencyModel Q) (p : Int) (v : ℚ) (ts : Int) :
    ∀ (ids : List Int) (s s' : ExchSt Q), ExchQtyInv s →
    sweep_buy_ids qm lm p v ts ids s = Except.ok s' → ExchQtyInv s' := by
  intro ids
  induction ids with
  | nil =>
    intro s s' hinv hrun
    cases hrun
    exact hinv
  | cons oid rest ih =>
    intro s s' hinv hrun
    cases hl : lookupA s.orders oid with
    | none =>
      simp only [sweep_buy_ids, hl] at hrun
      exact Except.noConfusion hrun
    | some o =>
      cases hc : check_if_buy_filled qm lm s o p v ts with
      | error e =>
        simp only [sweep_buy_ids, hl, hc] at hrun
        exact Except.noConfusion hrun
      | ok res =>
        obtain ⟨s1, o1, t1⟩ := res
        simp only [sweep_buy_ids, hl, hc] at hrun
        have ho : OrderInv o := hinv.1 (oid, o) (lookupA_mem hl)
        obtain ⟨hinv1, ho1, _⟩ := check_buy_qtyinv hinv ho hc
        refine ih _ s' ?_ hrun
        refine ⟨?_, hinv1.2⟩
        intro ko hko
        rcases mem_insertA _ _ _ ko hko with h | h
        · rw [h]
          exact ho1
        · exact hinv1.1 ko h

lemma sweep_sell_ticks_qtyinv {Q : Type} (qm : QueueModel Q)
    (lm : LatencyModel Q) (p : Int) (v : ℚ) (ts : Int)
    (idx : List (Int × List Int)) :
    ∀ (span : List Int) (s s' : ExchSt Q), ExchQtyInv s →
    sweep_sell_ticks qm lm p v ts idx span s = Except.ok s' →
    ExchQtyInv s' := by
  intro span
  induction span with
  | nil =>
    intro s s' hinv hrun
    cases hrun
    exact hinv
  | cons t rest ih =>
    intro s s' hinv hrun
    cases hl : lookupA idx t with
    | none =>
      simp only [sweep_sell_ticks, hl] at hrun
      exact ih s s' hinv hrun
    | some ids =>
      cases hr : sweep_sell_ids qm lm p v ts ids s with
      | error e =>
        simp only [sweep_sell_ticks, hl, hr] at hrun
        exact Except.noConfusion hrun
      | ok s1 =>
        simp only [sweep_sell_ticks, hl, hr] at hrun
        exact ih s1 s' (sweep_sell_ids_qtyinv qm lm p v ts ids s s1 hinv hr)
          hrun

lemma sweep_buy_ticks_qtyinv {Q : Type} (qm : QueueModel Q)
    (lm : LatencyModel Q) (p : Int) (v : ℚ) (ts : Int)
    (idx : List (Int × List Int)) :
    ∀ (span : List Int) (s s' : ExchSt Q), ExchQtyInv s →
    sweep_buy_ticks qm lm p v ts idx span s = Except.ok s' →
    ExchQtyInv s' := by
  intro span
  induction span with
  | nil =>
    intro s s' hinv hrun
    cases hrun
    exact hinv
  | cons t rest ih =>
    intro s s' hinv hrun
    cases hl : lookupA idx t with
    | none =>
      simp only [sweep_buy_ticks, hl] at hrun
      exact ih s s' hinv hrun
    | some ids =>
      cases hr : sweep_buy_ids qm lm p v ts ids s with
      | error e =>
        simp only [sweep_buy_ticks, hl, hr] at hrun
        exact Except.noConfusion hrun
      | ok s1 =>
        simp only [sweep_buy_ticks, hl, hr] at hrun
        exact ih s1 s' (sweep_buy_ids_qtyinv qm lm p v ts ids s s1 hinv hr)
          hrun

lemma sweep_sell_map_qtyinv {Q : Type} (qm : QueueModel Q)
    (lm : LatencyModel Q) (p : Int) (v : ℚ) (ts : Int) :
    ∀ (l : List (Int × Order Q)) (s s' : ExchSt Q),
    (∀ ko ∈ l, OrderInv ko.2) → ExchQtyInv s →
    sweep_sell_map qm lm p v ts l s = Except.ok s' → ExchQtyInv s' := by
  intro l
  induction l with
  | nil =>
    intro s s' _ hinv hrun
    cases hrun
    exact hinv
  | cons ko rest ih =>
    intro s s' hl hinv hrun
    obtain ⟨k, o⟩ := ko
    by_cases hside : o.side = Side.Sell
    · cases hc : check_if_sell_filled qm lm s o p v ts with
      | error e =>
        simp only [sweep_sell_map, if_pos hside, hc] at hrun
        exact Except.noConfusion hrun
      | ok res =>
        obtain ⟨s1, o1, t1⟩ := res
        simp only [sweep_sell_map, if_pos hside, hc] at hrun
        have ho : OrderInv o := hl (k, o) (List.mem_cons_self _ _)
        obtain ⟨hinv1, ho1, _⟩ := check_sell_qtyinv hinv ho hc
        refine ih _ s' (fun x hx => hl x (List.mem_cons_of_mem _ hx)) ?_ hrun
        refine ⟨?_, hinv1.2⟩
        intro x hx
        rcases mem_insertA _ _ _ x hx with h | h
        · rw [h]
          exact ho1
        · exact hinv1.1 x h
    · simp only [sweep_sell_map, if_neg hside] at hrun
      exact ih _ s' (fun x hx => hl x (List.mem_cons_of_mem _ hx)) hinv hrun

lemma sweep_buy_map_qtyinv {Q : Type} (qm : QueueModel Q)
    (lm : LatencyModel Q) (p : Int) (v : ℚ) (ts : Int) :
    ∀ (l : List (Int × Order Q)) (s s' : ExchSt Q),
    (∀ ko ∈ l, OrderInv ko.2) → ExchQtyInv s →
    sweep_buy_map qm lm p v ts l s = Except.ok s' → ExchQtyInv s' := by
  intro l
  induction l with
  | nil =>
    intro s s' _ hinv hrun
    cases hrun
    exact hinv
  | cons ko rest ih =>
    intro s s' hl hinv hrun
    obtain ⟨k, o⟩ := ko
    by_cases hside : o.side = Side.Buy
    · cases hc : check_if_buy_filled qm lm s o p v ts with
      | error e =>
        simp only [sweep_buy_map, if_pos hside, hc] at hrun
        exact Except.noConfusion hrun
      | ok res =>
        obtain ⟨s1, o1, t1⟩ := res
        simp only [sweep_buy_map, if_pos hside, hc] at hrun
        have ho : OrderInv o := hl (k, o) (List.mem_cons_self _ _)
        obtain ⟨hinv1, ho1, _⟩ := check_buy_qtyinv hinv ho hc
        refine ih _ s' (fun x hx => hl x (List.mem_cons_of_mem _ hx)) ?_ hrun
        refine ⟨?_, hinv1.2⟩
        intro x hx
        rcases mem_insertA _ _ _ x hx with h | h
        · rw [h]
          exact ho1
        · exact hinv1.1 x h
    · simp only [sweep_buy_map, if_neg hside] at hrun
      exact ih _ s' (fun x hx => hl x (List.mem_cons_of_mem _ hx)) hinv hrun

lemma remove_filled_go_qtyinv {Q : Type} :
    ∀ (fl : List Int) (s s' : ExchSt Q), ExchQtyInv s →
    remove_filled_go fl s = Except.ok s' → ExchQtyInv s' := by
  intro fl
  induction fl with
  | nil =>
    intro s s' hinv hrun
    cases hrun
    exact hinv
  | cons oid rest ih =>
    intro s s' hinv hrun
    cases hl : lookupA s.orders oid with
    | none =>
      simp only [remove_filled_go, hl] at hrun
      exact Except.noConfusion hrun
    | some o =>
      by_cases hside : o.side = Side.Buy
      · cases hr : idxRemove s.buy_orders o.price_tick oid with
        | error e =>
          simp only [remove_filled_go, hl, if_pos hside, hr] at hrun
          exact Except.noConfusion hrun
        | ok bi =>
          simp only [remove_filled_go, hl, if_pos hside, hr] at hrun
          refine ih _ s' ?_ hrun
          refine ⟨?_, hinv.2⟩
          intro ko hko
          exact hinv.1 ko (mem_eraseA _ _ _ hko)
      · cases hr : idxRemove s.sell_orders o.price_tick oid with
        | error e =>
          simp only [remove_filled_go, hl, if_neg hside, hr] at hrun
          exact Except.noConfusion hrun
        | ok si =>
          simp only [remove_filled_go, hl, if_neg hside, hr] at hrun
          refine ih _ s' ?_ hrun
          refine ⟨?_, hinv.2⟩
          intro ko hko
          exact hinv.1 ko (mem_eraseA _ _ _ hko)

lemma remove_filled_orders_qtyinv {Q : Type} {s s' : ExchSt Q}
    (hinv : ExchQtyInv s) (hrun : remove_filled_orders s = Except.ok s') :
    ExchQtyInv s' := by
  unfold remove_filled_orders at hrun
  cases hr : remove_filled_go s.filled_orders s with
  | error e =>
    rw [hr] at hrun
    exact Except.noConfusion hrun
  | ok s2 =>
    rw [hr] at hrun
    simp only [Except.ok.injEq] at hrun
    subst hrun
    exact remove_filled_go_qtyinv s.filled_orders s s2 hinv hr

lemma ack_new_qtyinv {Q : Type} {qm : QueueModel Q} {lm : LatencyModel Q}
    {s s' : ExchSt Q} {order : Order Q} {ts t : Int}
    (hinv : ExchQtyInv s) (hord : OrderInv order)
    (hrun : ack_new qm lm s order ts = Except.ok (s', t)) : ExchQtyInv s' := by
  cases hl : lookupA s.orders order.order_id with
  | some o =>
    rw [ack_new_dup qm lm s order ts (by rw [hl]; rfl)] at hrun
    exact Except.noConfusion hrun
  | none =>
    by_cases hside : order.side = Side.Buy
    · by_cases hc : s.depth.best_ask_tick ≤ order.price_tick
      · by_cases htif : order.time_in_force = TimeInForce.GTX
        · rw [ack_new_buy_gtx qm lm s order ts hl hside hc htif] at hrun
          simp only [Except.ok.injEq, Prod.mk.injEq] at hrun
          obtain ⟨rfl, rfl⟩ := hrun
          refine ⟨hinv.1, ?_⟩
          intro e he
          rcases (mem_busAppend s.orders_to _ _ e).mp he with h | h
          · exact hinv.2 e h
          · rw [h]
            exact OrderInv_expired hord ts
        · by_cases hterm : order.status = Status.Expired ∨
              order.status = Status.Canceled ∨ order.status = Status.Filled
          · rw [ack_new_buy_taker_term qm lm s order ts hl hside hc htif
              hterm] at hrun
            exact Except.noConfusion hrun
          · rw [ack_new_buy_taker qm lm s order ts hl hside hc htif hterm]
              at hrun
            simp only [Except.ok.injEq, Prod.mk.injEq] at hrun
            obtain ⟨rfl, rfl⟩ := hrun
            refine ⟨hinv.1, ?_⟩
            intro e he
            rcases (mem_busAppend s.orders_to _ _ e).mp he with h | h
            · exact hinv.2 e h
            · rw [h]
              exact OrderInv_fillOrder hord ts false s.depth.best_ask_tick
      · push_neg at hc
        rw [ack_new_buy_accept qm lm s order ts hl hside hc] at hrun
        simp only [Except.ok.injEq, Prod.mk.injEq] at hrun
        obtain ⟨rfl, rfl⟩ := hrun
        refine ⟨?_, ?_⟩
        · intro ko hko
          rcases mem_insertA _ _ _ ko hko with h | h
          · rw [h]
            exact OrderInv_newAccepted hord qm s.depth ts
          · exact hinv.1 ko h
        · intro e he
          rcases (mem_busAppend s.orders_to _ _ e).mp he with h | h
          · exact hinv.2 e h
          · rw [h]
            exact OrderInv_newAccepted hord qm s.depth ts
    · have hsell : order.side = Side.Sell := by
        cases hx : order.side with
        | Buy => exact absurd hx hside
        | Sell => rfl
      by_cases hc : order.price_tick ≤ s.depth.best_bid_tick
      · by_cases htif : order.time_in_force = TimeInForce.GTX
        · rw [ack_new_sell_gtx qm lm s order ts hl hsell hc htif] at hrun
          simp only [Except.ok.injEq, Prod.mk.injEq] at hrun
          obtain ⟨rfl, rfl⟩ := hrun
          refine ⟨hinv.1, ?_⟩
          intro e he
          rcases (mem_busAppend s.orders_to _ _ e).mp he with h | h
          · exact hinv.2 e h
          · rw [h]
            exact OrderInv_expired hord ts
        · by_cases hterm : order.status = Status.Expired ∨
              order.status = Status.Canceled ∨ order.status = Status.Filled
          · rw [ack_new_sell_taker_term qm lm s order ts hl hside hc htif
              hterm] at hrun
            exact Except.noConfusion hrun
          · rw [ack_new_sell_taker qm lm s order ts hl hsell hc htif hterm]
              at hrun
            simp only [Except.ok.injEq, Prod.mk.injEq] at hrun
            obtain ⟨rfl, rfl⟩ := hrun
            refine ⟨hinv.1, ?_⟩
            intro e he
            rcases (mem_busAppend s.orders_to _ _ e).mp he with h | h
            · exact hinv.2 e h
            · rw [h]
              exact OrderInv_fillOrder hord ts false s.depth.best_bid_tick
      · push_neg at hc
        rw [ack_new_sell_accept qm lm s order ts hl hsell hc] at hrun
        simp only [Except.ok.injEq, Prod.mk.injEq] at hrun
        obtain ⟨rfl, rfl⟩ := hrun
        refine ⟨?_, ?_⟩
        · intro ko hko
          rcases mem_insertA _ _ _ ko hko with h | h
          · rw [h]
            exact OrderInv_newAccepted hord qm s.depth ts
          · exact hinv.1 ko h
        · intro e he
          rcases (mem_busAppend s.orders_to _ _ e).mp he with h | h
          · exact hinv.2 e h
          · rw [h]
            exact OrderInv_newAccepted hord qm s.depth ts

lemma ack_cancel_qtyinv {Q : Type} {lm : LatencyModel Q} {s s' : ExchSt Q}
    {order : Order Q} {ts t : Int} (hinv : ExchQtyInv s)
    (hrun : ack_cancel lm s order ts = Except.ok (s', t)) : ExchQtyInv s' := by
  cases hl : lookupA s.orders order.order_id with
  | none =>
    rw [ack_cancel_absent_eq lm s order ts hl] at hrun
    simp only [Except.ok.injEq, Prod.mk.injEq] at hrun
    obtain ⟨rfl, rfl⟩ := hrun
    exact hinv
  | some exo =>
    have hexo : OrderInv exo := hinv.1 (order.order_id, exo) (lookupA_mem hl)
    by_cases hside : exo.side = Side.Buy
    · cases hids : lookupA s.buy_orders exo.price_tick with
      | none =>
        rw [ack_cancel_panic_buy lm s order exo ts hl hside hids] at hrun
        exact Except.noConfusion hrun
      | some ids =>
        rw [ack_cancel_present_buy lm s order exo ts ids hl hside hids] at hrun
        simp only [Except.ok.injEq, Prod.mk.injEq] at hrun
        obtain ⟨rfl, rfl⟩ := hrun
        refine ⟨?_, ?_⟩
        · intro ko hko
          exact hinv.1 ko (mem_eraseA _ _ _ hko)
        · intro e he
          rcases (mem_busAppend s.orders_to _ _ e).mp he with h | h
          · exact hinv.2 e h
          · rw [h]
            exact OrderInv_canceled hexo ts
    · have hsell : exo.side = Side.Sell := by
        cases hx : exo.side with
        | Buy => exact absurd hx hside
        | Sell => rfl
      cases hids : lookupA s.sell_orders exo.price_tick with
      | none =>
        rw [ack_cancel_panic_sell lm s order exo ts hl hsell hids] at hrun
        exact Except.noConfusion hrun
      | some ids =>
        rw [ack_cancel_present_sell lm s order exo ts ids hl hsell hids]
          at hrun
        simp only [Except.ok.injEq, Prod.mk.injEq] at hrun
        obtain ⟨rfl, rfl⟩ := hrun
        refine ⟨?_, ?_⟩
        · intro ko hko
          exact hinv.1 ko (mem_eraseA _ _ _ hko)
        · intro e he
          rcases (mem_busAppend s.orders_to _ _ e).mp he with h | h
          · exact hinv.2 e h
          · rw [h]
            exact OrderInv_canceled hexo ts

lemma process_buy_trade_qtyinv {Q : Type} {qm : QueueModel Q}
    {lm : LatencyModel Q} {s s' : ExchSt Q} {px v : ℚ} {ts : Int}
    (hinv : ExchQtyInv s)
    (hrun : process_buy_trade qm lm s px v ts = Except.ok s') :
    ExchQtyInv s' := by
  by_cases hc : s.depth.best_bid_tick = INVALID_MIN ∨
      (s.orders.length : Int) <
        rustRound (px / s.depth.tick_size) - s.depth.best_bid_tick
  · cases hA : sweep_sell_map qm lm (rustRound (px / s.depth.tick_size)) v ts
        s.orders s with
    | error e =>
      simp only [process_buy_trade, if_pos hc, hA] at hrun
      exact Except.noConfusion hrun
    | ok s1 =>
      simp only [process_buy_trade, if_pos hc, hA] at hrun
      exact remove_filled_orders_qtyinv
        (sweep_sell_map_qtyinv qm lm _ v ts s.orders s s1 hinv.1 hinv hA) hrun
  · cases hA : sweep_sell_ticks qm lm (rustRound (px / s.depth.tick_size)) v ts
        s.sell_orders
        (tickRange (s.depth.best_bid_tick + 1)
          (rustRound (px / s.depth.tick_size))) s with
    | error e =>
      simp only [process_buy_trade, if_neg hc, hA] at hrun
      exact Except.noConfusion hrun
    | ok s1 =>
      simp only [process_buy_trade, if_neg hc, hA] at hrun
      exact remove_filled_orders_qtyinv
        (sweep_sell_ticks_qtyinv qm lm _ v ts s.sell_orders _ s s1 hinv hA)
        hrun

lemma process_sell_trade_qtyinv {Q : Type} {qm : QueueModel Q}
    {lm : LatencyModel Q} {s s' : ExchSt Q} {px v : ℚ} {ts : Int}
    (hinv : ExchQtyInv s)
    (hrun : process_sell_trade qm lm s px v ts = Except.ok s') :
    ExchQtyInv s' := by
  by_cases hc : s.depth.best_ask_tick = INVALID_MAX ∨
      (s.orders.length : Int) <
        s.depth.best_ask_tick - rustRound (px / s.depth.tick_size)
  · cases hA : sweep_buy_map qm lm (rustRound (px / s.depth.tick_size)) v ts
        s.orders s with
    | error e =>
      simp only [process_sell_trade, if_pos hc, hA] at hrun
      exact Except.noConfusion hrun
    | ok s1 =>
      simp only [process_sell_trade, if_pos hc, hA] at hrun
      exact remove_filled_orders_qtyinv
        (sweep_buy_map_qtyinv qm lm _ v ts s.orders s s1 hinv.1 hinv hA) hrun
  · cases hA : sweep_buy_ticks qm lm (rustRound (px / s.depth.tick_size)) v ts
        s.buy_orders
        (tickRange (rustRound (px / s.depth.tick_size))
          (s.depth.best_ask_tick - 1)).reverse s with
    | error e =>
      simp only [process_sell_trade, if_neg hc, hA] at hrun
      exact Except.noConfusion hrun
    | ok s1 =>
      simp only [process_sell_trade, if_neg hc, hA] at hrun
      exact remove_filled_orders_qtyinv
        (sweep_buy_ticks_qtyinv qm lm _ v ts s.buy_orders _ s s1 hinv hA)
        hrun

/-- Counterexample to C6's "terminal status implies `leaves_qty = 0`":
acknowledging a cancel of resting sell order 5 (`ack_cancel`,
nopartialfillexchange.rs 408-445) responds with an order of status
`Canceled` whose `leaves_qty` is still 1 — only `status` and
`exch_timestamp` are touched, the unfilled quantity is never zeroed.  The
same holds for `Expired` (GTX expiry keeps the quantities); only a fill
zeroes `leaves_qty`. -/
theorem order_qty_invariant_counterexample :
    ((ack_cancel lmC ex0 reqC5 10).map
        (fun r => r.1.orders_to.map
          (fun e => (e.1.order_id, e.1.status, e.1.leaves_qty, e.2)))) =
      Except.ok [(5, Status.Canceled, (1 : ℚ), 11)] ∧ (1 : ℚ) ≠ 0 :=
  ⟨rfl, one_ne_zero⟩

/-- C6 (amended): the quantity/status invariant the code maintains is
`OrderInv`: `0 ≤ leaves_qty`, `0 ≤ exec_qty`, `leaves_qty + exec_qty ≤ qty`,
and `leaves_qty = 0` once `Filled` — terminal `Canceled`/`Expired` orders
keep their unfilled `leaves_qty` (see the counterexample).  `Order::new`
establishes it for a non-negative quantity; `fill` fills the whole
`leaves_qty` in one step (`exec_qty` becomes the previous `leaves_qty`,
`leaves_qty` becomes 0, status `Filled` — no partial fills) and `fillOrder`
preserves the invariant; and every order held by the exchange (resting map
and outbound bus) keeps the invariant across `ack_new`, `ack_cancel` and
the two trade-event handlers.  A canceled order's response keeps its
`leaves_qty` unchanged. -/
theorem order_qty_invariant_spec {Q : Type} [Inhabited Q] (qm : QueueModel Q)
    (lm : LatencyModel Q) :
    (∀ (oid pt : Int) (tsz q : ℚ) (sd : Side) (ot : OrdType)
        (tif : TimeInForce), 0 ≤ q →
      OrderInv (Order.new oid pt tsz q sd ot tif : Order Q)) ∧
    (∀ (s : ExchSt Q) (o : Order Q) (ts : Int) (mk : Bool) (px : Int),
      ¬(o.status = Status.Expired ∨ o.status = Status.Canceled ∨
          o.status = Status.Filled) →
      ∀ s1 o1 t1, fill lm s o ts mk px = Except.ok (s1, o1, t1) →
        o1.exec_qty = o.leaves_qty ∧ o1.leaves_qty = 0 ∧
        o1.status = Status.Filled ∧ (OrderInv o → OrderInv o1)) ∧
    (∀ (o : Order Q) (ts : Int) (mk : Bool) (px : Int), OrderInv o →
      OrderInv (fillOrder o ts mk px)) ∧
    (∀ (s s' : ExchSt Q) (order : Order Q) (ts t : Int), ExchQtyInv s →
      OrderInv order → ack_new qm lm s order ts = Except.ok (s', t) →
      ExchQtyInv s') ∧
    (∀ (s s' : ExchSt Q) (order : Order Q) (ts t : Int), ExchQtyInv s →
      ack_cancel lm s order ts = Except.ok (s', t) → ExchQtyInv s') ∧
    (∀ (s s' : ExchSt Q) (px v : ℚ) (ts : Int), ExchQtyInv s →
      process_buy_trade qm lm s px v ts = Except.ok s' → ExchQtyInv s') ∧
    (∀ (s s' : ExchSt Q) (px v : ℚ) (ts : Int), ExchQtyInv s →
      process_sell_trade qm lm s px v ts = Except.ok s' → ExchQtyInv s') ∧
    (∀ (s : ExchSt Q) (order exo : Order Q) (ts : Int) (ids : List Int),
      lookupA s.orders order.order_id = some exo → exo.side = Side.Sell →
      lookupA s.sell_orders exo.price_tick = some ids →
      ∃ s' t, ack_cancel lm s order ts = Except.ok (s', t) ∧
        ({ exo with status := Status.Canceled, exch_timestamp := ts }, t) ∈
          s'.orders_to ∧
        ({ exo with
            status := Status.Canceled
            exch_timestamp := ts } : Order Q).leaves_qty =
          exo.leaves_qty) := by
  refine ⟨fun oid pt tsz q sd ot tif hq =>
      OrderInv_new oid pt tsz q sd ot tif hq,
    ?_, fun o ts mk px h => OrderInv_fillOrder h ts mk px,
    fun s s' order ts t hinv hord hrun => ack_new_qtyinv hinv hord hrun,
    fun s s' order ts t hinv hrun => ack_cancel_qtyinv hinv hrun,
    fun s s' px v ts hinv hrun => process_buy_trade_qtyinv hinv hrun,
    fun s s' px v ts hinv hrun => process_sell_trade_qtyinv hinv hrun, ?_⟩
  · intro s o ts mk px hterm s1 o1 t1 hfe
    rw [fill_ok lm s o ts mk px hterm] at hfe
    simp only [Except.ok.injEq, Prod.mk.injEq] at hfe
    obtain ⟨rfl, rfl, rfl⟩ := hfe
    exact ⟨rfl, rfl, rfl, fun h => OrderInv_fillOrder h ts mk px⟩
  · intro s order exo ts ids hl hside hids
    refine ⟨_, _, ack_cancel_present_sell lm s order exo ts ids hl hside hids,
      ?_, rfl⟩
    exact (mem_busAppend s.orders_to _ _ _).mpr (Or.inr rfl)

/-- Witness for C6 at concrete inputs: `Order::new` with quantity 2
satisfies the invariant, and the cancel acknowledgment of resting order 5
at `ex0` keeps the canceled order's `leaves_qty`. -/
theorem order_qty_invariant_spec_witness :
    OrderInv (Order.new 1 100 (1 / 10) 2 Side.Buy OrdType.Limit
      TimeInForce.GTC : Order Unit) ∧
    (∃ s' t, ack_cancel lmC ex0 reqC5 10 = Except.ok (s', t) ∧
      ({ oSell5 with status := Status.Canceled, exch_timestamp := 10 }, t) ∈
        s'.orders_to ∧
      ({ oSell5 with
          status := Status.Canceled
          exch_timestamp := 10 } : Order Unit).leaves_qty =
        oSell5.leaves_qty) :=
  ⟨(order_qty_invariant_spec qmU lmC).1 1 100 (1 / 10) 2 Side.Buy
      OrdType.Limit TimeInForce.GTC (by norm_num),
    (order_qty_invariant_spec qmU lmC).2.2.2.2.2.2.2 ex0 reqC5 oSell5 10 [5]
      rfl rfl rfl⟩
